import Mathlib

/-
Verification of the pchain-types binary wire-encoding layer
(crate `protocol_types`, files src/protocol_types/src/*.rs).

Byte strings are modelled as `List Nat` whose elements are byte values
(< 256 on the wire; integer encoders only emit values < 256).  Machine
integers are `Nat` with explicit `% 2 ^ 32` / `% 2 ^ 64` where the code
casts.  Fallible operations return `DResult`, whose `crash` constructor
models a Rust panic (out-of-range slice index or a `copy_from_slice`
length mismatch); all other outcomes are `ok` or `err` values exactly as
the Rust `Result<_, Error>` values.
-/

/-- Little-endian value of a byte list, as in `u32::from_le_bytes` /
`u64::from_le_bytes` (bytes are already < 256 wherever this is applied). -/
def leToNat : List Nat → Nat
  | [] => 0
  | b :: rest => b + 256 * leToNat rest

/-- Little-endian bytes of `n` truncated to 32 bits, as in
`(x as u32).to_le_bytes()`. -/
def u32le (n : Nat) : List Nat :=
  [n % 256, n / 256 % 256, n / 256 ^ 2 % 256, n / 256 ^ 3 % 256]

/-- Little-endian bytes of `n` truncated to 64 bits, as in
`u64::to_le_bytes`. -/
def u64le (n : Nat) : List Nat :=
  [n % 256, n / 256 % 256, n / 256 ^ 2 % 256, n / 256 ^ 3 % 256,
   n / 256 ^ 4 % 256, n / 256 ^ 5 % 256, n / 256 ^ 6 % 256, n / 256 ^ 7 % 256]

/-- Reading `n` bytes at byte offset `off`, as in `&buf[off..off+n]`
(every use in the deserializers is preceded by a length check that keeps
the range in bounds). -/
def readBytes (buf : List Nat) (off n : Nat) : List Nat :=
  (buf.drop off).take n

/-- The `deserialize_u32!` macro of encodings.rs: 4 bytes at `off`,
little endian. -/
def readU32 (buf : List Nat) (off : Nat) : Nat :=
  leToNat (readBytes buf off 4)

/-- The `deserialize_u64!` macro of encodings.rs: 8 bytes at `off`,
little endian. -/
def readU64 (buf : List Nat) (off : Nat) : Nat :=
  leToNat (readBytes buf off 8)

/-- A single byte read `buf[off]` (all uses are in bounds). -/
def readU8 (buf : List Nat) (off : Nat) : Nat :=
  leToNat (readBytes buf off 1)

/-- In-place slice write `buf[off..off+v.len()].copy_from_slice(v)`, the
`serialize!` macro's single step (in every use `off + v.length` is within
the destination buffer). -/
def writeAt (buf : List Nat) (off : Nat) (v : List Nat) : List Nat :=
  buf.take off ++ v ++ buf.drop (off + v.length)

/-- The error taxonomy of error.rs (`ErrorKind`). -/
inductive ErrorKind where
  | IncorrectLength
  | ReceiptStatusCodeOutOfRange
  | StringParseError
deriving DecidableEq, Repr

/-- Outcome of a deserializer: `ok` / `err` are the Rust
`Ok` / `Err(Error)`; `crash` models a Rust panic (slice range violation
or `copy_from_slice` length mismatch). -/
inductive DResult (α : Type) where
  | ok (v : α)
  | err (e : ErrorKind)
  | crash
deriving DecidableEq, Repr

/-- The closed status-code enumeration of receipt_status_codes.rs. -/
inductive ReceiptStatusCode where
  | Success
  | WrongNonce
  | NotEnoughBalanceForGasLimit
  | NotEnoughBalanceForTransfer
  | PreExecutionGasExhausted
  | DisallowedOpcode
  | CannotCompile
  | NoExportedContractMethod
  | OtherDeployError
  | ExecutionProperGasExhausted
  | RuntimeError
  | InternalExecutionProperGasExhaustion
  | InternalRuntimeError
  | InternalNotEnoughBalanceForTransfer
  | Else
deriving DecidableEq, Repr

/-- The `Into<u8>` impl of receipt_status_codes.rs. -/
def ReceiptStatusCode.intoU8 : ReceiptStatusCode → Nat
  | .Success => 0
  | .WrongNonce => 10
  | .NotEnoughBalanceForGasLimit => 11
  | .NotEnoughBalanceForTransfer => 12
  | .PreExecutionGasExhausted => 13
  | .DisallowedOpcode => 20
  | .CannotCompile => 21
  | .NoExportedContractMethod => 22
  | .OtherDeployError => 23
  | .ExecutionProperGasExhausted => 30
  | .RuntimeError => 31
  | .InternalExecutionProperGasExhaustion => 40
  | .InternalRuntimeError => 41
  | .InternalNotEnoughBalanceForTransfer => 42
  | .Else => 50

/-- The `TryFrom<u8>` impl of receipt_status_codes.rs: the exhaustive
byte table, with every unmapped byte a `ReceiptStatusCodeOutOfRange`
error (`crash` never occurs here). -/
def ReceiptStatusCode.tryFrom (value : Nat) : DResult ReceiptStatusCode :=
  match value with
  | 0 => .ok .Success
  | 10 => .ok .WrongNonce
  | 11 => .ok .NotEnoughBalanceForGasLimit
  | 12 => .ok .NotEnoughBalanceForTransfer
  | 13 => .ok .PreExecutionGasExhausted
  | 20 => .ok .DisallowedOpcode
  | 21 => .ok .CannotCompile
  | 22 => .ok .NoExportedContractMethod
  | 23 => .ok .OtherDeployError
  | 30 => .ok .ExecutionProperGasExhausted
  | 31 => .ok .RuntimeError
  | 40 => .ok .InternalExecutionProperGasExhaustion
  | 41 => .ok .InternalRuntimeError
  | 42 => .ok .InternalNotEnoughBalanceForTransfer
  | 50 => .ok .Else
  | _ => .err .ReceiptStatusCodeOutOfRange

-- Format table `fmt_blockheader` of encodings.rs: (size, offset). 
namespace fmt_blockheader
def ID : Nat × Nat := (8, 0)
def VERSION : Nat × Nat := (8, 8)
def TIMESTAMP : Nat × Nat := (4, 16)
def PREVHASH : Nat × Nat := (32, 20)
def BLOCKHASH : Nat × Nat := (32, 52)
def STATEHASH : Nat × Nat := (32, 84)
def TXSHASH : Nat × Nat := (32, 116)
def RECEIPTHASH : Nat × Nat := (32, 148)
def PUBKEY : Nat × Nat := (32, 180)
def SIGNATURE : Nat × Nat := (64, 212)
def BASESIZE : Nat := 276
end fmt_blockheader

-- Format table `fmt_sizes` of encodings.rs. 
namespace fmt_sizes
def TRANSACTION : Nat × Nat := (4, 0)
def RECEIPT : Nat × Nat := (4, 4)
def BASESIZE : Nat := 8
end fmt_sizes

-- Format table `fmt_transaction` of encodings.rs. 
namespace fmt_transaction
def FROMADDRESS : Nat × Nat := (32, 0)
def TOADDRESS : Nat × Nat := (32, 32)
def VALUE : Nat × Nat := (8, 64)
def TIP : Nat × Nat := (8, 72)
def GASLIMIT : Nat × Nat := (8, 80)
def GASPRICE : Nat × Nat := (8, 88)
def NUMTX : Nat × Nat := (8, 96)
def HASH : Nat × Nat := (32, 104)
def SIGNATURE : Nat × Nat := (64, 136)
def DATASIZE : Nat × Nat := (4, 200)
def BASESIZE : Nat := 204
end fmt_transaction

-- Format table `fmt_event` of encodings.rs. 
namespace fmt_event
def TOPICSIZE : Nat × Nat := (4, 0)
def VALUESIZE : Nat × Nat := (4, 4)
def BASESIZE : Nat := 8
end fmt_event

-- Format table `fmt_receipt` of encodings.rs. 
namespace fmt_receipt
def STATUSCODE : Nat × Nat := (1, 0)
def GASCONSUMED : Nat × Nat := (8, 1)
def RETURNVALSIZE : Nat × Nat := (4, 9)
def EVENTSSIZE : Nat × Nat := (4, 13)
def BASESIZE : Nat := 17
end fmt_receipt

-- Format table `fmt_merkleproof` of encodings.rs. 
namespace fmt_merkleproof
def ROOTHASH : Nat × Nat := (32, 0)
def TOTALLEAVES : Nat × Nat := (4, 32)
def LEAFINDSIZE : Nat × Nat := (4, 36)
def LEAFHASHSIZE : Nat × Nat := (4, 40)
def PROOFSIZE : Nat × Nat := (4, 44)
def BASESIZE : Nat := 48
end fmt_merkleproof

-- Format table `fmt_paramsfromtransaction` of sc_params.rs. 
namespace fmt_paramsfromtransaction
def FROMADDRESS : Nat × Nat := (32, 0)
def TOADDRESS : Nat × Nat := (32, 32)
def VALUE : Nat × Nat := (8, 64)
def HASH : Nat × Nat := (32, 72)
def DATASIZE : Nat × Nat := (4, 104)
def BASESIZE : Nat := 108
end fmt_paramsfromtransaction

-- Format table `fmt_paramsfromblockchain` of sc_params.rs. 
namespace fmt_paramsfromblockchain
def BLOCKNUM : Nat × Nat := (8, 0)
def PREVHASH : Nat × Nat := (32, 8)
def TIMESTAMP : Nat × Nat := (4, 40)
def RANDOMBYTES : Nat × Nat := (32, 44)
def BASESIZE : Nat := 76
end fmt_paramsfromblockchain

-- Format table `fmt_calldata` of sc_params.rs. 
namespace fmt_calldata
def METHOD_SIZE : Nat × Nat := (4, 0)
def ARGS_SIZE : Nat × Nat := (4, 4)
def BASESIZE : Nat := 8
end fmt_calldata

/-- transaction.rs `Transaction` (PublicAddress / Sha256Hash / Signature
are fixed 32/32/64-byte arrays, modelled as byte lists whose lengths are
type invariants). -/
structure Transaction where
  from_address : List Nat
  to_address : List Nat
  value : Nat
  tip : Nat
  gas_limit : Nat
  gas_price : Nat
  data : List Nat
  n_txs_on_chain_from_address : Nat
  hash : List Nat
  signature : List Nat
deriving DecidableEq, Repr

/-- transaction.rs `Event`. -/
structure Event where
  topic : List Nat
  value : List Nat
deriving DecidableEq, Repr

/-- transaction.rs `Receipt`. -/
structure Receipt where
  status_code : ReceiptStatusCode
  gas_consumed : Nat
  return_value : List Nat
  events : List Event
deriving DecidableEq, Repr

/-- block.rs `BlockHeader`. -/
structure BlockHeader where
  blockchain_id : Nat
  block_version_number : Nat
  timestamp : Nat
  prev_block_hash : List Nat
  this_block_hash : List Nat
  txs_hash : List Nat
  state_hash : List Nat
  receipts_hash : List Nat
  proposer_public_key : List Nat
  signature : List Nat
deriving DecidableEq, Repr

/-- block.rs `Block`. -/
structure Block where
  header : BlockHeader
  transactions : List Transaction
  receipts : List Receipt
deriving DecidableEq, Repr

/-- proofs.rs `MerkleProof` (`total_leaves_count` and the elements of
`leaf_indices` are `usize` in the source, modelled as `Nat`). -/
structure MerkleProof where
  root_hash : List Nat
  total_leaves_count : Nat
  leaf_indices : List Nat
  leaf_hashes : List (List Nat)
  proof : List Nat
deriving DecidableEq, Repr

/-- proofs.rs `StateProofItem = (Vec<u8>, Option<Vec<u8>>)`. -/
def StateProofItem : Type := List Nat × Option (List Nat)

instance : DecidableEq StateProofItem := by
  unfold StateProofItem
  infer_instance

/-- proofs.rs `StateProofs` (`proof` is `StateProof = Vec<Vec<u8>>`). -/
structure StateProofs where
  root_hash : List Nat
  items : List StateProofItem
  proof : List (List Nat)

instance : DecidableEq StateProofs := by
  have : ∀ a b : StateProofs, Decidable (a = b) := by
    intro a b
    rcases a with ⟨ra, ia, pa⟩
    rcases b with ⟨rb, ib, pb⟩
    have : Decidable (ra = rb ∧ ia = ib ∧ pa = pb) := by infer_instance
    refine decidable_of_iff (ra = rb ∧ ia = ib ∧ pa = pb) ?_
    constructor
    · rintro ⟨h1, h2, h3⟩; simp [h1, h2, h3]
    · intro h; injection h with h1 h2 h3; exact ⟨h1, h2, h3⟩
  exact this

/-- sc_params.rs `CallData`; the `String` field `method_name` is modelled
as its UTF-8 byte list (validity of that byte list is the Rust `String`
type invariant). -/
structure CallData where
  method_name : List Nat
  arguments : List Nat
deriving DecidableEq, Repr

/-- sc_params.rs `ParamsFromTransaction`. -/
structure ParamsFromTransaction where
  from_address : List Nat
  to_address : List Nat
  data : List Nat
  value : Nat
  transaction_hash : List Nat
deriving DecidableEq, Repr

/-- sc_params.rs `ParamsFromBlockchain`. -/
structure ParamsFromBlockchain where
  this_block_number : Nat
  prev_block_hash : List Nat
  timestamp : Nat
  random_bytes : List Nat
deriving DecidableEq, Repr

/-- The per-item write loop shared by `Block::serialize`'s two worker
threads and by the events loop in `Receipt::serialize_to_slice`:
`for each x { pos += X::serialize_to_slice(x, &mut buf[pos..]) }`.
`step x slice` returns the mutated slice together with the returned
size. -/
def writeItemsLoop (step : α → List Nat → List Nat × Nat) :
    List α → List Nat → Nat → List Nat
  | [], buf, _ => buf
  | x :: xs, buf, pos =>
    let r := step x (buf.drop pos)
    writeItemsLoop step xs (buf.take pos ++ r.1) (pos + r.2)

/-- The self-describing-item scan loop shared by `Receipt::deserialize`
(events), and `Block::deserialize` (transactions and receipts):
`while pos < buf.len() { size = size_from(&buf[pos..])?;
item = deser(&buf[pos..][..size])?; pos += size }`.  Slicing `[..size]`
with `size` beyond the remaining bytes is a Rust panic (`crash`).  The
fuel argument only bounds the iteration count; each successful
`size_from` consumes at least one byte, so `buf.length` iterations
always suffice (see `scanItems`). -/
def scanItemsGo (size_from : List Nat → DResult Nat)
    (deser : List Nat → DResult α) : Nat → List Nat → DResult (List α)
  | _, [] => .ok []
  | 0, _ :: _ => .crash
  | fuel + 1, b :: bs =>
    match size_from (b :: bs) with
    | .err e => .err e
    | .crash => .crash
    | .ok size =>
      if size ≤ (b :: bs).length then
        match deser ((b :: bs).take size) with
        | .err e => .err e
        | .crash => .crash
        | .ok item =>
          match scanItemsGo size_from deser fuel ((b :: bs).drop size) with
          | .ok items => .ok (item :: items)
          | .err e => .err e
          | .crash => .crash
      else .crash

/-- The scan loop, started with enough fuel for every possible run (one
unit per consumed byte). -/
def scanItems (size_from : List Nat → DResult Nat)
    (deser : List Nat → DResult α) (buf : List Nat) : DResult (List α) :=
  scanItemsGo size_from deser buf.length buf

/-- transaction.rs `Transaction::size_of`. -/
def Transaction.size_of (msg : Transaction) : Nat :=
  msg.data.length + fmt_transaction.BASESIZE

/-- transaction.rs `Transaction::size_from_slice`. -/
def Transaction.size_from_slice (buf : List Nat) : DResult Nat :=
  if buf.length < fmt_transaction.BASESIZE then .err .IncorrectLength
  else .ok (fmt_transaction.BASESIZE + readU32 buf fmt_transaction.DATASIZE.2)

/-- transaction.rs `Transaction::serialize_to_slice`: the `serialize!`
field writes at the table offsets, then the variable-size data at
`BASESIZE`; returns the mutated slice and `size_of msg`. -/
def Transaction.serialize_to_slice (msg : Transaction) (ret : List Nat) :
    List Nat × Nat :=
  let ret := writeAt ret fmt_transaction.FROMADDRESS.2 msg.from_address
  let ret := writeAt ret fmt_transaction.TOADDRESS.2 msg.to_address
  let ret := writeAt ret fmt_transaction.VALUE.2 (u64le msg.value)
  let ret := writeAt ret fmt_transaction.TIP.2 (u64le msg.tip)
  let ret := writeAt ret fmt_transaction.GASLIMIT.2 (u64le msg.gas_limit)
  let ret := writeAt ret fmt_transaction.GASPRICE.2 (u64le msg.gas_price)
  let ret := writeAt ret fmt_transaction.NUMTX.2 (u64le msg.n_txs_on_chain_from_address)
  let ret := writeAt ret fmt_transaction.HASH.2 msg.hash
  let ret := writeAt ret fmt_transaction.SIGNATURE.2 msg.signature
  let ret := writeAt ret fmt_transaction.DATASIZE.2 (u32le msg.data.length)
  let ret := writeAt ret fmt_transaction.BASESIZE msg.data
  (ret, Transaction.size_of msg)

/-- transaction.rs `Transaction::serialize` (`vec![0u8; size_of];
serialize_to_slice`). -/
def Transaction.serialize (msg : Transaction) : List Nat :=
  (Transaction.serialize_to_slice msg
    (List.replicate (Transaction.size_of msg) 0)).1

/-- transaction.rs `Transaction::deserialize`.  The final
`data.copy_from_slice(&buf[BASESIZE..])` copies the whole tail into a
`data_size`-byte vector, which panics whenever the tail is longer than
`data_size` (trailing bytes). -/
def Transaction.deserialize (buf : List Nat) : DResult Transaction :=
  if buf.length < fmt_transaction.BASESIZE then .err .IncorrectLength
  else
    let data_size := readU32 buf fmt_transaction.DATASIZE.2
    if buf.length < fmt_transaction.BASESIZE + data_size then .err .IncorrectLength
    else if fmt_transaction.BASESIZE + data_size < buf.length then .crash
    else .ok {
      from_address := readBytes buf fmt_transaction.FROMADDRESS.2 32
      to_address := readBytes buf fmt_transaction.TOADDRESS.2 32
      value := readU64 buf fmt_transaction.VALUE.2
      tip := readU64 buf fmt_transaction.TIP.2
      gas_limit := readU64 buf fmt_transaction.GASLIMIT.2
      gas_price := readU64 buf fmt_transaction.GASPRICE.2
      n_txs_on_chain_from_address := readU64 buf fmt_transaction.NUMTX.2
      hash := readBytes buf fmt_transaction.HASH.2 32
      signature := readBytes buf fmt_transaction.SIGNATURE.2 64
      data := readBytes buf fmt_transaction.BASESIZE data_size
    }

/-- transaction.rs `Event::size_of`. -/
def Event.size_of (msg : Event) : Nat :=
  msg.topic.length + msg.value.length + fmt_event.BASESIZE

/-- transaction.rs `Event::size_from_slice`. -/
def Event.size_from_slice (buf : List Nat) : DResult Nat :=
  if buf.length < fmt_event.BASESIZE then .err .IncorrectLength
  else .ok (fmt_event.BASESIZE + readU32 buf fmt_event.TOPICSIZE.2
            + readU32 buf fmt_event.VALUESIZE.2)

/-- transaction.rs `Event::serialize_to_slice`. -/
def Event.serialize_to_slice (msg : Event) (ret : List Nat) : List Nat × Nat :=
  let ret := writeAt ret fmt_event.TOPICSIZE.2 (u32le msg.topic.length)
  let ret := writeAt ret fmt_event.VALUESIZE.2 (u32le msg.value.length)
  let ret := writeAt ret fmt_event.BASESIZE msg.topic
  let ret := writeAt ret (fmt_event.BASESIZE + msg.topic.length) msg.value
  (ret, Event.size_of msg)

/-- transaction.rs `Event::serialize`. -/
def Event.serialize (msg : Event) : List Nat :=
  (Event.serialize_to_slice msg (List.replicate (Event.size_of msg) 0)).1

/-- transaction.rs `Event::deserialize` (all its copies are bounded on
both ends, so it never panics; bytes beyond the two declared spans are
ignored). -/
def Event.deserialize (buf : List Nat) : DResult Event :=
  if buf.length < fmt_event.BASESIZE then .err .IncorrectLength
  else
    let topic_size := readU32 buf fmt_event.TOPICSIZE.2
    let value_size := readU32 buf fmt_event.VALUESIZE.2
    if buf.length < fmt_event.BASESIZE + topic_size + value_size then
      .err .IncorrectLength
    else .ok {
      topic := readBytes buf fmt_event.BASESIZE topic_size
      value := readBytes buf (fmt_event.BASESIZE + topic_size) value_size
    }

/-- transaction.rs `Receipt::size_of`. -/
def Receipt.size_of (msg : Receipt) : Nat :=
  msg.return_value.length + (msg.events.map Event.size_of).sum
    + fmt_receipt.BASESIZE

/-- transaction.rs `Receipt::size_from_slice`. -/
def Receipt.size_from_slice (buf : List Nat) : DResult Nat :=
  if buf.length < fmt_receipt.BASESIZE then .err .IncorrectLength
  else .ok (fmt_receipt.BASESIZE + readU32 buf fmt_receipt.RETURNVALSIZE.2
            + readU32 buf fmt_receipt.EVENTSSIZE.2)

/-- transaction.rs `Receipt::serialize_to_slice`: status byte, fixed
fields, return value, then the events written by the advancing-position
loop. -/
def Receipt.serialize_to_slice (msg : Receipt) (ret : List Nat) :
    List Nat × Nat :=
  let ret := writeAt ret fmt_receipt.STATUSCODE.2 [msg.status_code.intoU8]
  let ret := writeAt ret fmt_receipt.GASCONSUMED.2 (u64le msg.gas_consumed)
  let ret := writeAt ret fmt_receipt.RETURNVALSIZE.2 (u32le msg.return_value.length)
  let ret := writeAt ret fmt_receipt.EVENTSSIZE.2 (u32le (msg.events.map Event.size_of).sum)
  let ret := writeAt ret fmt_receipt.BASESIZE msg.return_value
  let ret := writeItemsLoop Event.serialize_to_slice msg.events ret
    (fmt_receipt.BASESIZE + msg.return_value.length)
  (ret, Receipt.size_of msg)

/-- transaction.rs `Receipt::serialize`. -/
def Receipt.serialize (msg : Receipt) : List Nat :=
  (Receipt.serialize_to_slice msg (List.replicate (Receipt.size_of msg) 0)).1

/-- transaction.rs `Receipt::deserialize`: status byte through
`TryFrom`, fixed fields, length check, return value, then the
self-describing events scan over the remainder of the buffer. -/
def Receipt.deserialize (buf : List Nat) : DResult Receipt :=
  if buf.length < fmt_receipt.BASESIZE then .err .IncorrectLength
  else
    match ReceiptStatusCode.tryFrom (readU8 buf fmt_receipt.STATUSCODE.2) with
    | .err e => .err e
    | .crash => .crash
    | .ok status_code =>
      let gas_consumed := readU64 buf fmt_receipt.GASCONSUMED.2
      let return_value_size := readU32 buf fmt_receipt.RETURNVALSIZE.2
      let events_size := readU32 buf fmt_receipt.EVENTSSIZE.2
      if buf.length < fmt_receipt.BASESIZE + return_value_size + events_size then
        .err .IncorrectLength
      else
        let return_value := readBytes buf fmt_receipt.BASESIZE return_value_size
        match scanItems Event.size_from_slice Event.deserialize
          (buf.drop (fmt_receipt.BASESIZE + return_value_size)) with
        | .ok events => .ok { status_code, gas_consumed, return_value, events }
        | .err e => .err e
        | .crash => .crash

/-- block.rs `BlockHeader::serialize`. -/
def BlockHeader.serialize (msg : BlockHeader) : List Nat :=
  let ret := List.replicate fmt_blockheader.BASESIZE 0
  let ret := writeAt ret fmt_blockheader.ID.2 (u64le msg.blockchain_id)
  let ret := writeAt ret fmt_blockheader.VERSION.2 (u64le msg.block_version_number)
  let ret := writeAt ret fmt_blockheader.TIMESTAMP.2 (u32le msg.timestamp)
  let ret := writeAt ret fmt_blockheader.PREVHASH.2 msg.prev_block_hash
  let ret := writeAt ret fmt_blockheader.BLOCKHASH.2 msg.this_block_hash
  let ret := writeAt ret fmt_blockheader.STATEHASH.2 msg.state_hash
  let ret := writeAt ret fmt_blockheader.TXSHASH.2 msg.txs_hash
  let ret := writeAt ret fmt_blockheader.RECEIPTHASH.2 msg.receipts_hash
  let ret := writeAt ret fmt_blockheader.PUBKEY.2 msg.proposer_public_key
  let ret := writeAt ret fmt_blockheader.SIGNATURE.2 msg.signature
  ret

/-- block.rs `BlockHeader::deserialize`. -/
def BlockHeader.deserialize (buf : List Nat) : DResult BlockHeader :=
  if buf.length < fmt_blockheader.BASESIZE then .err .IncorrectLength
  else .ok {
    blockchain_id := readU64 buf fmt_blockheader.ID.2
    block_version_number := readU64 buf fmt_blockheader.VERSION.2
    timestamp := readU32 buf fmt_blockheader.TIMESTAMP.2
    prev_block_hash := readBytes buf fmt_blockheader.PREVHASH.2 32
    this_block_hash := readBytes buf fmt_blockheader.BLOCKHASH.2 32
    state_hash := readBytes buf fmt_blockheader.STATEHASH.2 32
    txs_hash := readBytes buf fmt_blockheader.TXSHASH.2 32
    receipts_hash := readBytes buf fmt_blockheader.RECEIPTHASH.2 32
    proposer_public_key := readBytes buf fmt_blockheader.PUBKEY.2 32
    signature := readBytes buf fmt_blockheader.SIGNATURE.2 64
  }

/-- block.rs `Block::serialize`: the header, then the two worker
threads, each of which sums its items' sizes, allocates one private
zeroed buffer and writes its items sequentially; finally the
deterministic assembly `header ++ (tx_size ++ recp_size) ++ (tx_data ++
recp_data)`.  Each thread's work is a pure function of its own list, so
the join order does not influence the value. -/
def Block.serialize (msg : Block) : List Nat :=
  let raw_blockheader := BlockHeader.serialize msg.header
  let tx_total := (msg.transactions.map Transaction.size_of).sum
  let tx_data := writeItemsLoop Transaction.serialize_to_slice
    msg.transactions (List.replicate tx_total 0) 0
  let recp_total := (msg.receipts.map Receipt.size_of).sum
  let recp_data := writeItemsLoop Receipt.serialize_to_slice
    msg.receipts (List.replicate recp_total 0) 0
  let tx_size := u32le tx_data.length
  let recp_size := u32le recp_data.length
  raw_blockheader ++ (tx_size ++ recp_size) ++ (tx_data ++ recp_data)

/-- block.rs `Block::deserialize`: header, the two aggregate sizes, the
`split_at(tx_size)` into the two regions, then the two scans (the
transaction scan's outcome is consumed first, as in
`tx_join_handle.flatten().unwrap()?`). -/
def Block.deserialize (buf : List Nat) : DResult Block :=
  match BlockHeader.deserialize buf with
  | .err e => .err e
  | .crash => .crash
  | .ok blockheader =>
    let buf1 := buf.drop fmt_blockheader.BASESIZE
    if buf1.length < fmt_sizes.BASESIZE then .err .IncorrectLength
    else
      let tx_size := readU32 buf1 fmt_sizes.TRANSACTION.2
      let recp_size := readU32 buf1 fmt_sizes.RECEIPT.2
      let buf2 := buf1.drop fmt_sizes.BASESIZE
      if buf2.length < tx_size + recp_size then .err .IncorrectLength
      else
        let raw_transactions := buf2.take tx_size
        let raw_receipts := buf2.drop tx_size
        match scanItems Transaction.size_from_slice Transaction.deserialize
          raw_transactions with
        | .err e => .err e
        | .crash => .crash
        | .ok transactions =>
          match scanItems Receipt.size_from_slice Receipt.deserialize
            raw_receipts with
          | .err e => .err e
          | .crash => .crash
          | .ok receipts => .ok { header := blockheader, transactions, receipts }

/-- proofs.rs `MerkleProof::serialize`: fixed region (root hash, the
four `as u32` size/count fields), then the leaf indices each encoded as
`(i as u32).to_le_bytes()`, the concatenated 32-byte leaf hashes, and
the proof bytes. -/
def MerkleProof.serialize (msg : MerkleProof) : List Nat :=
  let leaf_indices_size := msg.leaf_indices.length * 4
  let leaf_hashes_size := msg.leaf_hashes.length * 32
  let ret := List.replicate (fmt_merkleproof.BASESIZE + leaf_indices_size
    + leaf_hashes_size + msg.proof.length) 0
  let ret := writeAt ret fmt_merkleproof.ROOTHASH.2 msg.root_hash
  let ret := writeAt ret fmt_merkleproof.TOTALLEAVES.2 (u32le msg.total_leaves_count)
  let ret := writeAt ret fmt_merkleproof.LEAFINDSIZE.2 (u32le leaf_indices_size)
  let ret := writeAt ret fmt_merkleproof.LEAFHASHSIZE.2 (u32le leaf_hashes_size)
  let ret := writeAt ret fmt_merkleproof.PROOFSIZE.2 (u32le msg.proof.length)
  let leaf_indices := (msg.leaf_indices.map u32le).flatten
  let leaf_hashes := msg.leaf_hashes.flatten
  let ret := writeAt ret fmt_merkleproof.BASESIZE leaf_indices
  let ret := writeAt ret (fmt_merkleproof.BASESIZE + leaf_indices_size) leaf_hashes
  let ret := writeAt ret (fmt_merkleproof.BASESIZE + leaf_indices_size + leaf_hashes_size) msg.proof
  ret

/-- The leaf-indices loop of `MerkleProof::deserialize`: 4 bytes per
index, `IncorrectLength` when fewer than 4 bytes remain. -/
def readLeafIndices : List Nat → DResult (List Nat)
  | [] => .ok []
  | a :: b :: c :: d :: rest =>
    match readLeafIndices rest with
    | .ok xs => .ok (leToNat [a, b, c, d] :: xs)
    | r => r
  | _ => .err .IncorrectLength

/-- The leaf-hashes loop of `MerkleProof::deserialize`: 32 bytes per
hash, `IncorrectLength` when fewer than 32 bytes remain. -/
def readLeafHashes : List Nat → DResult (List (List Nat))
  | [] => .ok []
  | b0 :: b1 :: b2 :: b3 :: b4 :: b5 :: b6 :: b7 :: b8 :: b9 :: b10 :: b11
      :: b12 :: b13 :: b14 :: b15 :: b16 :: b17 :: b18 :: b19 :: b20 :: b21
      :: b22 :: b23 :: b24 :: b25 :: b26 :: b27 :: b28 :: b29 :: b30 :: b31
      :: rest =>
    match readLeafHashes rest with
    | .ok hs => .ok ([b0, b1, b2, b3, b4, b5, b6, b7, b8, b9, b10, b11, b12,
        b13, b14, b15, b16, b17, b18, b19, b20, b21, b22, b23, b24, b25, b26,
        b27, b28, b29, b30, b31] :: hs)
    | r => r
  | _ => .err .IncorrectLength

/-- proofs.rs `MerkleProof::deserialize`: fixed region, length check
against the three declared sizes, two `split_at`s, the two chunk loops,
and the proof taking the whole remaining tail. -/
def MerkleProof.deserialize (buf : List Nat) : DResult MerkleProof :=
  if buf.length < fmt_merkleproof.BASESIZE then .err .IncorrectLength
  else
    let root_hash := readBytes buf fmt_merkleproof.ROOTHASH.2 32
    let total_leaves_count := readU32 buf fmt_merkleproof.TOTALLEAVES.2
    let leaf_indices_size := readU32 buf fmt_merkleproof.LEAFINDSIZE.2
    let leaf_hashes_size := readU32 buf fmt_merkleproof.LEAFHASHSIZE.2
    let proof_size := readU32 buf fmt_merkleproof.PROOFSIZE.2
    if buf.length < fmt_merkleproof.BASESIZE + leaf_indices_size
        + leaf_hashes_size + proof_size then .err .IncorrectLength
    else
      let buf1 := buf.drop fmt_merkleproof.BASESIZE
      let leaf_indices_buf := buf1.take leaf_indices_size
      let remaining_buf := buf1.drop leaf_indices_size
      let leaf_hashes_buf := remaining_buf.take leaf_hashes_size
      let proof_buf := remaining_buf.drop leaf_hashes_size
      match readLeafIndices leaf_indices_buf with
      | .err e => .err e
      | .crash => .crash
      | .ok leaf_indices =>
        match readLeafHashes leaf_hashes_buf with
        | .err e => .err e
        | .crash => .crash
        | .ok leaf_hashes =>
          .ok { root_hash, total_leaves_count, leaf_indices, leaf_hashes,
                proof := proof_buf }

/-- blanket_impls.rs `impl Serializable for Vec<u8>` (identity). -/
def bytesSerialize (msg : List Nat) : List Nat := msg

/-- blanket_impls.rs `impl Deserializable for Vec<u8>` (always `Ok`). -/
def bytesDeserialize (buf : List Nat) : DResult (List Nat) := .ok buf

/-- blanket_impls.rs `impl Serializable for Option<T>`: one tag byte,
then the payload when present. -/
def optionSerialize (ser : α → List Nat) : Option α → List Nat
  | none => [0]
  | some v => 1 :: ser v

/-- blanket_impls.rs `impl Deserializable for Option<T>`: empty buffer
is `IncorrectLength`; tag byte 0 is `None`; any nonzero tag byte
delegates the remainder to `T`. -/
def optionDeserialize (deser : List Nat → DResult α) (buf : List Nat) :
    DResult (Option α) :=
  match buf with
  | [] => .err .IncorrectLength
  | b :: rest =>
    if b = 0 then .ok none
    else
      match deser rest with
      | .ok v => .ok (some v)
      | .err e => .err e
      | .crash => .crash

/-- blanket_impls.rs `impl Serializable for (T1,T2)`: the two 32-bit
length prefixes then the two encodings. -/
def pairSerialize (ser1 : α → List Nat) (ser2 : β → List Nat)
    (msg : α × β) : List Nat :=
  let serialized_1 := ser1 msg.1
  let serialized_2 := ser2 msg.2
  u32le serialized_1.length ++ u32le serialized_2.length
    ++ serialized_1 ++ serialized_2

/-- blanket_impls.rs `impl Deserializable for (T1,T2)`: needs 8 bytes of
lengths, then the remainder must equal the declared sum exactly
(`buf.len() != size_1 + size_2` is `IncorrectLength`), then `split_at`
and the two element decoders. -/
def pairDeserialize (d1 : List Nat → DResult α) (d2 : List Nat → DResult β)
    (buf : List Nat) : DResult (α × β) :=
  if buf.length < 8 then .err .IncorrectLength
  else
    let size_1 := readU32 buf 0
    let buf1 := buf.drop 4
    let size_2 := readU32 buf1 0
    let buf2 := buf1.drop 4
    if buf2.length ≠ size_1 + size_2 then .err .IncorrectLength
    else
      match d1 (buf2.take size_1) with
      | .err e => .err e
      | .crash => .crash
      | .ok v1 =>
        match d2 (buf2.drop size_1) with
        | .err e => .err e
        | .crash => .crash
        | .ok v2 => .ok (v1, v2)

/-- blanket_impls.rs `impl Serializable for Vec<T>`: 32-bit count, the
32-bit per-element sizes, then the concatenated element encodings. -/
def vecSerialize (ser : α → List Nat) (msgs : List α) : List Nat :=
  u32le msgs.length ++ (msgs.map (fun m => u32le (ser m).length)).flatten
    ++ (msgs.map ser).flatten

/-- The element loop of `impl Deserializable for Vec<T>`: one iteration
per declared element, reading a size entry and consuming that many data
bytes (`buf_data.len() < pos_data + size` is `IncorrectLength`; the size
entry read itself is always in bounds thanks to the up-front region
check, so the `crash` branch is unreachable from `vecDeserialize`). -/
def vecDeserializeGo (deser : List Nat → DResult α) :
    Nat → List Nat → List Nat → DResult (List α)
  | 0, _, _ => .ok []
  | n + 1, sizesBuf, dataBuf =>
    if sizesBuf.length < 4 then .crash
    else
      let size := leToNat (sizesBuf.take 4)
      if dataBuf.length < size then .err .IncorrectLength
      else
        match deser (dataBuf.take size) with
        | .err e => .err e
        | .crash => .crash
        | .ok v =>
          match vecDeserializeGo deser n (sizesBuf.drop 4) (dataBuf.drop size) with
          | .ok vs => .ok (v :: vs)
          | r => r

/-- blanket_impls.rs `impl Deserializable for Vec<T>`: count, size-table
region check, then the element loop (data bytes beyond the consumed span
are ignored). -/
def vecDeserialize (deser : List Nat → DResult α) (buf : List Nat) :
    DResult (List α) :=
  if buf.length < 4 then .err .IncorrectLength
  else
    let num_of_msg := readU32 buf 0
    let buf1 := buf.drop 4
    let sizes_len := num_of_msg * 4
    if buf1.length < sizes_len then .err .IncorrectLength
    else vecDeserializeGo deser num_of_msg buf1 (buf1.drop sizes_len)

/-- The `StateProofItem` element codec: the pair codec over raw bytes
and optional raw bytes. -/
def StateProofItem.serialize (msg : StateProofItem) : List Nat :=
  pairSerialize bytesSerialize (optionSerialize bytesSerialize) msg

/-- proofs.rs `StateProofs::serialize`: root hash, the two 32-bit region
lengths, then the generic `Vec` encodings of items and proof blobs. -/
def StateProofs.serialize (msg : StateProofs) : List Nat :=
  let items := vecSerialize StateProofItem.serialize msg.items
  let proof := vecSerialize bytesSerialize msg.proof
  msg.root_hash ++ u32le items.length ++ u32le proof.length ++ items ++ proof

/-- proofs.rs `StateProofs::deserialize`. -/
def StateProofs.deserialize (buf : List Nat) : DResult StateProofs :=
  if buf.length < 32 + 8 then .err .IncorrectLength
  else
    let root_hash := readBytes buf 0 32
    let buf1 := buf.drop 32
    let size_1 := readU32 buf1 0
    let buf2 := buf1.drop 4
    let size_2 := readU32 buf2 0
    let buf3 := buf2.drop 4
    if buf3.length < size_1 + size_2 then .err .IncorrectLength
    else
      match vecDeserialize
        (pairDeserialize bytesDeserialize (optionDeserialize bytesDeserialize))
        (buf3.take size_1) with
      | .err e => .err e
      | .crash => .crash
      | .ok items =>
        match vecDeserialize bytesDeserialize (buf3.drop size_1) with
        | .err e => .err e
        | .crash => .crash
        | .ok proof => .ok { root_hash, items := items, proof }

/-- UTF-8 continuation byte (10xxxxxx). -/
def isCont (b : Nat) : Bool := 128 ≤ b && b < 192

/-- Validity of a byte list as UTF-8, the check performed by
`String::from_utf8` in `CallData::deserialize` (RFC 3629 table: no
overlong forms, no surrogates, no code points above U+10FFFF). -/
def utf8Valid : List Nat → Bool
  | [] => true
  | b0 :: r =>
    if b0 < 128 then utf8Valid r
    else if b0 < 194 then false
    else if b0 < 224 then
      match r with
      | b1 :: r2 => isCont b1 && utf8Valid r2
      | _ => false
    else if b0 < 240 then
      match r with
      | b1 :: b2 :: r2 =>
        (if b0 = 224 then decide (160 ≤ b1) && decide (b1 < 192)
         else if b0 = 237 then decide (128 ≤ b1) && decide (b1 < 160)
         else isCont b1) && isCont b2 && utf8Valid r2
      | _ => false
    else if b0 < 245 then
      match r with
      | b1 :: b2 :: b3 :: r2 =>
        (if b0 = 240 then decide (144 ≤ b1) && decide (b1 < 192)
         else if b0 = 244 then decide (128 ≤ b1) && decide (b1 < 144)
         else isCont b1) && isCont b2 && isCont b3 && utf8Valid r2
      | _ => false
    else false

/-- sc_params.rs `CallData::serialize`. -/
def CallData.serialize (msg : CallData) : List Nat :=
  let method_name_size := msg.method_name.length
  let arguments_size := msg.arguments.length
  let ret := List.replicate (fmt_calldata.METHOD_SIZE.1
    + fmt_calldata.ARGS_SIZE.1 + method_name_size + arguments_size) 0
  let ret := writeAt ret fmt_calldata.METHOD_SIZE.2 (u32le method_name_size)
  let ret := writeAt ret fmt_calldata.ARGS_SIZE.2 (u32le arguments_size)
  let ret := writeAt ret fmt_calldata.BASESIZE msg.method_name
  let ret := writeAt ret (fmt_calldata.BASESIZE + method_name_size) msg.arguments
  ret

/-- sc_params.rs `CallData::deserialize`: size fields, length check,
`split_at(method_name_size)`, UTF-8 validation of the method name
(`StringParseError` on failure); the arguments take the whole remaining
tail. -/
def CallData.deserialize (buf : List Nat) : DResult CallData :=
  if buf.length < fmt_calldata.BASESIZE then .err .IncorrectLength
  else
    let method_name_size := readU32 buf fmt_calldata.METHOD_SIZE.2
    let arguments_size := readU32 buf fmt_calldata.ARGS_SIZE.2
    let buf1 := buf.drop fmt_calldata.BASESIZE
    if buf1.length < method_name_size + arguments_size then .err .IncorrectLength
    else
      let buf_method_name := buf1.take method_name_size
      let buf_arguments := buf1.drop method_name_size
      if utf8Valid buf_method_name then
        .ok { method_name := buf_method_name, arguments := buf_arguments }
      else .err .StringParseError

/-- sc_params.rs `ParamsFromTransaction::serialize`. -/
def ParamsFromTransaction.serialize (msg : ParamsFromTransaction) : List Nat :=
  let ret := List.replicate (fmt_paramsfromtransaction.BASESIZE + msg.data.length) 0
  let ret := writeAt ret fmt_paramsfromtransaction.FROMADDRESS.2 msg.from_address
  let ret := writeAt ret fmt_paramsfromtransaction.TOADDRESS.2 msg.to_address
  let ret := writeAt ret fmt_paramsfromtransaction.VALUE.2 (u64le msg.value)
  let ret := writeAt ret fmt_paramsfromtransaction.HASH.2 msg.transaction_hash
  let ret := writeAt ret fmt_paramsfromtransaction.DATASIZE.2 (u32le msg.data.length)
  let ret := writeAt ret fmt_paramsfromtransaction.BASESIZE msg.data
  ret

/-- sc_params.rs `ParamsFromTransaction::deserialize`: like
`Transaction::deserialize`, it copies `&buf[BASESIZE..]` (the whole
tail) into a `data_size`-byte vector, panicking on trailing bytes. -/
def ParamsFromTransaction.deserialize (buf : List Nat) :
    DResult ParamsFromTransaction :=
  if buf.length < fmt_paramsfromtransaction.BASESIZE then .err .IncorrectLength
  else
    let data_size := readU32 buf fmt_paramsfromtransaction.DATASIZE.2
    if buf.length < fmt_paramsfromtransaction.BASESIZE + data_size then
      .err .IncorrectLength
    else if fmt_paramsfromtransaction.BASESIZE + data_size < buf.length then
      .crash
    else .ok {
      from_address := readBytes buf fmt_paramsfromtransaction.FROMADDRESS.2 32
      to_address := readBytes buf fmt_paramsfromtransaction.TOADDRESS.2 32
      value := readU64 buf fmt_paramsfromtransaction.VALUE.2
      transaction_hash := readBytes buf fmt_paramsfromtransaction.HASH.2 32
      data := readBytes buf fmt_paramsfromtransaction.BASESIZE data_size
    }

/-- sc_params.rs `ParamsFromBlockchain::serialize`. -/
def ParamsFromBlockchain.serialize (msg : ParamsFromBlockchain) : List Nat :=
  let ret := List.replicate fmt_paramsfromblockchain.BASESIZE 0
  let ret := writeAt ret fmt_paramsfromblockchain.BLOCKNUM.2 (u64le msg.this_block_number)
  let ret := writeAt ret fmt_paramsfromblockchain.PREVHASH.2 msg.prev_block_hash
  let ret := writeAt ret fmt_paramsfromblockchain.TIMESTAMP.2 (u32le msg.timestamp)
  let ret := writeAt ret fmt_paramsfromblockchain.RANDOMBYTES.2 msg.random_bytes
  ret

/-- sc_params.rs `ParamsFromBlockchain::deserialize` (fully fixed
size; trailing bytes are ignored). -/
def ParamsFromBlockchain.deserialize (buf : List Nat) :
    DResult ParamsFromBlockchain :=
  if buf.length < fmt_paramsfromblockchain.BASESIZE then .err .IncorrectLength
  else .ok {
    this_block_number := readU64 buf fmt_paramsfromblockchain.BLOCKNUM.2
    prev_block_hash := readBytes buf fmt_paramsfromblockchain.PREVHASH.2 32
    timestamp := readU32 buf fmt_paramsfromblockchain.TIMESTAMP.2
    random_bytes := readBytes buf fmt_paramsfromblockchain.RANDOMBYTES.2 32
  }

/-- Rust type invariants of a `Transaction` value: the fixed byte-array
field lengths and the `u64` ranges, plus `data.len() < 2 ^ 32` (the
bound under which the `as u32` cast in the data-size field is lossless). -/
def wfTransaction (t : Transaction) : Prop :=
  t.from_address.length = 32 ∧ t.to_address.length = 32 ∧
  t.hash.length = 32 ∧ t.signature.length = 64 ∧
  t.value < 2 ^ 64 ∧ t.tip < 2 ^ 64 ∧ t.gas_limit < 2 ^ 64 ∧
  t.gas_price < 2 ^ 64 ∧ t.n_txs_on_chain_from_address < 2 ^ 64 ∧
  t.data.length < 2 ^ 32

/-- Size bounds of an `Event` value under which its two `as u32` casts
are lossless. -/
def wfEvent (e : Event) : Prop :=
  e.topic.length < 2 ^ 32 ∧ e.value.length < 2 ^ 32

/-- Type invariants and size bounds of a `Receipt` value. -/
def wfReceipt (r : Receipt) : Prop :=
  r.gas_consumed < 2 ^ 64 ∧ r.return_value.length < 2 ^ 32 ∧
  (∀ e ∈ r.events, wfEvent e) ∧
  (r.events.map Event.size_of).sum < 2 ^ 32

/-- Rust type invariants of a `BlockHeader` value. -/
def wfBlockHeader (h : BlockHeader) : Prop :=
  h.blockchain_id < 2 ^ 64 ∧ h.block_version_number < 2 ^ 64 ∧
  h.timestamp < 2 ^ 32 ∧
  h.prev_block_hash.length = 32 ∧ h.this_block_hash.length = 32 ∧
  h.txs_hash.length = 32 ∧ h.state_hash.length = 32 ∧
  h.receipts_hash.length = 32 ∧ h.proposer_public_key.length = 32 ∧
  h.signature.length = 64

/-- Type invariants and size bounds of a `Block` value (the two region
byte lengths must fit the 32-bit aggregate size fields). -/
def wfBlock (b : Block) : Prop :=
  wfBlockHeader b.header ∧
  (∀ t ∈ b.transactions, wfTransaction t) ∧
  (∀ r ∈ b.receipts, wfReceipt r) ∧
  (b.transactions.map Transaction.size_of).sum < 2 ^ 32 ∧
  (b.receipts.map Receipt.size_of).sum < 2 ^ 32

/-- Type invariants and region-size bounds of a `MerkleProof` value,
leaving `total_leaves_count` and the leaf indices themselves
unconstrained (they are `usize` and may exceed 32 bits). -/
def wfMerkleProofSizes (p : MerkleProof) : Prop :=
  p.root_hash.length = 32 ∧ (∀ h ∈ p.leaf_hashes, h.length = 32) ∧
  p.leaf_indices.length * 4 < 2 ^ 32 ∧ p.leaf_hashes.length * 32 < 2 ^ 32 ∧
  p.proof.length < 2 ^ 32

/-- Full bounds of a `MerkleProof` value: additionally
`total_leaves_count` and every leaf index fit in 32 bits, so the `as
u32` casts are lossless. -/
def wfMerkleProof (p : MerkleProof) : Prop :=
  wfMerkleProofSizes p ∧ p.total_leaves_count < 2 ^ 32 ∧
  (∀ i ∈ p.leaf_indices, i < 2 ^ 32)

/-- Type invariants and size bounds of a `StateProofs` value. -/
def wfStateProofs (s : StateProofs) : Prop :=
  s.root_hash.length = 32 ∧
  s.items.length < 2 ^ 32 ∧
  (∀ it ∈ s.items, (StateProofItem.serialize it).length < 2 ^ 32) ∧
  (vecSerialize StateProofItem.serialize s.items).length < 2 ^ 32 ∧
  s.proof.length < 2 ^ 32 ∧ (∀ blob ∈ s.proof, blob.length < 2 ^ 32) ∧
  (vecSerialize bytesSerialize s.proof).length < 2 ^ 32

/-- Type invariants of a `CallData` value: the method name is the UTF-8
byte sequence of a Rust `String` (hence valid), and both variable fields
fit the 32-bit size fields. -/
def wfCallData (c : CallData) : Prop :=
  utf8Valid c.method_name = true ∧ c.method_name.length < 2 ^ 32 ∧
  c.arguments.length < 2 ^ 32

/-- Type invariants of a `ParamsFromTransaction` value. -/
def wfParamsFromTransaction (p : ParamsFromTransaction) : Prop :=
  p.from_address.length = 32 ∧ p.to_address.length = 32 ∧
  p.transaction_hash.length = 32 ∧ p.value < 2 ^ 64 ∧
  p.data.length < 2 ^ 32

/-- Type invariants of a `ParamsFromBlockchain` value. -/
def wfParamsFromBlockchain (p : ParamsFromBlockchain) : Prop :=
  p.this_block_number < 2 ^ 64 ∧ p.prev_block_hash.length = 32 ∧
  p.timestamp < 2 ^ 32 ∧ p.random_bytes.length = 32

/-- The purely sequential reference assembly of a serialized `Block`
stated by the spec (header bytes, 32-bit transaction-list byte length,
32-bit receipt-list byte length, the concatenated transaction
encodings in list order, the concatenated receipt encodings in list
order). -/
def Block.serializeSequential (msg : Block) : List Nat :=
  let tx_data := (msg.transactions.map Transaction.serialize).flatten
  let recp_data := (msg.receipts.map Receipt.serialize).flatten
  BlockHeader.serialize msg.header ++ u32le tx_data.length
    ++ u32le recp_data.length ++ tx_data ++ recp_data

/-- A sample transaction with 100 bytes of data (spec's concrete
304-byte scenario). -/
def txSample : Transaction :=
  { from_address := List.replicate 32 0
    to_address := List.replicate 32 1
    value := 1
    tip := 2
    gas_limit := 3
    gas_price := 4
    data := List.replicate 100 2
    n_txs_on_chain_from_address := 5
    hash := List.replicate 32 3
    signature := List.replicate 64 4 }

/-- A small sample transaction with empty data. -/
def txSmall : Transaction :=
  { from_address := List.replicate 32 9
    to_address := List.replicate 32 8
    value := 11
    tip := 12
    gas_limit := 13
    gas_price := 14
    data := []
    n_txs_on_chain_from_address := 15
    hash := List.replicate 32 7
    signature := List.replicate 64 6 }

/-- A sample event. -/
def evSample : Event := { topic := [10, 20, 30], value := [6, 2] }

/-- A sample receipt with one event. -/
def rcSample : Receipt :=
  { status_code := .Success
    gas_consumed := 102
    return_value := [9]
    events := [evSample] }

/-- A sample block header. -/
def bhSample : BlockHeader :=
  { blockchain_id := 1
    block_version_number := 2
    timestamp := 3
    prev_block_hash := List.replicate 32 1
    this_block_hash := List.replicate 32 2
    txs_hash := List.replicate 32 3
    state_hash := List.replicate 32 4
    receipts_hash := List.replicate 32 6
    proposer_public_key := List.replicate 32 7
    signature := List.replicate 64 8 }

/-- A sample block with one transaction and one receipt. -/
def blkSample : Block :=
  { header := bhSample, transactions := [txSmall], receipts := [rcSample] }

/-- A sample Merkle proof (in 32-bit range). -/
def mpSample : MerkleProof :=
  { root_hash := List.replicate 32 5
    total_leaves_count := 123
    leaf_indices := [0, 4, 100]
    leaf_hashes := [List.replicate 32 6, List.replicate 32 7]
    proof := [1, 2, 3] }

/-- A valid in-memory Merkle proof whose `usize` leaf count does not fit
in 32 bits: the `as u32` cast in `MerkleProof::serialize` truncates it. -/
def mpOverflow : MerkleProof :=
  { root_hash := List.replicate 32 0
    total_leaves_count := 2 ^ 32
    leaf_indices := []
    leaf_hashes := []
    proof := [] }

/-- A Merkle proof whose count and first index exceed 32 bits, used to
exhibit the truncating (mod 2 ^ 32) decode result. -/
def mpTruncSample : MerkleProof :=
  { root_hash := List.replicate 32 0
    total_leaves_count := 2 ^ 32 + 5
    leaf_indices := [2 ^ 32 + 7]
    leaf_hashes := []
    proof := [] }

/-- A sample state-proofs value (spec's §8 scenario shape, shrunk). -/
def spSample : StateProofs :=
  { root_hash := List.replicate 32 8
    items := [([1, 2], some [3]), ([4], none), ([5, 6, 7], some [8, 9])]
    proof := [[5, 6], [7], [8, 9, 10]] }

/-- A sample call data value (method name "hi"). -/
def cdSample : CallData := { method_name := [104, 105], arguments := [1, 2, 3] }

/-- A sample `ParamsFromTransaction`. -/
def pftSample : ParamsFromTransaction :=
  { from_address := List.replicate 32 0
    to_address := List.replicate 32 1
    data := [2, 2, 2]
    value := 99
    transaction_hash := List.replicate 32 3 }

/-- A sample `ParamsFromBlockchain`. -/
def pfbSample : ParamsFromBlockchain :=
  { this_block_number := 123
    prev_block_hash := List.replicate 32 99
    timestamp := 111110
    random_bytes := List.replicate 32 255 }

/-- A 205-byte buffer: a well-formed 204-byte zero-data transaction
encoding with one trailing byte appended. -/
def c2FailingInput : List Nat := List.replicate 205 0

/-- A block buffer whose transaction region is 204 bytes but whose
single transaction declares `data_size = 1` (self-declared item size 205
exceeding the 204 remaining bytes of the region): zeroed 276-byte
header, `tx_size = 204`, `recp_size = 0`, then the 204-byte region whose
`DATASIZE` field (region offset 200) holds 1. -/
def c3FailingInput : List Nat :=
  List.replicate 276 0 ++ u32le 204 ++ u32le 0
    ++ (List.replicate 200 0 ++ u32le 1)

/-- The fixed-byte-array type invariants of a `Transaction` value alone
(what `Transaction::serialize` needs for its layout to be contiguous). -/
def wfTransactionArrays (t : Transaction) : Prop :=
  t.from_address.length = 32 ∧ t.to_address.length = 32 ∧
  t.hash.length = 32 ∧ t.signature.length = 64

/-! Helper lemmas: little-endian arithmetic, reads over concatenations,
and the effect of `writeAt` on a zero-filled tail. -/

@[simp]
theorem u32le_length (n : Nat) : (u32le n).length = 4 := rfl

@[simp]
theorem u64le_length (n : Nat) : (u64le n).length = 8 := rfl

theorem leToNat_u32le (n : Nat) : leToNat (u32le n) = n % 2 ^ 32 := by
  simp [leToNat, u32le]; omega

theorem leToNat_u64le (n : Nat) : leToNat (u64le n) = n % 2 ^ 64 := by
  simp [leToNat, u64le]; omega

theorem readBytes_peel (xs ys : List Nat) (off n : Nat) (h : xs.length ≤ off) :
    readBytes (xs ++ ys) off n = readBytes ys (off - xs.length) n := by
  unfold readBytes
  rw [List.drop_append_eq_append_drop]
  simp [List.drop_eq_nil_of_le h]

theorem readBytes_take (xs ys : List Nat) (n : Nat) (h : xs.length = n) :
    readBytes (xs ++ ys) 0 n = xs := by
  unfold readBytes
  simpa using List.take_left' h

theorem readBytes_all (xs : List Nat) (n : Nat) (h : xs.length = n) :
    readBytes xs 0 n = xs := by
  unfold readBytes
  simp [List.take_of_length_le (Nat.le_of_eq h)]

theorem writeAt_block {buf : List Nat} (xs v : List Nat) {m off r : Nat}
    (hbuf : buf = xs ++ List.replicate m 0) (hx : xs.length = off)
    (hr : m - v.length = r) :
    writeAt buf off v = xs ++ v ++ List.replicate r 0 := by
  subst hbuf hx hr
  unfold writeAt
  rw [List.take_left, List.drop_append, List.drop_replicate]

/-- Normal form of `Transaction::serialize_to_slice` on a zero-filled
buffer of capacity `m`: the contiguous field table makes the written
buffer a plain concatenation of the field encodings followed by the
untouched zero tail. -/
theorem transaction_to_slice_replicate (t : Transaction) (m : Nat)
    (hfa : t.from_address.length = 32) (hta : t.to_address.length = 32)
    (hh : t.hash.length = 32) (hs : t.signature.length = 64)
    (hm : Transaction.size_of t ≤ m) :
    (Transaction.serialize_to_slice t (List.replicate m 0)).1 =
      (t.from_address ++ (t.to_address ++ (u64le t.value ++ (u64le t.tip
        ++ (u64le t.gas_limit ++ (u64le t.gas_price
        ++ (u64le t.n_txs_on_chain_from_address ++ (t.hash ++ (t.signature
        ++ (u32le t.data.length ++ t.data))))))))))
        ++ List.replicate (m - Transaction.size_of t) 0 := by
  have hm' : t.data.length + 204 ≤ m := by
    simpa [Transaction.size_of, fmt_transaction.BASESIZE] using hm
  have h1 : writeAt (List.replicate m 0) 0 t.from_address
      = t.from_address ++ List.replicate (m - 32) 0 := by
    simpa using writeAt_block (r := m - 32) [] t.from_address rfl rfl (by omega)
  have h2 : writeAt (t.from_address ++ List.replicate (m - 32) 0) 32
        t.to_address
      = t.from_address ++ (t.to_address ++ List.replicate (m - 64) 0) := by
    simpa using writeAt_block (r := m - 64) t.from_address t.to_address rfl hfa (by omega)
  have h3 : writeAt (t.from_address ++ (t.to_address
        ++ List.replicate (m - 64) 0)) 64 (u64le t.value)
      = t.from_address ++ (t.to_address ++ (u64le t.value
        ++ List.replicate (m - 72) 0)) := by
    simpa using writeAt_block (m := m - 64) (r := m - 72) (t.from_address ++ t.to_address)
      (u64le t.value) (by simp) (by simp [hfa, hta]) (by simp; omega)
  have h4 : writeAt (t.from_address ++ (t.to_address ++ (u64le t.value
        ++ List.replicate (m - 72) 0))) 72 (u64le t.tip)
      = t.from_address ++ (t.to_address ++ (u64le t.value ++ (u64le t.tip
        ++ List.replicate (m - 80) 0))) := by
    simpa using writeAt_block (m := m - 72) (r := m - 80)
      (t.from_address ++ t.to_address ++ u64le t.value)
      (u64le t.tip) (by simp) (by simp [hfa, hta]) (by simp; omega)
  have h5 : writeAt (t.from_address ++ (t.to_address ++ (u64le t.value
        ++ (u64le t.tip ++ List.replicate (m - 80) 0)))) 80
        (u64le t.gas_limit)
      = t.from_address ++ (t.to_address ++ (u64le t.value ++ (u64le t.tip
        ++ (u64le t.gas_limit ++ List.replicate (m - 88) 0)))) := by
    simpa using writeAt_block (m := m - 80) (r := m - 88)
      (t.from_address ++ t.to_address ++ u64le t.value ++ u64le t.tip)
      (u64le t.gas_limit) (by simp) (by simp [hfa, hta]) (by simp; omega)
  have h6 : writeAt (t.from_address ++ (t.to_address ++ (u64le t.value
        ++ (u64le t.tip ++ (u64le t.gas_limit
        ++ List.replicate (m - 88) 0))))) 88 (u64le t.gas_price)
      = t.from_address ++ (t.to_address ++ (u64le t.value ++ (u64le t.tip
        ++ (u64le t.gas_limit ++ (u64le t.gas_price
        ++ List.replicate (m - 96) 0))))) := by
    simpa using writeAt_block (m := m - 88) (r := m - 96)
      (t.from_address ++ t.to_address ++ u64le t.value ++ u64le t.tip
        ++ u64le t.gas_limit)
      (u64le t.gas_price) (by simp) (by simp [hfa, hta]) (by simp; omega)
  have h7 : writeAt (t.from_address ++ (t.to_address ++ (u64le t.value
        ++ (u64le t.tip ++ (u64le t.gas_limit ++ (u64le t.gas_price
        ++ List.replicate (m - 96) 0)))))) 96
        (u64le t.n_txs_on_chain_from_address)
      = t.from_address ++ (t.to_address ++ (u64le t.value ++ (u64le t.tip
        ++ (u64le t.gas_limit ++ (u64le t.gas_price
        ++ (u64le t.n_txs_on_chain_from_address
        ++ List.replicate (m - 104) 0)))))) := by
    simpa using writeAt_block (m := m - 96) (r := m - 104)
      (t.from_address ++ t.to_address ++ u64le t.value ++ u64le t.tip
        ++ u64le t.gas_limit ++ u64le t.gas_price)
      (u64le t.n_txs_on_chain_from_address) (by simp) (by simp [hfa, hta])
      (by simp; omega)
  have h8 : writeAt (t.from_address ++ (t.to_address ++ (u64le t.value
        ++ (u64le t.tip ++ (u64le t.gas_limit ++ (u64le t.gas_price
        ++ (u64le t.n_txs_on_chain_from_address
        ++ List.replicate (m - 104) 0))))))) 104 t.hash
      = t.from_address ++ (t.to_address ++ (u64le t.value ++ (u64le t.tip
        ++ (u64le t.gas_limit ++ (u64le t.gas_price
        ++ (u64le t.n_txs_on_chain_from_address ++ (t.hash
        ++ List.replicate (m - 136) 0))))))) := by
    simpa using writeAt_block (m := m - 104) (r := m - 136)
      (t.from_address ++ t.to_address ++ u64le t.value ++ u64le t.tip
        ++ u64le t.gas_limit ++ u64le t.gas_price
        ++ u64le t.n_txs_on_chain_from_address)
      t.hash (by simp) (by simp [hfa, hta]) (by simp [hh]; omega)
  have h9 : writeAt (t.from_address ++ (t.to_address ++ (u64le t.value
        ++ (u64le t.tip ++ (u64le t.gas_limit ++ (u64le t.gas_price
        ++ (u64le t.n_txs_on_chain_from_address ++ (t.hash
        ++ List.replicate (m - 136) 0)))))))) 136 t.signature
      = t.from_address ++ (t.to_address ++ (u64le t.value ++ (u64le t.tip
        ++ (u64le t.gas_limit ++ (u64le t.gas_price
        ++ (u64le t.n_txs_on_chain_from_address ++ (t.hash ++ (t.signature
        ++ List.replicate (m - 200) 0)))))))) := by
    simpa using writeAt_block (m := m - 136) (r := m - 200)
      (t.from_address ++ t.to_address ++ u64le t.value ++ u64le t.tip
        ++ u64le t.gas_limit ++ u64le t.gas_price
        ++ u64le t.n_txs_on_chain_from_address ++ t.hash)
      t.signature (by simp) (by simp [hfa, hta, hh]) (by simp [hs]; omega)
  have h10 : writeAt (t.from_address ++ (t.to_address ++ (u64le t.value
        ++ (u64le t.tip ++ (u64le t.gas_limit ++ (u64le t.gas_price
        ++ (u64le t.n_txs_on_chain_from_address ++ (t.hash ++ (t.signature
        ++ List.replicate (m - 200) 0))))))))) 200 (u32le t.data.length)
      = t.from_address ++ (t.to_address ++ (u64le t.value ++ (u64le t.tip
        ++ (u64le t.gas_limit ++ (u64le t.gas_price
        ++ (u64le t.n_txs_on_chain_from_address ++ (t.hash ++ (t.signature
        ++ (u32le t.data.length ++ List.replicate (m - 204) 0))))))))) := by
    simpa using writeAt_block (m := m - 200) (r := m - 204)
      (t.from_address ++ t.to_address ++ u64le t.value ++ u64le t.tip
        ++ u64le t.gas_limit ++ u64le t.gas_price
        ++ u64le t.n_txs_on_chain_from_address ++ t.hash ++ t.signature)
      (u32le t.data.length) (by simp) (by simp [hfa, hta, hh, hs])
      (by simp; omega)
  have h11 : writeAt (t.from_address ++ (t.to_address ++ (u64le t.value
        ++ (u64le t.tip ++ (u64le t.gas_limit ++ (u64le t.gas_price
        ++ (u64le t.n_txs_on_chain_from_address ++ (t.hash ++ (t.signature
        ++ (u32le t.data.length
        ++ List.replicate (m - 204) 0)))))))))) 204 t.data
      = t.from_address ++ (t.to_address ++ (u64le t.value ++ (u64le t.tip
        ++ (u64le t.gas_limit ++ (u64le t.gas_price
        ++ (u64le t.n_txs_on_chain_from_address ++ (t.hash ++ (t.signature
        ++ (u32le t.data.length ++ (t.data
        ++ List.replicate (m - (204 + t.data.length)) 0)))))))))) := by
    simpa using writeAt_block (m := m - 204) (r := m - (204 + t.data.length))
      (t.from_address ++ t.to_address ++ u64le t.value ++ u64le t.tip
        ++ u64le t.gas_limit ++ u64le t.gas_price
        ++ u64le t.n_txs_on_chain_from_address ++ t.hash ++ t.signature
        ++ u32le t.data.length)
      t.data (by simp) (by simp [hfa, hta, hh, hs]) (by omega)
  simp only [Transaction.serialize_to_slice, fmt_transaction.FROMADDRESS,
    fmt_transaction.TOADDRESS, fmt_transaction.VALUE, fmt_transaction.TIP,
    fmt_transaction.GASLIMIT, fmt_transaction.GASPRICE,
    fmt_transaction.NUMTX, fmt_transaction.HASH, fmt_transaction.SIGNATURE,
    fmt_transaction.DATASIZE, fmt_transaction.BASESIZE]
  rw [h1, h2, h3, h4, h5, h6, h7, h8, h9, h10, h11]
  simp [Transaction.size_of, fmt_transaction.BASESIZE, List.append_assoc]
  omega

/-- `Transaction::serialize` is the plain concatenation of the field
encodings in table order. -/
theorem transaction_serialize_concat (t : Transaction)
    (hfa : t.from_address.length = 32) (hta : t.to_address.length = 32)
    (hh : t.hash.length = 32) (hs : t.signature.length = 64) :
    Transaction.serialize t =
      t.from_address ++ (t.to_address ++ (u64le t.value ++ (u64le t.tip
        ++ (u64le t.gas_limit ++ (u64le t.gas_price
        ++ (u64le t.n_txs_on_chain_from_address ++ (t.hash ++ (t.signature
        ++ (u32le t.data.length ++ t.data))))))))) := by
  unfold Transaction.serialize
  rw [transaction_to_slice_replicate t (Transaction.size_of t) hfa hta hh hs
    le_rfl]
  simp

/-- The byte length of a serialized transaction is `204 + data.len()`. -/
theorem transaction_serialize_length (t : Transaction)
    (hfa : t.from_address.length = 32) (hta : t.to_address.length = 32)
    (hh : t.hash.length = 32) (hs : t.signature.length = 64) :
    (Transaction.serialize t).length = 204 + t.data.length := by
  rw [transaction_serialize_concat t hfa hta hh hs]
  simp [hfa, hta, hh, hs]
  omega

/-- Decoding a serialized transaction recovers the transaction. -/
theorem transaction_roundtrip (t : Transaction) (h : wfTransaction t) :
    Transaction.deserialize (Transaction.serialize t) = .ok t := by
  obtain ⟨hfa, hta, hh, hs, hv, htp, hgl, hgp, hn, hd⟩ := h
  have hlen := transaction_serialize_length t hfa hta hh hs
  have hcat := transaction_serialize_concat t hfa hta hh hs
  have hds : readBytes (Transaction.serialize t) 200 4 = u32le t.data.length := by
    rw [hcat]
    simp [readBytes_peel, readBytes_take, hfa, hta, hh, hs]
  simp only [Transaction.deserialize, fmt_transaction.FROMADDRESS,
    fmt_transaction.TOADDRESS, fmt_transaction.VALUE, fmt_transaction.TIP,
    fmt_transaction.GASLIMIT, fmt_transaction.GASPRICE, fmt_transaction.NUMTX,
    fmt_transaction.HASH, fmt_transaction.SIGNATURE, fmt_transaction.DATASIZE,
    fmt_transaction.BASESIZE, readU32, readU64]
  rw [hlen, hds, leToNat_u32le, Nat.mod_eq_of_lt hd]
  rw [if_neg (by omega), if_neg (by omega), if_neg (by omega)]
  rw [hcat]
  simp [readBytes_peel, readBytes_take, readBytes_all, hfa, hta, hh, hs,
    leToNat_u64le, Transaction.mk.injEq]
  rw [Nat.mod_eq_of_lt (show t.value < 18446744073709551616 by omega),
    Nat.mod_eq_of_lt (show t.tip < 18446744073709551616 by omega),
    Nat.mod_eq_of_lt (show t.gas_limit < 18446744073709551616 by omega),
    Nat.mod_eq_of_lt (show t.gas_price < 18446744073709551616 by omega),
    Nat.mod_eq_of_lt
      (show t.n_txs_on_chain_from_address < 18446744073709551616 by omega)]

theorem readBytes_seg (xs ys zs : List Nat) (off n : Nat)
    (h1 : xs.length = off) (h2 : ys.length = n) :
    readBytes (xs ++ (ys ++ zs)) off n = ys := by
  rw [readBytes_peel _ _ _ _ (Nat.le_of_eq h1), h1, Nat.sub_self,
    readBytes_take _ _ _ h2]

theorem readBytes_seg_end (xs ys : List Nat) (off n : Nat)
    (h1 : xs.length = off) (h2 : ys.length = n) :
    readBytes (xs ++ ys) off n = ys := by
  rw [readBytes_peel _ _ _ _ (Nat.le_of_eq h1), h1, Nat.sub_self,
    readBytes_all _ _ h2]

/-- Normal form of `Event::serialize_to_slice` on a zero-filled buffer. -/
theorem event_to_slice_replicate (e : Event) (m : Nat)
    (hm : Event.size_of e ≤ m) :
    (Event.serialize_to_slice e (List.replicate m 0)).1 =
      (u32le e.topic.length ++ (u32le e.value.length ++ (e.topic ++ e.value)))
        ++ List.replicate (m - Event.size_of e) 0 := by
  have hm' : e.topic.length + e.value.length + 8 ≤ m := by
    simpa [Event.size_of, fmt_event.BASESIZE] using hm
  have h1 : writeAt (List.replicate m 0) 0 (u32le e.topic.length)
      = u32le e.topic.length ++ List.replicate (m - 4) 0 := by
    simpa using writeAt_block (r := m - 4) [] (u32le e.topic.length) rfl rfl
      (by simp)
  have h2 : writeAt (u32le e.topic.length ++ List.replicate (m - 4) 0) 4
        (u32le e.value.length)
      = u32le e.topic.length ++ (u32le e.value.length
        ++ List.replicate (m - 8) 0) := by
    simpa using writeAt_block (r := m - 8) (u32le e.topic.length)
      (u32le e.value.length) rfl (by simp) (by simp; omega)
  have h3 : writeAt (u32le e.topic.length ++ (u32le e.value.length
        ++ List.replicate (m - 8) 0)) 8 e.topic
      = u32le e.topic.length ++ (u32le e.value.length ++ (e.topic
        ++ List.replicate (m - (8 + e.topic.length)) 0)) := by
    simpa using writeAt_block (m := m - 8) (r := m - (8 + e.topic.length))
      (u32le e.topic.length ++ u32le e.value.length) e.topic (by simp)
      (by simp) (by omega)
  have h4 : writeAt (u32le e.topic.length ++ (u32le e.value.length ++ (e.topic
        ++ List.replicate (m - (8 + e.topic.length)) 0)))
        (8 + e.topic.length) e.value
      = u32le e.topic.length ++ (u32le e.value.length ++ (e.topic ++ (e.value
        ++ List.replicate (m - (8 + e.topic.length + e.value.length)) 0))) := by
    simpa using writeAt_block (m := m - (8 + e.topic.length))
      (r := m - (8 + e.topic.length + e.value.length))
      (u32le e.topic.length ++ u32le e.value.length ++ e.topic) e.value
      (by simp) (by simp; omega) (by omega)
  simp only [Event.serialize_to_slice, fmt_event.TOPICSIZE,
    fmt_event.VALUESIZE, fmt_event.BASESIZE]
  rw [h1, h2, h3, h4]
  simp [Event.size_of, fmt_event.BASESIZE, List.append_assoc]
  omega

/-- `Event::serialize` is the plain concatenation of its four spans. -/
theorem event_serialize_concat (e : Event) :
    Event.serialize e =
      u32le e.topic.length ++ (u32le e.value.length
        ++ (e.topic ++ e.value)) := by
  unfold Event.serialize
  rw [event_to_slice_replicate e (Event.size_of e) le_rfl]
  simp

/-- The byte length of a serialized event is `8 + topic.len() +
value.len()`, i.e. `Event::size_of`. -/
theorem event_serialize_length (e : Event) :
    (Event.serialize e).length = Event.size_of e := by
  rw [event_serialize_concat e]
  simp [Event.size_of, fmt_event.BASESIZE]
  omega

/-- `Event::serialize_to_slice` on a fresh buffer writes the encoding
followed by the zero tail and returns the item size. -/
theorem event_step (e : Event) (m : Nat) (hm : Event.size_of e ≤ m) :
    Event.serialize_to_slice e (List.replicate m 0) =
      (Event.serialize e ++ List.replicate (m - Event.size_of e) 0,
        Event.size_of e) := by
  refine Prod.ext ?_ rfl
  rw [event_to_slice_replicate e m hm, event_serialize_concat e]

/-- Decoding a serialized event recovers the event. -/
theorem event_roundtrip (e : Event) (h : wfEvent e) :
    Event.deserialize (Event.serialize e) = .ok e := by
  obtain ⟨ht, hv⟩ := h
  rw [event_serialize_concat e]
  have hts : readBytes (u32le e.topic.length ++ (u32le e.value.length
      ++ (e.topic ++ e.value))) 0 4 = u32le e.topic.length :=
    readBytes_take _ _ _ (by simp)
  have hvs : readBytes (u32le e.topic.length ++ (u32le e.value.length
      ++ (e.topic ++ e.value))) 4 4 = u32le e.value.length :=
    readBytes_seg _ _ _ _ _ (by simp) (by simp)
  have htp : readBytes (u32le e.topic.length ++ (u32le e.value.length
      ++ (e.topic ++ e.value))) 8 e.topic.length = e.topic := by
    rw [show u32le e.topic.length ++ (u32le e.value.length
        ++ (e.topic ++ e.value))
      = (u32le e.topic.length ++ u32le e.value.length)
        ++ (e.topic ++ e.value) by simp]
    exact readBytes_seg _ _ _ _ _ (by simp) rfl
  have hvl : readBytes (u32le e.topic.length ++ (u32le e.value.length
      ++ (e.topic ++ e.value))) (8 + e.topic.length) e.value.length
      = e.value := by
    rw [show u32le e.topic.length ++ (u32le e.value.length
        ++ (e.topic ++ e.value))
      = (u32le e.topic.length ++ u32le e.value.length ++ e.topic)
        ++ e.value by simp]
    exact readBytes_seg_end _ _ _ _
      (by simp only [List.length_append, u32le_length] <;> omega) rfl
  simp only [Event.deserialize, fmt_event.TOPICSIZE, fmt_event.VALUESIZE,
    fmt_event.BASESIZE, readU32]
  rw [hts, hvs, leToNat_u32le, leToNat_u32le, Nat.mod_eq_of_lt ht,
    Nat.mod_eq_of_lt hv]
  rw [if_neg (by simp only [List.length_append, u32le_length] <;> omega),
    if_neg (by simp only [List.length_append, u32le_length] <;> omega)]
  rw [htp, hvl]

/-- The advancing-position write loop over a fresh zero buffer produces
the concatenation of the item encodings (in list order) followed by the
unused zero tail. -/
theorem writeItemsLoop_concat {α : Type} (step : α → List Nat → List Nat × Nat)
    (enc : α → List Nat) (sz : α → Nat) (P : α → Prop)
    (hstep : ∀ x, P x → ∀ m, sz x ≤ m →
      step x (List.replicate m 0)
        = (enc x ++ List.replicate (m - sz x) 0, sz x))
    (hlen : ∀ x, P x → (enc x).length = sz x) :
    ∀ (xs : List α) (done : List Nat) (m : Nat), (∀ x ∈ xs, P x) →
      (xs.map sz).sum ≤ m →
      writeItemsLoop step xs (done ++ List.replicate m 0) done.length
        = done ++ (xs.map enc).flatten
          ++ List.replicate (m - (xs.map sz).sum) 0 := by
  intro xs
  induction xs with
  | nil => intro done m _ _; simp [writeItemsLoop]
  | cons x xs ih =>
    intro done m hP hsum
    have hx : P x := hP x (by simp)
    have hsum' : sz x + (xs.map sz).sum ≤ m := by simpa using hsum
    simp only [writeItemsLoop]
    rw [List.drop_left, hstep x hx m (by omega), List.take_left]
    rw [show done ++ (enc x ++ List.replicate (m - sz x) 0)
      = (done ++ enc x) ++ List.replicate (m - sz x) 0 by simp]
    rw [show done.length + sz x = (done ++ enc x).length by
      simp [hlen x hx]]
    rw [ih (done ++ enc x) (m - sz x) (fun y hy => hP y (by simp [hy]))
      (by omega)]
    simp [Nat.sub_sub]

/-- The self-describing scan of a concatenation of item encodings
recovers the item list (given that the per-item size reader returns the
item's own size independently of the bytes that follow it). -/
theorem scanItems_flatten {α : Type} (size_from : List Nat → DResult Nat)
    (deser : List Nat → DResult α) (enc : α → List Nat) (sz : α → Nat)
    (P : α → Prop)
    (hsz : ∀ x, P x → (enc x).length = sz x)
    (hpos : ∀ x, P x → 0 < sz x)
    (hsize : ∀ x, P x → ∀ rest, size_from (enc x ++ rest) = .ok (sz x))
    (hdes : ∀ x, P x → deser (enc x) = .ok x) :
    ∀ (xs : List α) (fuel : Nat), (∀ x ∈ xs, P x) → xs.length ≤ fuel →
      scanItemsGo size_from deser fuel (xs.map enc).flatten = .ok xs := by
  intro xs
  induction xs with
  | nil => intro fuel _ _; cases fuel <;> simp [scanItemsGo]
  | cons x xs ih =>
    intro fuel hP hfuel
    have hx : P x := hP x (by simp)
    have hlen := hsz x hx
    have hp := hpos x hx
    obtain ⟨b, tl, hb⟩ : ∃ b tl, enc x = b :: tl := by
      cases henc : enc x with
      | nil => rw [henc] at hlen; simp at hlen; omega
      | cons b tl => exact ⟨b, tl, rfl⟩
    obtain ⟨f, rfl⟩ : ∃ f, fuel = f + 1 := by
      cases fuel with
      | zero => simp at hfuel
      | succ f => exact ⟨f, rfl⟩
    have harg : enc x ++ (xs.map enc).flatten
        = b :: (tl ++ (xs.map enc).flatten) := by
      rw [hb, List.cons_append]
    simp only [List.map_cons, List.flatten_cons]
    rw [harg]
    simp only [scanItemsGo]
    rw [← harg, hsize x hx]
    dsimp only
    rw [if_pos (by
      rw [List.length_append, hlen]
      omega)]
    rw [List.take_left' hlen, hdes x hx, List.drop_left' hlen]
    rw [ih f (fun y hy => hP y (by simp [hy])) (by simpa using hfuel)]

/-- The concatenated event encodings have total length equal to the sum
of the events' sizes (the value `Receipt::serialize_to_slice` stores in
the `EVENTSSIZE` field). -/
theorem events_flatten_length (es : List Event) :
    ((es.map Event.serialize).flatten).length
      = (es.map Event.size_of).sum := by
  induction es with
  | nil => simp
  | cons e es ih => simp [event_serialize_length, ih]

/-- Normal form of `Receipt::serialize_to_slice` on a zero-filled
buffer. -/
theorem receipt_to_slice_replicate (r : Receipt) (m : Nat)
    (hm : Receipt.size_of r ≤ m) :
    (Receipt.serialize_to_slice r (List.replicate m 0)).1 =
      ([r.status_code.intoU8] ++ (u64le r.gas_consumed
        ++ (u32le r.return_value.length
        ++ (u32le (r.events.map Event.size_of).sum
        ++ (r.return_value ++ (r.events.map Event.serialize).flatten)))))
        ++ List.replicate (m - Receipt.size_of r) 0 := by
  have hm' : r.return_value.length + (r.events.map Event.size_of).sum + 17
      ≤ m := by
    simpa [Receipt.size_of, fmt_receipt.BASESIZE] using hm
  have h1 : writeAt (List.replicate m 0) 0 [r.status_code.intoU8]
      = [r.status_code.intoU8] ++ List.replicate (m - 1) 0 := by
    simpa using writeAt_block (r := m - 1) [] [r.status_code.intoU8] rfl rfl
      (by simp)
  have h2 : writeAt ([r.status_code.intoU8] ++ List.replicate (m - 1) 0) 1
        (u64le r.gas_consumed)
      = [r.status_code.intoU8] ++ (u64le r.gas_consumed
        ++ List.replicate (m - 9) 0) := by
    simpa using writeAt_block (r := m - 9) [r.status_code.intoU8]
      (u64le r.gas_consumed) rfl (by simp) (by simp; omega)
  have h3 : writeAt ([r.status_code.intoU8] ++ (u64le r.gas_consumed
        ++ List.replicate (m - 9) 0)) 9 (u32le r.return_value.length)
      = [r.status_code.intoU8] ++ (u64le r.gas_consumed
        ++ (u32le r.return_value.length ++ List.replicate (m - 13) 0)) := by
    simpa using writeAt_block (m := m - 9) (r := m - 13)
      ([r.status_code.intoU8] ++ u64le r.gas_consumed)
      (u32le r.return_value.length) (by simp) (by simp) (by simp; omega)
  have h4 : writeAt ([r.status_code.intoU8] ++ (u64le r.gas_consumed
        ++ (u32le r.return_value.length ++ List.replicate (m - 13) 0))) 13
        (u32le (r.events.map Event.size_of).sum)
      = [r.status_code.intoU8] ++ (u64le r.gas_consumed
        ++ (u32le r.return_value.length
        ++ (u32le (r.events.map Event.size_of).sum
        ++ List.replicate (m - 17) 0))) := by
    simpa using writeAt_block (m := m - 13) (r := m - 17)
      ([r.status_code.intoU8] ++ u64le r.gas_consumed
        ++ u32le r.return_value.length)
      (u32le (r.events.map Event.size_of).sum) (by simp) (by simp)
      (by simp; omega)
  have h5 : writeAt ([r.status_code.intoU8] ++ (u64le r.gas_consumed
        ++ (u32le r.return_value.length
        ++ (u32le (r.events.map Event.size_of).sum
        ++ List.replicate (m - 17) 0)))) 17 r.return_value
      = [r.status_code.intoU8] ++ (u64le r.gas_consumed
        ++ (u32le r.return_value.length
        ++ (u32le (r.events.map Event.size_of).sum
        ++ (r.return_value
        ++ List.replicate (m - (17 + r.return_value.length)) 0)))) := by
    simpa using writeAt_block (m := m - 17)
      (r := m - (17 + r.return_value.length))
      ([r.status_code.intoU8] ++ u64le r.gas_consumed
        ++ u32le r.return_value.length
        ++ u32le (r.events.map Event.size_of).sum)
      r.return_value (by simp) (by simp) (by omega)
  have hloop : writeItemsLoop Event.serialize_to_slice r.events
        (([r.status_code.intoU8] ++ u64le r.gas_consumed
          ++ u32le r.return_value.length
          ++ u32le (r.events.map Event.size_of).sum ++ r.return_value)
          ++ List.replicate (m - (17 + r.return_value.length)) 0)
        ([r.status_code.intoU8] ++ u64le r.gas_consumed
          ++ u32le r.return_value.length
          ++ u32le (r.events.map Event.size_of).sum
          ++ r.return_value).length
      = ([r.status_code.intoU8] ++ u64le r.gas_consumed
          ++ u32le r.return_value.length
          ++ u32le (r.events.map Event.size_of).sum ++ r.return_value)
          ++ (r.events.map Event.serialize).flatten
          ++ List.replicate ((m - (17 + r.return_value.length))
            - (r.events.map Event.size_of).sum) 0 :=
    writeItemsLoop_concat Event.serialize_to_slice Event.serialize
      Event.size_of (fun _ => True)
      (fun e _ m hm => event_step e m hm)
      (fun e _ => event_serialize_length e)
      r.events _ _ (fun _ _ => trivial) (by omega)
  rw [show ([r.status_code.intoU8] ++ u64le r.gas_consumed
      ++ u32le r.return_value.length
      ++ u32le (r.events.map Event.size_of).sum ++ r.return_value).length
    = 17 + r.return_value.length by
    simp only [List.length_append, u32le_length, u64le_length,
      List.length_cons, List.length_nil] <;> omega] at hloop
  simp only [Receipt.serialize_to_slice, fmt_receipt.STATUSCODE,
    fmt_receipt.GASCONSUMED, fmt_receipt.RETURNVALSIZE,
    fmt_receipt.EVENTSSIZE, fmt_receipt.BASESIZE]
  rw [h1, h2, h3, h4, h5]
  rw [show [r.status_code.intoU8] ++ (u64le r.gas_consumed
      ++ (u32le r.return_value.length
      ++ (u32le (r.events.map Event.size_of).sum
      ++ (r.return_value
      ++ List.replicate (m - (17 + r.return_value.length)) 0))))
    = ([r.status_code.intoU8] ++ u64le r.gas_consumed
      ++ u32le r.return_value.length
      ++ u32le (r.events.map Event.size_of).sum ++ r.return_value)
      ++ List.replicate (m - (17 + r.return_value.length)) 0 by simp]
  rw [hloop]
  simp [Receipt.size_of, fmt_receipt.BASESIZE, List.append_assoc, Nat.sub_sub]
  omega

/-- `Receipt::serialize` is the plain concatenation: status byte, gas,
the two size fields, the return value, then the event encodings. -/
theorem receipt_serialize_concat (r : Receipt) :
    Receipt.serialize r =
      [r.status_code.intoU8] ++ (u64le r.gas_consumed
        ++ (u32le r.return_value.length
        ++ (u32le (r.events.map Event.size_of).sum
        ++ (r.return_value ++ (r.events.map Event.serialize).flatten)))) := by
  unfold Receipt.serialize
  rw [receipt_to_slice_replicate r (Receipt.size_of r) le_rfl]
  simp

/-- The byte length of a serialized receipt is `Receipt::size_of`. -/
theorem receipt_serialize_length (r : Receipt) :
    (Receipt.serialize r).length = Receipt.size_of r := by
  rw [receipt_serialize_concat r]
  simp only [List.length_append, u32le_length, u64le_length,
    List.length_cons, List.length_nil, events_flatten_length,
    Receipt.size_of, fmt_receipt.BASESIZE]
  omega

/-- `Receipt::serialize_to_slice` on a fresh buffer writes the encoding
followed by the zero tail and returns the item size. -/
theorem receipt_step (r : Receipt) (m : Nat) (hm : Receipt.size_of r ≤ m) :
    Receipt.serialize_to_slice r (List.replicate m 0) =
      (Receipt.serialize r ++ List.replicate (m - Receipt.size_of r) 0,
        Receipt.size_of r) := by
  refine Prod.ext ?_ rfl
  rw [receipt_to_slice_replicate r m hm, receipt_serialize_concat r]

/-- Every status code's reserved byte decodes back to the code. -/
theorem tryFrom_intoU8 (c : ReceiptStatusCode) :
    ReceiptStatusCode.tryFrom c.intoU8 = .ok c := by
  cases c <;> rfl

theorem leToNat_single (b : Nat) : leToNat [b] = b := by
  simp [leToNat]

/-- `Event::size_from_slice` on an event encoding followed by anything
returns the event's own size. -/
theorem event_size_from_append (e : Event) (he : wfEvent e)
    (rest : List Nat) :
    Event.size_from_slice (Event.serialize e ++ rest)
      = .ok (Event.size_of e) := by
  obtain ⟨ht, hv⟩ := he
  rw [event_serialize_concat e]
  rw [show (u32le e.topic.length ++ (u32le e.value.length
      ++ (e.topic ++ e.value))) ++ rest
    = u32le e.topic.length ++ (u32le e.value.length
      ++ (e.topic ++ (e.value ++ rest))) by simp]
  have h0 : readBytes (u32le e.topic.length ++ (u32le e.value.length
      ++ (e.topic ++ (e.value ++ rest)))) 0 4 = u32le e.topic.length :=
    readBytes_take _ _ _ (by simp)
  have h4 : readBytes (u32le e.topic.length ++ (u32le e.value.length
      ++ (e.topic ++ (e.value ++ rest)))) 4 4 = u32le e.value.length :=
    readBytes_seg _ _ _ _ _ (by simp) (by simp)
  simp only [Event.size_from_slice, fmt_event.TOPICSIZE, fmt_event.VALUESIZE,
    fmt_event.BASESIZE, readU32]
  rw [h0, h4, leToNat_u32le, leToNat_u32le, Nat.mod_eq_of_lt ht,
    Nat.mod_eq_of_lt hv]
  rw [if_neg (by simp only [List.length_append, u32le_length] <;> omega)]
  simp only [Event.size_of, fmt_event.BASESIZE, DResult.ok.injEq]
  omega

/-- There are at least as many bytes as events in a concatenation of
event encodings (each encoding holds at least its 8 header bytes). -/
theorem events_count_le_flatten (es : List Event) :
    es.length ≤ ((es.map Event.serialize).flatten).length := by
  induction es with
  | nil => simp
  | cons e es ih =>
    simp only [List.map_cons, List.flatten_cons, List.length_append,
      List.length_cons, event_serialize_length]
    have : 1 ≤ Event.size_of e := by
      simp [Event.size_of, fmt_event.BASESIZE]
    omega

/-- Decoding a serialized receipt recovers the receipt. -/
theorem receipt_roundtrip (r : Receipt) (h : wfReceipt r) :
    Receipt.deserialize (Receipt.serialize r) = .ok r := by
  obtain ⟨hg, hrv, hev, hsum⟩ := h
  rw [receipt_serialize_concat r]
  have hst : readBytes ([r.status_code.intoU8] ++ (u64le r.gas_consumed
      ++ (u32le r.return_value.length
      ++ (u32le (r.events.map Event.size_of).sum
      ++ (r.return_value ++ (r.events.map Event.serialize).flatten))))) 0 1
      = [r.status_code.intoU8] :=
    readBytes_take _ _ _ (by simp)
  have hgas : readBytes ([r.status_code.intoU8] ++ (u64le r.gas_consumed
      ++ (u32le r.return_value.length
      ++ (u32le (r.events.map Event.size_of).sum
      ++ (r.return_value ++ (r.events.map Event.serialize).flatten))))) 1 8
      = u64le r.gas_consumed :=
    readBytes_seg _ _ _ _ _ (by simp) (by simp)
  have hrvs : readBytes ([r.status_code.intoU8] ++ (u64le r.gas_consumed
      ++ (u32le r.return_value.length
      ++ (u32le (r.events.map Event.size_of).sum
      ++ (r.return_value ++ (r.events.map Event.serialize).flatten))))) 9 4
      = u32le r.return_value.length := by
    rw [show [r.status_code.intoU8] ++ (u64le r.gas_consumed
        ++ (u32le r.return_value.length
        ++ (u32le (r.events.map Event.size_of).sum
        ++ (r.return_value ++ (r.events.map Event.serialize).flatten))))
      = ([r.status_code.intoU8] ++ u64le r.gas_consumed)
        ++ (u32le r.return_value.length
        ++ (u32le (r.events.map Event.size_of).sum
        ++ (r.return_value
        ++ (r.events.map Event.serialize).flatten))) by simp]
    exact readBytes_seg _ _ _ _ _ (by simp) (by simp)
  have hevs : readBytes ([r.status_code.intoU8] ++ (u64le r.gas_consumed
      ++ (u32le r.return_value.length
      ++ (u32le (r.events.map Event.size_of).sum
      ++ (r.return_value ++ (r.events.map Event.serialize).flatten))))) 13 4
      = u32le (r.events.map Event.size_of).sum := by
    rw [show [r.status_code.intoU8] ++ (u64le r.gas_consumed
        ++ (u32le r.return_value.length
        ++ (u32le (r.events.map Event.size_of).sum
        ++ (r.return_value ++ (r.events.map Event.serialize).flatten))))
      = ([r.status_code.intoU8] ++ u64le r.gas_consumed
        ++ u32le r.return_value.length)
        ++ (u32le (r.events.map Event.size_of).sum
        ++ (r.return_value
        ++ (r.events.map Event.serialize).flatten)) by simp]
    exact readBytes_seg _ _ _ _ _ (by simp) (by simp)
  have hrvv : readBytes ([r.status_code.intoU8] ++ (u64le r.gas_consumed
      ++ (u32le r.return_value.length
      ++ (u32le (r.events.map Event.size_of).sum
      ++ (r.return_value ++ (r.events.map Event.serialize).flatten))))) 17
      r.return_value.length = r.return_value := by
    rw [show [r.status_code.intoU8] ++ (u64le r.gas_consumed
        ++ (u32le r.return_value.length
        ++ (u32le (r.events.map Event.size_of).sum
        ++ (r.return_value ++ (r.events.map Event.serialize).flatten))))
      = ([r.status_code.intoU8] ++ u64le r.gas_consumed
        ++ u32le r.return_value.length
        ++ u32le (r.events.map Event.size_of).sum)
        ++ (r.return_value
        ++ (r.events.map Event.serialize).flatten) by simp]
    exact readBytes_seg _ _ _ _ _ (by simp) rfl
  have hdrop : ([r.status_code.intoU8] ++ (u64le r.gas_consumed
      ++ (u32le r.return_value.length
      ++ (u32le (r.events.map Event.size_of).sum
      ++ (r.return_value
      ++ (r.events.map Event.serialize).flatten))))).drop
      (17 + r.return_value.length)
      = (r.events.map Event.serialize).flatten := by
    rw [show [r.status_code.intoU8] ++ (u64le r.gas_consumed
        ++ (u32le r.return_value.length
        ++ (u32le (r.events.map Event.size_of).sum
        ++ (r.return_value ++ (r.events.map Event.serialize).flatten))))
      = ([r.status_code.intoU8] ++ u64le r.gas_consumed
        ++ u32le r.return_value.length
        ++ u32le (r.events.map Event.size_of).sum ++ r.return_value)
        ++ (r.events.map Event.serialize).flatten by simp]
    exact List.drop_left' (by
      simp only [List.length_append, u32le_length, u64le_length,
        List.length_cons, List.length_nil] <;> omega)
  have hlen : ([r.status_code.intoU8] ++ (u64le r.gas_consumed
      ++ (u32le r.return_value.length
      ++ (u32le (r.events.map Event.size_of).sum
      ++ (r.return_value
      ++ (r.events.map Event.serialize).flatten))))).length
      = 17 + r.return_value.length + (r.events.map Event.size_of).sum := by
    simp only [List.length_append, u32le_length, u64le_length,
      List.length_cons, List.length_nil, events_flatten_length] <;> omega
  simp only [Receipt.deserialize, fmt_receipt.STATUSCODE,
    fmt_receipt.GASCONSUMED, fmt_receipt.RETURNVALSIZE,
    fmt_receipt.EVENTSSIZE, fmt_receipt.BASESIZE, readU8, readU32, readU64]
  rw [hlen, hst, hgas, hrvs, hevs, leToNat_single, tryFrom_intoU8]
  rw [leToNat_u64le, leToNat_u32le, leToNat_u32le, Nat.mod_eq_of_lt hg,
    Nat.mod_eq_of_lt hrv, Nat.mod_eq_of_lt hsum]
  dsimp only
  rw [if_neg (by omega), if_neg (by omega)]
  rw [hrvv, hdrop]
  have hscan : scanItems Event.size_from_slice Event.deserialize
      ((r.events.map Event.serialize).flatten) = .ok r.events := by
    unfold scanItems
    exact scanItems_flatten Event.size_from_slice Event.deserialize
      Event.serialize Event.size_of wfEvent
      (fun e _ => event_serialize_length e)
      (fun e _ => by simp [Event.size_of, fmt_event.BASESIZE])
      event_size_from_append event_roundtrip r.events _ hev
      (events_count_le_flatten r.events)
  rw [hscan]



/-- `BlockHeader::serialize` is the plain concatenation of the ten field
encodings in table order. -/
theorem blockheader_serialize_concat (msg : BlockHeader)
    (hprev : msg.prev_block_hash.length = 32)
    (hthis : msg.this_block_hash.length = 32)
    (hstate : msg.state_hash.length = 32)
    (htxs : msg.txs_hash.length = 32)
    (hrcp : msg.receipts_hash.length = 32)
    (hpk : msg.proposer_public_key.length = 32)
    (hsig : msg.signature.length = 64) :
    BlockHeader.serialize msg =
      u64le msg.blockchain_id ++ (u64le msg.block_version_number ++ (u32le msg.timestamp ++ (msg.prev_block_hash ++ (msg.this_block_hash ++ (msg.state_hash ++ (msg.txs_hash ++ (msg.receipts_hash ++ (msg.proposer_public_key ++ (msg.signature))))))))) := by
  have h1 : writeAt (List.replicate 276 0) 0 (u64le msg.blockchain_id)
      = u64le msg.blockchain_id ++ (List.replicate 268 0) := by
    simpa only [List.append_assoc, List.nil_append, List.append_nil] using writeAt_block (r := 268) ([])
      (u64le msg.blockchain_id) rfl
      rfl
      (by simp)
  have h2 : writeAt (u64le msg.blockchain_id ++ (List.replicate 268 0)) 8 (u64le msg.block_version_number)
      = u64le msg.blockchain_id ++ (u64le msg.block_version_number ++ (List.replicate 260 0)) := by
    simpa only [List.append_assoc, List.nil_append, List.append_nil] using writeAt_block (r := 260) (u64le msg.blockchain_id)
      (u64le msg.block_version_number) rfl
      (show (u64le msg.blockchain_id).length = 8 by simp)
      (by simp)
  have h3 : writeAt (u64le msg.blockchain_id ++ (u64le msg.block_version_number ++ (List.replicate 260 0))) 16 (u32le msg.timestamp)
      = u64le msg.blockchain_id ++ (u64le msg.block_version_number ++ (u32le msg.timestamp ++ (List.replicate 256 0))) := by
    simpa only [List.append_assoc, List.nil_append, List.append_nil] using writeAt_block (r := 256) (u64le msg.blockchain_id ++ u64le msg.block_version_number)
      (u32le msg.timestamp) rfl
      (show (u64le msg.blockchain_id ++ u64le msg.block_version_number).length = 16 by simp)
      (by simp)
  have h4 : writeAt (u64le msg.blockchain_id ++ (u64le msg.block_version_number ++ (u32le msg.timestamp ++ (List.replicate 256 0)))) 20 (msg.prev_block_hash)
      = u64le msg.blockchain_id ++ (u64le msg.block_version_number ++ (u32le msg.timestamp ++ (msg.prev_block_hash ++ (List.replicate 224 0)))) := by
    simpa only [List.append_assoc, List.nil_append, List.append_nil] using writeAt_block (r := 224) (u64le msg.blockchain_id ++ u64le msg.block_version_number ++ u32le msg.timestamp)
      (msg.prev_block_hash) rfl
      (show (u64le msg.blockchain_id ++ u64le msg.block_version_number ++ u32le msg.timestamp).length = 20 by simp)
      (by simp [hprev])
  have h5 : writeAt (u64le msg.blockchain_id ++ (u64le msg.block_version_number ++ (u32le msg.timestamp ++ (msg.prev_block_hash ++ (List.replicate 224 0))))) 52 (msg.this_block_hash)
      = u64le msg.blockchain_id ++ (u64le msg.block_version_number ++ (u32le msg.timestamp ++ (msg.prev_block_hash ++ (msg.this_block_hash ++ (List.replicate 192 0))))) := by
    simpa only [List.append_assoc, List.nil_append, List.append_nil] using writeAt_block (r := 192) (u64le msg.blockchain_id ++ u64le msg.block_version_number ++ u32le msg.timestamp ++ msg.prev_block_hash)
      (msg.this_block_hash) rfl
      (show (u64le msg.blockchain_id ++ u64le msg.block_version_number ++ u32le msg.timestamp ++ msg.prev_block_hash).length = 52 by simp [hprev])
      (by simp [hthis])
  have h6 : writeAt (u64le msg.blockchain_id ++ (u64le msg.block_version_number ++ (u32le msg.timestamp ++ (msg.prev_block_hash ++ (msg.this_block_hash ++ (List.replicate 192 0)))))) 84 (msg.state_hash)
      = u64le msg.blockchain_id ++ (u64le msg.block_version_number ++ (u32le msg.timestamp ++ (msg.prev_block_hash ++ (msg.this_block_hash ++ (msg.state_hash ++ (List.replicate 160 0)))))) := by
    simpa only [List.append_assoc, List.nil_append, List.append_nil] using writeAt_block (r := 160) (u64le msg.blockchain_id ++ u64le msg.block_version_number ++ u32le msg.timestamp ++ msg.prev_block_hash ++ msg.this_block_hash)
      (msg.state_hash) rfl
      (show (u64le msg.blockchain_id ++ u64le msg.block_version_number ++ u32le msg.timestamp ++ msg.prev_block_hash ++ msg.this_block_hash).length = 84 by simp [hprev, hthis])
      (by simp [hstate])
  have h7 : writeAt (u64le msg.blockchain_id ++ (u64le msg.block_version_number ++ (u32le msg.timestamp ++ (msg.prev_block_hash ++ (msg.this_block_hash ++ (msg.state_hash ++ (List.replicate 160 0))))))) 116 (msg.txs_hash)
      = u64le msg.blockchain_id ++ (u64le msg.block_version_number ++ (u32le msg.timestamp ++ (msg.prev_block_hash ++ (msg.this_block_hash ++ (msg.state_hash ++ (msg.txs_hash ++ (List.replicate 128 0))))))) := by
    simpa only [List.append_assoc, List.nil_append, List.append_nil] using writeAt_block (r := 128) (u64le msg.blockchain_id ++ u64le msg.block_version_number ++ u32le msg.timestamp ++ msg.prev_block_hash ++ msg.this_block_hash ++ msg.state_hash)
      (msg.txs_hash) rfl
      (show (u64le msg.blockchain_id ++ u64le msg.block_version_number ++ u32le msg.timestamp ++ msg.prev_block_hash ++ msg.this_block_hash ++ msg.state_hash).length = 116 by simp [hprev, hthis, hstate])
      (by simp [htxs])
  have h8 : writeAt (u64le msg.blockchain_id ++ (u64le msg.block_version_number ++ (u32le msg.timestamp ++ (msg.prev_block_hash ++ (msg.this_block_hash ++ (msg.state_hash ++ (msg.txs_hash ++ (List.replicate 128 0)))))))) 148 (msg.receipts_hash)
      = u64le msg.blockchain_id ++ (u64le msg.block_version_number ++ (u32le msg.timestamp ++ (msg.prev_block_hash ++ (msg.this_block_hash ++ (msg.state_hash ++ (msg.txs_hash ++ (msg.receipts_hash ++ (List.replicate 96 0)))))))) := by
    simpa only [List.append_assoc, List.nil_append, List.append_nil] using writeAt_block (r := 96) (u64le msg.blockchain_id ++ u64le msg.block_version_number ++ u32le msg.timestamp ++ msg.prev_block_hash ++ msg.this_block_hash ++ msg.state_hash ++ msg.txs_hash)
      (msg.receipts_hash) rfl
      (show (u64le msg.blockchain_id ++ u64le msg.block_version_number ++ u32le msg.timestamp ++ msg.prev_block_hash ++ msg.this_block_hash ++ msg.state_hash ++ msg.txs_hash).length = 148 by simp [hprev, hthis, hstate, htxs])
      (by simp [hrcp])
  have h9 : writeAt (u64le msg.blockchain_id ++ (u64le msg.block_version_number ++ (u32le msg.timestamp ++ (msg.prev_block_hash ++ (msg.this_block_hash ++ (msg.state_hash ++ (msg.txs_hash ++ (msg.receipts_hash ++ (List.replicate 96 0))))))))) 180 (msg.proposer_public_key)
      = u64le msg.blockchain_id ++ (u64le msg.block_version_number ++ (u32le msg.timestamp ++ (msg.prev_block_hash ++ (msg.this_block_hash ++ (msg.state_hash ++ (msg.txs_hash ++ (msg.receipts_hash ++ (msg.proposer_public_key ++ (List.replicate 64 0))))))))) := by
    simpa only [List.append_assoc, List.nil_append, List.append_nil] using writeAt_block (r := 64) (u64le msg.blockchain_id ++ u64le msg.block_version_number ++ u32le msg.timestamp ++ msg.prev_block_hash ++ msg.this_block_hash ++ msg.state_hash ++ msg.txs_hash ++ msg.receipts_hash)
      (msg.proposer_public_key) rfl
      (show (u64le msg.blockchain_id ++ u64le msg.block_version_number ++ u32le msg.timestamp ++ msg.prev_block_hash ++ msg.this_block_hash ++ msg.state_hash ++ msg.txs_hash ++ msg.receipts_hash).length = 180 by simp [hprev, hthis, hstate, htxs, hrcp])
      (by simp [hpk])
  have h10 : writeAt (u64le msg.blockchain_id ++ (u64le msg.block_version_number ++ (u32le msg.timestamp ++ (msg.prev_block_hash ++ (msg.this_block_hash ++ (msg.state_hash ++ (msg.txs_hash ++ (msg.receipts_hash ++ (msg.proposer_public_key ++ (List.replicate 64 0)))))))))) 212 (msg.signature)
      = u64le msg.blockchain_id ++ (u64le msg.block_version_number ++ (u32le msg.timestamp ++ (msg.prev_block_hash ++ (msg.this_block_hash ++ (msg.state_hash ++ (msg.txs_hash ++ (msg.receipts_hash ++ (msg.proposer_public_key ++ (msg.signature ++ (List.replicate 0 0)))))))))) := by
    simpa only [List.append_assoc, List.nil_append, List.append_nil] using writeAt_block (r := 0) (u64le msg.blockchain_id ++ u64le msg.block_version_number ++ u32le msg.timestamp ++ msg.prev_block_hash ++ msg.this_block_hash ++ msg.state_hash ++ msg.txs_hash ++ msg.receipts_hash ++ msg.proposer_public_key)
      (msg.signature) rfl
      (show (u64le msg.blockchain_id ++ u64le msg.block_version_number ++ u32le msg.timestamp ++ msg.prev_block_hash ++ msg.this_block_hash ++ msg.state_hash ++ msg.txs_hash ++ msg.receipts_hash ++ msg.proposer_public_key).length = 212 by simp [hprev, hthis, hstate, htxs, hrcp, hpk])
      (by simp [hsig])
  simp only [BlockHeader.serialize, fmt_blockheader.ID,
    fmt_blockheader.VERSION, fmt_blockheader.TIMESTAMP,
    fmt_blockheader.PREVHASH, fmt_blockheader.BLOCKHASH,
    fmt_blockheader.STATEHASH, fmt_blockheader.TXSHASH,
    fmt_blockheader.RECEIPTHASH, fmt_blockheader.PUBKEY,
    fmt_blockheader.SIGNATURE, fmt_blockheader.BASESIZE]
  rw [h1, h2, h3, h4, h5, h6, h7, h8, h9, h10]
  simp

/-- A serialized block header is exactly 276 bytes. -/
theorem blockheader_serialize_length (msg : BlockHeader)
    (hprev : msg.prev_block_hash.length = 32)
    (hthis : msg.this_block_hash.length = 32)
    (hstate : msg.state_hash.length = 32)
    (htxs : msg.txs_hash.length = 32)
    (hrcp : msg.receipts_hash.length = 32)
    (hpk : msg.proposer_public_key.length = 32)
    (hsig : msg.signature.length = 64) :
    (BlockHeader.serialize msg).length = 276 := by
  rw [blockheader_serialize_concat msg hprev hthis hstate htxs hrcp hpk hsig]
  simp [hprev, hthis, hstate, htxs, hrcp, hpk, hsig]

/-- `BlockHeader::deserialize` on a serialized header followed by
anything recovers the header (it only reads the first 276 bytes). -/
theorem blockheader_deserialize_append (msg : BlockHeader)
    (h : wfBlockHeader msg) (rest : List Nat) :
    BlockHeader.deserialize (BlockHeader.serialize msg ++ rest)
      = .ok msg := by
  obtain ⟨hid, hver, hts, hprev, hthis, htxs, hstate, hrcp, hpk, hsig⟩ := h
  rw [blockheader_serialize_concat msg hprev hthis hstate htxs hrcp hpk hsig]
  rw [show (u64le msg.blockchain_id ++ (u64le msg.block_version_number ++ (u32le msg.timestamp ++ (msg.prev_block_hash ++ (msg.this_block_hash ++ (msg.state_hash ++ (msg.txs_hash ++ (msg.receipts_hash ++ (msg.proposer_public_key ++ (msg.signature)))))))))) ++ rest
    = u64le msg.blockchain_id ++ (u64le msg.block_version_number ++ (u32le msg.timestamp ++ (msg.prev_block_hash ++ (msg.this_block_hash ++ (msg.state_hash ++ (msg.txs_hash ++ (msg.receipts_hash ++ (msg.proposer_public_key ++ (msg.signature ++ (rest)))))))))) by simp]
  have r0 : readBytes (u64le msg.blockchain_id ++ (u64le msg.block_version_number ++ (u32le msg.timestamp ++ (msg.prev_block_hash ++ (msg.this_block_hash ++ (msg.state_hash ++ (msg.txs_hash ++ (msg.receipts_hash ++ (msg.proposer_public_key ++ (msg.signature ++ (rest))))))))))) 0 8
      = u64le msg.blockchain_id :=
    readBytes_take _ _ _ (by simp)
  have r1 : readBytes (u64le msg.blockchain_id ++ (u64le msg.block_version_number ++ (u32le msg.timestamp ++ (msg.prev_block_hash ++ (msg.this_block_hash ++ (msg.state_hash ++ (msg.txs_hash ++ (msg.receipts_hash ++ (msg.proposer_public_key ++ (msg.signature ++ (rest))))))))))) 8 8
      = u64le msg.block_version_number := by
    rw [show u64le msg.blockchain_id ++ (u64le msg.block_version_number ++ (u32le msg.timestamp ++ (msg.prev_block_hash ++ (msg.this_block_hash ++ (msg.state_hash ++ (msg.txs_hash ++ (msg.receipts_hash ++ (msg.proposer_public_key ++ (msg.signature ++ (rest))))))))))
      = (u64le msg.blockchain_id)
        ++ (u64le msg.block_version_number ++ (u32le msg.timestamp ++ (msg.prev_block_hash ++ (msg.this_block_hash ++ (msg.state_hash ++ (msg.txs_hash ++ (msg.receipts_hash ++ (msg.proposer_public_key ++ (msg.signature ++ (rest)))))))))) by simp]
    exact readBytes_seg _ _ _ _ _ (by simp) (by simp)
  have r2 : readBytes (u64le msg.blockchain_id ++ (u64le msg.block_version_number ++ (u32le msg.timestamp ++ (msg.prev_block_hash ++ (msg.this_block_hash ++ (msg.state_hash ++ (msg.txs_hash ++ (msg.receipts_hash ++ (msg.proposer_public_key ++ (msg.signature ++ (rest))))))))))) 16 4
      = u32le msg.timestamp := by
    rw [show u64le msg.blockchain_id ++ (u64le msg.block_version_number ++ (u32le msg.timestamp ++ (msg.prev_block_hash ++ (msg.this_block_hash ++ (msg.state_hash ++ (msg.txs_hash ++ (msg.receipts_hash ++ (msg.proposer_public_key ++ (msg.signature ++ (rest))))))))))
      = (u64le msg.blockchain_id ++ u64le msg.block_version_number)
        ++ (u32le msg.timestamp ++ (msg.prev_block_hash ++ (msg.this_block_hash ++ (msg.state_hash ++ (msg.txs_hash ++ (msg.receipts_hash ++ (msg.proposer_public_key ++ (msg.signature ++ (rest))))))))) by simp]
    exact readBytes_seg _ _ _ _ _ (by simp) (by simp)
  have r3 : readBytes (u64le msg.blockchain_id ++ (u64le msg.block_version_number ++ (u32le msg.timestamp ++ (msg.prev_block_hash ++ (msg.this_block_hash ++ (msg.state_hash ++ (msg.txs_hash ++ (msg.receipts_hash ++ (msg.proposer_public_key ++ (msg.signature ++ (rest))))))))))) 20 32
      = msg.prev_block_hash := by
    rw [show u64le msg.blockchain_id ++ (u64le msg.block_version_number ++ (u32le msg.timestamp ++ (msg.prev_block_hash ++ (msg.this_block_hash ++ (msg.state_hash ++ (msg.txs_hash ++ (msg.receipts_hash ++ (msg.proposer_public_key ++ (msg.signature ++ (rest))))))))))
      = (u64le msg.blockchain_id ++ u64le msg.block_version_number ++ u32le msg.timestamp)
        ++ (msg.prev_block_hash ++ (msg.this_block_hash ++ (msg.state_hash ++ (msg.txs_hash ++ (msg.receipts_hash ++ (msg.proposer_public_key ++ (msg.signature ++ (rest)))))))) by simp]
    exact readBytes_seg _ _ _ _ _ (by simp) hprev
  have r4 : readBytes (u64le msg.blockchain_id ++ (u64le msg.block_version_number ++ (u32le msg.timestamp ++ (msg.prev_block_hash ++ (msg.this_block_hash ++ (msg.state_hash ++ (msg.txs_hash ++ (msg.receipts_hash ++ (msg.proposer_public_key ++ (msg.signature ++ (rest))))))))))) 52 32
      = msg.this_block_hash := by
    rw [show u64le msg.blockchain_id ++ (u64le msg.block_version_number ++ (u32le msg.timestamp ++ (msg.prev_block_hash ++ (msg.this_block_hash ++ (msg.state_hash ++ (msg.txs_hash ++ (msg.receipts_hash ++ (msg.proposer_public_key ++ (msg.signature ++ (rest))))))))))
      = (u64le msg.blockchain_id ++ u64le msg.block_version_number ++ u32le msg.timestamp ++ msg.prev_block_hash)
        ++ (msg.this_block_hash ++ (msg.state_hash ++ (msg.txs_hash ++ (msg.receipts_hash ++ (msg.proposer_public_key ++ (msg.signature ++ (rest))))))) by simp]
    exact readBytes_seg _ _ _ _ _ (by simp [hprev]) hthis
  have r5 : readBytes (u64le msg.blockchain_id ++ (u64le msg.block_version_number ++ (u32le msg.timestamp ++ (msg.prev_block_hash ++ (msg.this_block_hash ++ (msg.state_hash ++ (msg.txs_hash ++ (msg.receipts_hash ++ (msg.proposer_public_key ++ (msg.signature ++ (rest))))))))))) 84 32
      = msg.state_hash := by
    rw [show u64le msg.blockchain_id ++ (u64le msg.block_version_number ++ (u32le msg.timestamp ++ (msg.prev_block_hash ++ (msg.this_block_hash ++ (msg.state_hash ++ (msg.txs_hash ++ (msg.receipts_hash ++ (msg.proposer_public_key ++ (msg.signature ++ (rest))))))))))
      = (u64le msg.blockchain_id ++ u64le msg.block_version_number ++ u32le msg.timestamp ++ msg.prev_block_hash ++ msg.this_block_hash)
        ++ (msg.state_hash ++ (msg.txs_hash ++ (msg.receipts_hash ++ (msg.proposer_public_key ++ (msg.signature ++ (rest)))))) by simp]
    exact readBytes_seg _ _ _ _ _ (by simp [hprev, hthis]) hstate
  have r6 : readBytes (u64le msg.blockchain_id ++ (u64le msg.block_version_number ++ (u32le msg.timestamp ++ (msg.prev_block_hash ++ (msg.this_block_hash ++ (msg.state_hash ++ (msg.txs_hash ++ (msg.receipts_hash ++ (msg.proposer_public_key ++ (msg.signature ++ (rest))))))))))) 116 32
      = msg.txs_hash := by
    rw [show u64le msg.blockchain_id ++ (u64le msg.block_version_number ++ (u32le msg.timestamp ++ (msg.prev_block_hash ++ (msg.this_block_hash ++ (msg.state_hash ++ (msg.txs_hash ++ (msg.receipts_hash ++ (msg.proposer_public_key ++ (msg.signature ++ (rest))))))))))
      = (u64le msg.blockchain_id ++ u64le msg.block_version_number ++ u32le msg.timestamp ++ msg.prev_block_hash ++ msg.this_block_hash ++ msg.state_hash)
        ++ (msg.txs_hash ++ (msg.receipts_hash ++ (msg.proposer_public_key ++ (msg.signature ++ (rest))))) by simp]
    exact readBytes_seg _ _ _ _ _ (by simp [hprev, hstate, hthis]) htxs
  have r7 : readBytes (u64le msg.blockchain_id ++ (u64le msg.block_version_number ++ (u32le msg.timestamp ++ (msg.prev_block_hash ++ (msg.this_block_hash ++ (msg.state_hash ++ (msg.txs_hash ++ (msg.receipts_hash ++ (msg.proposer_public_key ++ (msg.signature ++ (rest))))))))))) 148 32
      = msg.receipts_hash := by
    rw [show u64le msg.blockchain_id ++ (u64le msg.block_version_number ++ (u32le msg.timestamp ++ (msg.prev_block_hash ++ (msg.this_block_hash ++ (msg.state_hash ++ (msg.txs_hash ++ (msg.receipts_hash ++ (msg.proposer_public_key ++ (msg.signature ++ (rest))))))))))
      = (u64le msg.blockchain_id ++ u64le msg.block_version_number ++ u32le msg.timestamp ++ msg.prev_block_hash ++ msg.this_block_hash ++ msg.state_hash ++ msg.txs_hash)
        ++ (msg.receipts_hash ++ (msg.proposer_public_key ++ (msg.signature ++ (rest)))) by simp]
    exact readBytes_seg _ _ _ _ _ (by simp [hprev, hstate, hthis, htxs]) hrcp
  have r8 : readBytes (u64le msg.blockchain_id ++ (u64le msg.block_version_number ++ (u32le msg.timestamp ++ (msg.prev_block_hash ++ (msg.this_block_hash ++ (msg.state_hash ++ (msg.txs_hash ++ (msg.receipts_hash ++ (msg.proposer_public_key ++ (msg.signature ++ (rest))))))))))) 180 32
      = msg.proposer_public_key := by
    rw [show u64le msg.blockchain_id ++ (u64le msg.block_version_number ++ (u32le msg.timestamp ++ (msg.prev_block_hash ++ (msg.this_block_hash ++ (msg.state_hash ++ (msg.txs_hash ++ (msg.receipts_hash ++ (msg.proposer_public_key ++ (msg.signature ++ (rest))))))))))
      = (u64le msg.blockchain_id ++ u64le msg.block_version_number ++ u32le msg.timestamp ++ msg.prev_block_hash ++ msg.this_block_hash ++ msg.state_hash ++ msg.txs_hash ++ msg.receipts_hash)
        ++ (msg.proposer_public_key ++ (msg.signature ++ (rest))) by simp]
    exact readBytes_seg _ _ _ _ _ (by simp [hprev, hrcp, hstate, hthis, htxs]) hpk
  have r9 : readBytes (u64le msg.blockchain_id ++ (u64le msg.block_version_number ++ (u32le msg.timestamp ++ (msg.prev_block_hash ++ (msg.this_block_hash ++ (msg.state_hash ++ (msg.txs_hash ++ (msg.receipts_hash ++ (msg.proposer_public_key ++ (msg.signature ++ (rest))))))))))) 212 64
      = msg.signature := by
    rw [show u64le msg.blockchain_id ++ (u64le msg.block_version_number ++ (u32le msg.timestamp ++ (msg.prev_block_hash ++ (msg.this_block_hash ++ (msg.state_hash ++ (msg.txs_hash ++ (msg.receipts_hash ++ (msg.proposer_public_key ++ (msg.signature ++ (rest))))))))))
      = (u64le msg.blockchain_id ++ u64le msg.block_version_number ++ u32le msg.timestamp ++ msg.prev_block_hash ++ msg.this_block_hash ++ msg.state_hash ++ msg.txs_hash ++ msg.receipts_hash ++ msg.proposer_public_key)
        ++ (msg.signature ++ (rest)) by simp]
    exact readBytes_seg _ _ _ _ _ (by simp [hpk, hprev, hrcp, hstate, hthis, htxs]) hsig
  simp only [BlockHeader.deserialize, fmt_blockheader.ID,
    fmt_blockheader.VERSION, fmt_blockheader.TIMESTAMP,
    fmt_blockheader.PREVHASH, fmt_blockheader.BLOCKHASH,
    fmt_blockheader.STATEHASH, fmt_blockheader.TXSHASH,
    fmt_blockheader.RECEIPTHASH, fmt_blockheader.PUBKEY,
    fmt_blockheader.SIGNATURE, fmt_blockheader.BASESIZE, readU32, readU64]
  rw [r0, r1, r2, r3, r4, r5, r6, r7, r8, r9]
  rw [leToNat_u64le, leToNat_u64le, leToNat_u32le,
    Nat.mod_eq_of_lt hid, Nat.mod_eq_of_lt hver, Nat.mod_eq_of_lt hts]
  rw [if_neg (by
    simp only [List.length_append, u32le_length, u64le_length] <;> omega)]

/-- Decoding a serialized block header recovers the header. -/
theorem blockheader_roundtrip (msg : BlockHeader) (h : wfBlockHeader msg) :
    BlockHeader.deserialize (BlockHeader.serialize msg) = .ok msg := by
  have := blockheader_deserialize_append msg h []
  simpa using this

theorem flatten_enc_length {α : Type} (enc : α → List Nat) (sz : α → Nat)
    (xs : List α) (h : ∀ x ∈ xs, (enc x).length = sz x) :
    ((xs.map enc).flatten).length = (xs.map sz).sum := by
  induction xs with
  | nil => simp
  | cons x xs ih =>
    simp [h x (by simp), ih (fun y hy => h y (by simp [hy]))]

theorem count_le_flatten {α : Type} (enc : α → List Nat) (xs : List α)
    (h : ∀ x ∈ xs, 0 < (enc x).length) :
    xs.length ≤ ((xs.map enc).flatten).length := by
  induction xs with
  | nil => simp
  | cons x xs ih =>
    have h0 := h x (by simp)
    have := ih (fun y hy => h y (by simp [hy]))
    simp only [List.map_cons, List.flatten_cons, List.length_append,
      List.length_cons]
    omega

/-- A serialized transaction's length is `Transaction::size_of`. -/
theorem transaction_serialize_size (t : Transaction)
    (h : wfTransactionArrays t) :
    (Transaction.serialize t).length = Transaction.size_of t := by
  obtain ⟨hfa, hta, hh, hs⟩ := h
  rw [transaction_serialize_length t hfa hta hh hs]
  simp [Transaction.size_of, fmt_transaction.BASESIZE]
  omega

/-- `Transaction::serialize_to_slice` on a fresh buffer writes the
encoding followed by the zero tail and returns the item size. -/
theorem transaction_step (t : Transaction) (h : wfTransactionArrays t)
    (m : Nat) (hm : Transaction.size_of t ≤ m) :
    Transaction.serialize_to_slice t (List.replicate m 0) =
      (Transaction.serialize t
        ++ List.replicate (m - Transaction.size_of t) 0,
        Transaction.size_of t) := by
  obtain ⟨hfa, hta, hh, hs⟩ := h
  refine Prod.ext ?_ rfl
  rw [transaction_to_slice_replicate t m hfa hta hh hs hm,
    transaction_serialize_concat t hfa hta hh hs]

/-- `Transaction::size_from_slice` on a transaction encoding followed by
anything returns the transaction's own size. -/
theorem transaction_size_from_append (t : Transaction) (h : wfTransaction t)
    (rest : List Nat) :
    Transaction.size_from_slice (Transaction.serialize t ++ rest)
      = .ok (Transaction.size_of t) := by
  obtain ⟨hfa, hta, hh, hs, _, _, _, _, _, hd⟩ := h
  rw [transaction_serialize_concat t hfa hta hh hs]
  rw [show (t.from_address ++ (t.to_address ++ (u64le t.value ++ (u64le t.tip
      ++ (u64le t.gas_limit ++ (u64le t.gas_price
      ++ (u64le t.n_txs_on_chain_from_address ++ (t.hash ++ (t.signature
      ++ (u32le t.data.length ++ t.data)))))))))) ++ rest
    = (t.from_address ++ t.to_address ++ u64le t.value ++ u64le t.tip
      ++ u64le t.gas_limit ++ u64le t.gas_price
      ++ u64le t.n_txs_on_chain_from_address ++ t.hash ++ t.signature)
      ++ (u32le t.data.length ++ (t.data ++ rest)) by simp]
  have hread : readBytes ((t.from_address ++ t.to_address ++ u64le t.value
      ++ u64le t.tip ++ u64le t.gas_limit ++ u64le t.gas_price
      ++ u64le t.n_txs_on_chain_from_address ++ t.hash ++ t.signature)
      ++ (u32le t.data.length ++ (t.data ++ rest))) 200 4
      = u32le t.data.length :=
    readBytes_seg _ _ _ _ _ (by simp [hfa, hta, hh, hs]) (by simp)
  simp only [Transaction.size_from_slice, fmt_transaction.DATASIZE,
    fmt_transaction.BASESIZE, readU32]
  rw [hread, leToNat_u32le, Nat.mod_eq_of_lt hd]
  rw [if_neg (by
    simp only [List.length_append, u32le_length, u64le_length, hfa, hta,
      hh, hs] <;> omega)]
  simp only [Transaction.size_of, fmt_transaction.BASESIZE,
    DResult.ok.injEq]
  omega

/-- `Receipt::size_from_slice` on a receipt encoding followed by
anything returns the receipt's own size. -/
theorem receipt_size_from_append (r : Receipt) (h : wfReceipt r)
    (rest : List Nat) :
    Receipt.size_from_slice (Receipt.serialize r ++ rest)
      = .ok (Receipt.size_of r) := by
  obtain ⟨_, hrv, _, hsum⟩ := h
  rw [receipt_serialize_concat r]
  rw [show ([r.status_code.intoU8] ++ (u64le r.gas_consumed
      ++ (u32le r.return_value.length
      ++ (u32le (r.events.map Event.size_of).sum
      ++ (r.return_value
      ++ (r.events.map Event.serialize).flatten))))) ++ rest
    = ([r.status_code.intoU8] ++ u64le r.gas_consumed)
      ++ (u32le r.return_value.length
      ++ (u32le (r.events.map Event.size_of).sum
      ++ (r.return_value
      ++ ((r.events.map Event.serialize).flatten ++ rest)))) by simp]
  have h9 : readBytes (([r.status_code.intoU8] ++ u64le r.gas_consumed)
      ++ (u32le r.return_value.length
      ++ (u32le (r.events.map Event.size_of).sum
      ++ (r.return_value
      ++ ((r.events.map Event.serialize).flatten ++ rest))))) 9 4
      = u32le r.return_value.length :=
    readBytes_seg _ _ _ _ _ (by simp) (by simp)
  have h13 : readBytes (([r.status_code.intoU8] ++ u64le r.gas_consumed)
      ++ (u32le r.return_value.length
      ++ (u32le (r.events.map Event.size_of).sum
      ++ (r.return_value
      ++ ((r.events.map Event.serialize).flatten ++ rest))))) 13 4
      = u32le (r.events.map Event.size_of).sum := by
    rw [show ([r.status_code.intoU8] ++ u64le r.gas_consumed)
        ++ (u32le r.return_value.length
        ++ (u32le (r.events.map Event.size_of).sum
        ++ (r.return_value
        ++ ((r.events.map Event.serialize).flatten ++ rest))))
      = ([r.status_code.intoU8] ++ u64le r.gas_consumed
        ++ u32le r.return_value.length)
        ++ (u32le (r.events.map Event.size_of).sum
        ++ (r.return_value
        ++ ((r.events.map Event.serialize).flatten ++ rest))) by simp]
    exact readBytes_seg _ _ _ _ _ (by simp) (by simp)
  simp only [Receipt.size_from_slice, fmt_receipt.RETURNVALSIZE,
    fmt_receipt.EVENTSSIZE, fmt_receipt.BASESIZE, readU32]
  rw [h9, h13, leToNat_u32le, leToNat_u32le, Nat.mod_eq_of_lt hrv,
    Nat.mod_eq_of_lt hsum]
  rw [if_neg (by
    simp only [List.length_append, u32le_length, u64le_length,
      List.length_cons, List.length_nil] <;> omega)]
  simp only [Receipt.size_of, fmt_receipt.BASESIZE, DResult.ok.injEq]
  omega

/-- The transaction worker's buffer equals the concatenated transaction
encodings in list order. -/
theorem block_tx_thread_concat (ts : List Transaction)
    (h : ∀ t ∈ ts, wfTransactionArrays t) :
    writeItemsLoop Transaction.serialize_to_slice ts
      (List.replicate ((ts.map Transaction.size_of).sum) 0) 0
      = (ts.map Transaction.serialize).flatten := by
  have := writeItemsLoop_concat Transaction.serialize_to_slice
    Transaction.serialize Transaction.size_of wfTransactionArrays
    (fun t ht m hm => transaction_step t ht m hm)
    (fun t ht => transaction_serialize_size t ht)
    ts [] ((ts.map Transaction.size_of).sum) h le_rfl
  simpa using this

/-- The receipt worker's buffer equals the concatenated receipt
encodings in list order. -/
theorem block_recp_thread_concat (rs : List Receipt) :
    writeItemsLoop Receipt.serialize_to_slice rs
      (List.replicate ((rs.map Receipt.size_of).sum) 0) 0
      = (rs.map Receipt.serialize).flatten := by
  have := writeItemsLoop_concat Receipt.serialize_to_slice
    Receipt.serialize Receipt.size_of (fun _ => True)
    (fun r _ m hm => receipt_step r m hm)
    (fun r _ => receipt_serialize_length r)
    rs [] ((rs.map Receipt.size_of).sum) (fun _ _ => trivial) le_rfl
  simpa using this

/-- The fork/join `Block::serialize` equals the purely sequential
assembly of the spec: its two workers write disjoint private buffers
whose contents are functions of the respective lists only. -/
theorem block_serialize_sequential (b : Block)
    (h : ∀ t ∈ b.transactions, wfTransactionArrays t) :
    Block.serialize b = Block.serializeSequential b := by
  simp only [Block.serialize, Block.serializeSequential]
  rw [block_tx_thread_concat b.transactions h,
    block_recp_thread_concat b.receipts]
  simp [List.append_assoc]

set_option maxHeartbeats 2000000 in
/-- Decoding a serialized block recovers the block. -/
theorem block_roundtrip (b : Block) (h : wfBlock b) :
    Block.deserialize (Block.serialize b) = .ok b := by
  obtain ⟨hh, htx, hrc, htsum, hrsum⟩ := h
  have harr : ∀ t ∈ b.transactions, wfTransactionArrays t := by
    intro t ht
    obtain ⟨h1, h2, h3, h4, _⟩ := htx t ht
    exact ⟨h1, h2, h3, h4⟩
  rw [block_serialize_sequential b harr]
  simp only [Block.serializeSequential]
  have htxlen : ((b.transactions.map Transaction.serialize).flatten).length
      = (b.transactions.map Transaction.size_of).sum :=
    flatten_enc_length _ _ _ (fun t ht => transaction_serialize_size t (harr t ht))
  have hrclen : ((b.receipts.map Receipt.serialize).flatten).length
      = (b.receipts.map Receipt.size_of).sum :=
    flatten_enc_length _ _ _ (fun r _ => receipt_serialize_length r)
  obtain ⟨hid, hver, hts, hprev, hthis, htxsh, hstate, hrcph, hpk, hsig⟩ := hh
  have hhdr : BlockHeader.deserialize (BlockHeader.serialize b.header
      ++ (u32le ((b.transactions.map Transaction.serialize).flatten).length
      ++ (u32le ((b.receipts.map Receipt.serialize).flatten).length
      ++ ((b.transactions.map Transaction.serialize).flatten
      ++ (b.receipts.map Receipt.serialize).flatten))))
      = .ok b.header := by
    exact blockheader_deserialize_append b.header
      ⟨hid, hver, hts, hprev, hthis, htxsh, hstate, hrcph, hpk, hsig⟩ _
  have hhdrlen : (BlockHeader.serialize b.header).length = 276 :=
    blockheader_serialize_length b.header hprev hthis hstate htxsh hrcph
      hpk hsig
  have hdrop : (BlockHeader.serialize b.header
      ++ (u32le ((b.transactions.map Transaction.serialize).flatten).length
      ++ (u32le ((b.receipts.map Receipt.serialize).flatten).length
      ++ ((b.transactions.map Transaction.serialize).flatten
      ++ (b.receipts.map Receipt.serialize).flatten)))).drop 276
      = u32le ((b.transactions.map Transaction.serialize).flatten).length
      ++ (u32le ((b.receipts.map Receipt.serialize).flatten).length
      ++ ((b.transactions.map Transaction.serialize).flatten
      ++ (b.receipts.map Receipt.serialize).flatten)) :=
    List.drop_left' hhdrlen
  have hr0 : readBytes (u32le ((b.transactions.map Transaction.serialize).flatten).length
      ++ (u32le ((b.receipts.map Receipt.serialize).flatten).length
      ++ ((b.transactions.map Transaction.serialize).flatten
      ++ (b.receipts.map Receipt.serialize).flatten))) 0 4
      = u32le ((b.transactions.map Transaction.serialize).flatten).length :=
    readBytes_take _ _ _ (by simp)
  have hr4 : readBytes (u32le ((b.transactions.map Transaction.serialize).flatten).length
      ++ (u32le ((b.receipts.map Receipt.serialize).flatten).length
      ++ ((b.transactions.map Transaction.serialize).flatten
      ++ (b.receipts.map Receipt.serialize).flatten))) 4 4
      = u32le ((b.receipts.map Receipt.serialize).flatten).length :=
    readBytes_seg _ _ _ _ _ (by simp) (by simp)
  have hdrop8 : (u32le ((b.transactions.map Transaction.serialize).flatten).length
      ++ (u32le ((b.receipts.map Receipt.serialize).flatten).length
      ++ ((b.transactions.map Transaction.serialize).flatten
      ++ (b.receipts.map Receipt.serialize).flatten))).drop 8
      = (b.transactions.map Transaction.serialize).flatten
      ++ (b.receipts.map Receipt.serialize).flatten := by
    rw [show u32le ((b.transactions.map Transaction.serialize).flatten).length
        ++ (u32le ((b.receipts.map Receipt.serialize).flatten).length
        ++ ((b.transactions.map Transaction.serialize).flatten
        ++ (b.receipts.map Receipt.serialize).flatten))
      = (u32le ((b.transactions.map Transaction.serialize).flatten).length
        ++ u32le ((b.receipts.map Receipt.serialize).flatten).length)
        ++ ((b.transactions.map Transaction.serialize).flatten
        ++ (b.receipts.map Receipt.serialize).flatten) by simp]
    exact List.drop_left' (by simp)
  have hscantx : scanItems Transaction.size_from_slice Transaction.deserialize
      ((b.transactions.map Transaction.serialize).flatten)
      = .ok b.transactions := by
    unfold scanItems
    refine scanItems_flatten Transaction.size_from_slice
      Transaction.deserialize Transaction.serialize Transaction.size_of
      wfTransaction
      (fun t ht => transaction_serialize_size t
        (by obtain ⟨h1, h2, h3, h4, _⟩ := ht; exact ⟨h1, h2, h3, h4⟩))
      (fun t _ => by simp [Transaction.size_of, fmt_transaction.BASESIZE])
      transaction_size_from_append transaction_roundtrip
      b.transactions _ htx ?_
    exact count_le_flatten _ _ (fun t ht => by
      rw [transaction_serialize_size t (harr t ht)]
      simp [Transaction.size_of, fmt_transaction.BASESIZE])
  have hscanrc : scanItems Receipt.size_from_slice Receipt.deserialize
      ((b.receipts.map Receipt.serialize).flatten)
      = .ok b.receipts := by
    unfold scanItems
    refine scanItems_flatten Receipt.size_from_slice
      Receipt.deserialize Receipt.serialize Receipt.size_of
      wfReceipt
      (fun r _ => receipt_serialize_length r)
      (fun r _ => by simp [Receipt.size_of, fmt_receipt.BASESIZE])
      receipt_size_from_append receipt_roundtrip
      b.receipts _ hrc ?_
    exact count_le_flatten _ _ (fun r _ => by
      rw [receipt_serialize_length r]
      simp [Receipt.size_of, fmt_receipt.BASESIZE])
  set HD := BlockHeader.serialize b.header with hHD
  set TX := (b.transactions.map Transaction.serialize).flatten with hTX
  set RC := (b.receipts.map Receipt.serialize).flatten with hRC
  clear_value HD TX RC
  simp only [Block.deserialize, fmt_blockheader.BASESIZE, fmt_sizes.BASESIZE,
    fmt_sizes.TRANSACTION, fmt_sizes.RECEIPT, readU32, List.append_assoc]
  rw [hhdr]
  dsimp only
  rw [hdrop]
  rw [if_neg (by simp only [List.length_append, u32le_length] <;> omega)]
  rw [hr0, hr4, leToNat_u32le, leToNat_u32le, hdrop8]
  rw [htxlen, hrclen, Nat.mod_eq_of_lt htsum, Nat.mod_eq_of_lt hrsum]
  rw [if_neg (by
    simp only [List.length_append, htxlen, hrclen] <;> omega)]
  rw [List.take_left' (by rw [htxlen]), List.drop_left' (by rw [htxlen])]
  rw [hscantx]
  dsimp only
  rw [hscanrc]

/-- The leaf-indices loop decodes the concatenation of 4-byte encodings
to the indices reduced modulo `2 ^ 32`. -/
theorem readLeafIndices_flatten (l : List Nat) :
    readLeafIndices ((l.map u32le).flatten) = .ok (l.map (· % 2 ^ 32)) := by
  induction l with
  | nil => simp [readLeafIndices]
  | cons i l ih =>
    simp only [List.map_cons, List.flatten_cons, u32le, List.cons_append,
      List.nil_append]
    simp only [readLeafIndices]
    rw [ih]
    simp only [leToNat, DResult.ok.injEq, List.map_cons, List.cons.injEq,
      and_true]
    omega

/-- The leaf-hashes loop decodes the concatenation of 32-byte hashes to
the hash list. -/
theorem readLeafHashes_flatten (hs : List (List Nat))
    (h : ∀ x ∈ hs, x.length = 32) :
    readLeafHashes hs.flatten = .ok hs := by
  induction hs with
  | nil => simp [readLeafHashes]
  | cons x hs ih =>
    have hx : x.length = 32 := h x (by simp)
    obtain ⟨b0, x, rfl⟩ : ∃ a l, x = a :: l := by
      cases x with
      | nil => simp at hx
      | cons a l => exact ⟨a, l, rfl⟩
    simp only [List.length_cons] at hx
    obtain ⟨b1, x, rfl⟩ : ∃ a l, x = a :: l := by
      cases x with
      | nil => simp at hx
      | cons a l => exact ⟨a, l, rfl⟩
    simp only [List.length_cons] at hx
    obtain ⟨b2, x, rfl⟩ : ∃ a l, x = a :: l := by
      cases x with
      | nil => simp at hx
      | cons a l => exact ⟨a, l, rfl⟩
    simp only [List.length_cons] at hx
    obtain ⟨b3, x, rfl⟩ : ∃ a l, x = a :: l := by
      cases x with
      | nil => simp at hx
      | cons a l => exact ⟨a, l, rfl⟩
    simp only [List.length_cons] at hx
    obtain ⟨b4, x, rfl⟩ : ∃ a l, x = a :: l := by
      cases x with
      | nil => simp at hx
      | cons a l => exact ⟨a, l, rfl⟩
    simp only [List.length_cons] at hx
    obtain ⟨b5, x, rfl⟩ : ∃ a l, x = a :: l := by
      cases x with
      | nil => simp at hx
      | cons a l => exact ⟨a, l, rfl⟩
    simp only [List.length_cons] at hx
    obtain ⟨b6, x, rfl⟩ : ∃ a l, x = a :: l := by
      cases x with
      | nil => simp at hx
      | cons a l => exact ⟨a, l, rfl⟩
    simp only [List.length_cons] at hx
    obtain ⟨b7, x, rfl⟩ : ∃ a l, x = a :: l := by
      cases x with
      | nil => simp at hx
      | cons a l => exact ⟨a, l, rfl⟩
    simp only [List.length_cons] at hx
    obtain ⟨b8, x, rfl⟩ : ∃ a l, x = a :: l := by
      cases x with
      | nil => simp at hx
      | cons a l => exact ⟨a, l, rfl⟩
    simp only [List.length_cons] at hx
    obtain ⟨b9, x, rfl⟩ : ∃ a l, x = a :: l := by
      cases x with
      | nil => simp at hx
      | cons a l => exact ⟨a, l, rfl⟩
    simp only [List.length_cons] at hx
    obtain ⟨b10, x, rfl⟩ : ∃ a l, x = a :: l := by
      cases x with
      | nil => simp at hx
      | cons a l => exact ⟨a, l, rfl⟩
    simp only [List.length_cons] at hx
    obtain ⟨b11, x, rfl⟩ : ∃ a l, x = a :: l := by
      cases x with
      | nil => simp at hx
      | cons a l => exact ⟨a, l, rfl⟩
    simp only [List.length_cons] at hx
    obtain ⟨b12, x, rfl⟩ : ∃ a l, x = a :: l := by
      cases x with
      | nil => simp at hx
      | cons a l => exact ⟨a, l, rfl⟩
    simp only [List.length_cons] at hx
    obtain ⟨b13, x, rfl⟩ : ∃ a l, x = a :: l := by
      cases x with
      | nil => simp at hx
      | cons a l => exact ⟨a, l, rfl⟩
    simp only [List.length_cons] at hx
    obtain ⟨b14, x, rfl⟩ : ∃ a l, x = a :: l := by
      cases x with
      | nil => simp at hx
      | cons a l => exact ⟨a, l, rfl⟩
    simp only [List.length_cons] at hx
    obtain ⟨b15, x, rfl⟩ : ∃ a l, x = a :: l := by
      cases x with
      | nil => simp at hx
      | cons a l => exact ⟨a, l, rfl⟩
    simp only [List.length_cons] at hx
    obtain ⟨b16, x, rfl⟩ : ∃ a l, x = a :: l := by
      cases x with
      | nil => simp at hx
      | cons a l => exact ⟨a, l, rfl⟩
    simp only [List.length_cons] at hx
    obtain ⟨b17, x, rfl⟩ : ∃ a l, x = a :: l := by
      cases x with
      | nil => simp at hx
      | cons a l => exact ⟨a, l, rfl⟩
    simp only [List.length_cons] at hx
    obtain ⟨b18, x, rfl⟩ : ∃ a l, x = a :: l := by
      cases x with
      | nil => simp at hx
      | cons a l => exact ⟨a, l, rfl⟩
    simp only [List.length_cons] at hx
    obtain ⟨b19, x, rfl⟩ : ∃ a l, x = a :: l := by
      cases x with
      | nil => simp at hx
      | cons a l => exact ⟨a, l, rfl⟩
    simp only [List.length_cons] at hx
    obtain ⟨b20, x, rfl⟩ : ∃ a l, x = a :: l := by
      cases x with
      | nil => simp at hx
      | cons a l => exact ⟨a, l, rfl⟩
    simp only [List.length_cons] at hx
    obtain ⟨b21, x, rfl⟩ : ∃ a l, x = a :: l := by
      cases x with
      | nil => simp at hx
      | cons a l => exact ⟨a, l, rfl⟩
    simp only [List.length_cons] at hx
    obtain ⟨b22, x, rfl⟩ : ∃ a l, x = a :: l := by
      cases x with
      | nil => simp at hx
      | cons a l => exact ⟨a, l, rfl⟩
    simp only [List.length_cons] at hx
    obtain ⟨b23, x, rfl⟩ : ∃ a l, x = a :: l := by
      cases x with
      | nil => simp at hx
      | cons a l => exact ⟨a, l, rfl⟩
    simp only [List.length_cons] at hx
    obtain ⟨b24, x, rfl⟩ : ∃ a l, x = a :: l := by
      cases x with
      | nil => simp at hx
      | cons a l => exact ⟨a, l, rfl⟩
    simp only [List.length_cons] at hx
    obtain ⟨b25, x, rfl⟩ : ∃ a l, x = a :: l := by
      cases x with
      | nil => simp at hx
      | cons a l => exact ⟨a, l, rfl⟩
    simp only [List.length_cons] at hx
    obtain ⟨b26, x, rfl⟩ : ∃ a l, x = a :: l := by
      cases x with
      | nil => simp at hx
      | cons a l => exact ⟨a, l, rfl⟩
    simp only [List.length_cons] at hx
    obtain ⟨b27, x, rfl⟩ : ∃ a l, x = a :: l := by
      cases x with
      | nil => simp at hx
      | cons a l => exact ⟨a, l, rfl⟩
    simp only [List.length_cons] at hx
    obtain ⟨b28, x, rfl⟩ : ∃ a l, x = a :: l := by
      cases x with
      | nil => simp at hx
      | cons a l => exact ⟨a, l, rfl⟩
    simp only [List.length_cons] at hx
    obtain ⟨b29, x, rfl⟩ : ∃ a l, x = a :: l := by
      cases x with
      | nil => simp at hx
      | cons a l => exact ⟨a, l, rfl⟩
    simp only [List.length_cons] at hx
    obtain ⟨b30, x, rfl⟩ : ∃ a l, x = a :: l := by
      cases x with
      | nil => simp at hx
      | cons a l => exact ⟨a, l, rfl⟩
    simp only [List.length_cons] at hx
    obtain ⟨b31, x, rfl⟩ : ∃ a l, x = a :: l := by
      cases x with
      | nil => simp at hx
      | cons a l => exact ⟨a, l, rfl⟩
    simp only [List.length_cons] at hx
    have hnil : x = [] := List.eq_nil_of_length_eq_zero (by omega)
    subst hnil
    simp only [List.flatten_cons, List.cons_append, List.nil_append]
    simp only [readLeafHashes]
    rw [ih (fun y hy => h y (by simp [hy]))]


theorem indices_flatten_length (l : List Nat) :
    ((l.map u32le).flatten).length = l.length * 4 := by
  induction l with
  | nil => simp
  | cons i l ih =>
    simp only [List.map_cons, List.flatten_cons, List.length_append,
      u32le_length, List.length_cons, ih]
    omega

theorem hashes_flatten_length (hs : List (List Nat))
    (h : ∀ x ∈ hs, x.length = 32) :
    hs.flatten.length = hs.length * 32 := by
  induction hs with
  | nil => simp
  | cons x hs ih =>
    have hx := h x (by simp)
    simp only [List.flatten_cons, List.length_append, List.length_cons,
      ih (fun y hy => h y (by simp [hy])), hx]
    omega

/-- `MerkleProof::serialize` is the plain concatenation: fixed region,
leaf-index words, leaf hashes, proof bytes. -/
theorem merkleproof_serialize_concat (p : MerkleProof)
    (hroot : p.root_hash.length = 32)
    (hhs : ∀ x ∈ p.leaf_hashes, x.length = 32) :
    MerkleProof.serialize p =
      p.root_hash ++ (u32le p.total_leaves_count
        ++ (u32le (p.leaf_indices.length * 4)
        ++ (u32le (p.leaf_hashes.length * 32)
        ++ (u32le p.proof.length
        ++ ((p.leaf_indices.map u32le).flatten
        ++ (p.leaf_hashes.flatten ++ p.proof)))))) := by
  have hIL : ((p.leaf_indices.map u32le).flatten).length
      = p.leaf_indices.length * 4 := indices_flatten_length _
  have hHL : p.leaf_hashes.flatten.length = p.leaf_hashes.length * 32 :=
    hashes_flatten_length _ hhs
  have h1 : writeAt (List.replicate (48 + p.leaf_indices.length * 4 + p.leaf_hashes.length * 32 + p.proof.length) 0) (0) (p.root_hash)
      = p.root_hash ++ (List.replicate (16 + p.leaf_indices.length * 4 + p.leaf_hashes.length * 32 + p.proof.length) 0) := by
    simpa only [List.append_assoc, List.nil_append, List.append_nil] using
      writeAt_block (m := 48 + p.leaf_indices.length * 4 + p.leaf_hashes.length * 32 + p.proof.length) (r := 16 + p.leaf_indices.length * 4 + p.leaf_hashes.length * 32 + p.proof.length) ([])
      (p.root_hash) rfl
      rfl
      (by
      first
        | omega
        | (simp only [List.length_append, u32le_length, List.length_cons,
            List.length_nil, hroot, hIL, hHL] <;> omega))
  have h2 : writeAt (p.root_hash ++ (List.replicate (16 + p.leaf_indices.length * 4 + p.leaf_hashes.length * 32 + p.proof.length) 0)) (32) (u32le p.total_leaves_count)
      = p.root_hash ++ (u32le p.total_leaves_count ++ (List.replicate (12 + p.leaf_indices.length * 4 + p.leaf_hashes.length * 32 + p.proof.length) 0)) := by
    simpa only [List.append_assoc, List.nil_append, List.append_nil] using
      writeAt_block (m := 16 + p.leaf_indices.length * 4 + p.leaf_hashes.length * 32 + p.proof.length) (r := 12 + p.leaf_indices.length * 4 + p.leaf_hashes.length * 32 + p.proof.length) (p.root_hash)
      (u32le p.total_leaves_count) rfl
      (show (p.root_hash).length = 32 by
      first
        | omega
        | (simp only [List.length_append, u32le_length, List.length_cons,
            List.length_nil, hroot, hIL, hHL] <;> omega))
      (by
      first
        | omega
        | (simp only [List.length_append, u32le_length, List.length_cons,
            List.length_nil, hroot, hIL, hHL] <;> omega))
  have h3 : writeAt (p.root_hash ++ (u32le p.total_leaves_count ++ (List.replicate (12 + p.leaf_indices.length * 4 + p.leaf_hashes.length * 32 + p.proof.length) 0))) (36) (u32le (p.leaf_indices.length * 4))
      = p.root_hash ++ (u32le p.total_leaves_count ++ (u32le (p.leaf_indices.length * 4) ++ (List.replicate (8 + p.leaf_indices.length * 4 + p.leaf_hashes.length * 32 + p.proof.length) 0))) := by
    simpa only [List.append_assoc, List.nil_append, List.append_nil] using
      writeAt_block (m := 12 + p.leaf_indices.length * 4 + p.leaf_hashes.length * 32 + p.proof.length) (r := 8 + p.leaf_indices.length * 4 + p.leaf_hashes.length * 32 + p.proof.length) (p.root_hash ++ u32le p.total_leaves_count)
      (u32le (p.leaf_indices.length * 4)) rfl
      (show (p.root_hash ++ u32le p.total_leaves_count).length = 36 by
      first
        | omega
        | (simp only [List.length_append, u32le_length, List.length_cons,
            List.length_nil, hroot, hIL, hHL] <;> omega))
      (by
      first
        | omega
        | (simp only [List.length_append, u32le_length, List.length_cons,
            List.length_nil, hroot, hIL, hHL] <;> omega))
  have h4 : writeAt (p.root_hash ++ (u32le p.total_leaves_count ++ (u32le (p.leaf_indices.length * 4) ++ (List.replicate (8 + p.leaf_indices.length * 4 + p.leaf_hashes.length * 32 + p.proof.length) 0)))) (40) (u32le (p.leaf_hashes.length * 32))
      = p.root_hash ++ (u32le p.total_leaves_count ++ (u32le (p.leaf_indices.length * 4) ++ (u32le (p.leaf_hashes.length * 32) ++ (List.replicate (4 + p.leaf_indices.length * 4 + p.leaf_hashes.length * 32 + p.proof.length) 0)))) := by
    simpa only [List.append_assoc, List.nil_append, List.append_nil] using
      writeAt_block (m := 8 + p.leaf_indices.length * 4 + p.leaf_hashes.length * 32 + p.proof.length) (r := 4 + p.leaf_indices.length * 4 + p.leaf_hashes.length * 32 + p.proof.length) (p.root_hash ++ u32le p.total_leaves_count ++ u32le (p.leaf_indices.length * 4))
      (u32le (p.leaf_hashes.length * 32)) rfl
      (show (p.root_hash ++ u32le p.total_leaves_count ++ u32le (p.leaf_indices.length * 4)).length = 40 by
      first
        | omega
        | (simp only [List.length_append, u32le_length, List.length_cons,
            List.length_nil, hroot, hIL, hHL] <;> omega))
      (by
      first
        | omega
        | (simp only [List.length_append, u32le_length, List.length_cons,
            List.length_nil, hroot, hIL, hHL] <;> omega))
  have h5 : writeAt (p.root_hash ++ (u32le p.total_leaves_count ++ (u32le (p.leaf_indices.length * 4) ++ (u32le (p.leaf_hashes.length * 32) ++ (List.replicate (4 + p.leaf_indices.length * 4 + p.leaf_hashes.length * 32 + p.proof.length) 0))))) (44) (u32le (p.proof.length))
      = p.root_hash ++ (u32le p.total_leaves_count ++ (u32le (p.leaf_indices.length * 4) ++ (u32le (p.leaf_hashes.length * 32) ++ (u32le (p.proof.length) ++ (List.replicate (p.leaf_indices.length * 4 + p.leaf_hashes.length * 32 + p.proof.length) 0))))) := by
    simpa only [List.append_assoc, List.nil_append, List.append_nil] using
      writeAt_block (m := 4 + p.leaf_indices.length * 4 + p.leaf_hashes.length * 32 + p.proof.length) (r := p.leaf_indices.length * 4 + p.leaf_hashes.length * 32 + p.proof.length) (p.root_hash ++ u32le p.total_leaves_count ++ u32le (p.leaf_indices.length * 4) ++ u32le (p.leaf_hashes.length * 32))
      (u32le (p.proof.length)) rfl
      (show (p.root_hash ++ u32le p.total_leaves_count ++ u32le (p.leaf_indices.length * 4) ++ u32le (p.leaf_hashes.length * 32)).length = 44 by
      first
        | omega
        | (simp only [List.length_append, u32le_length, List.length_cons,
            List.length_nil, hroot, hIL, hHL] <;> omega))
      (by
      first
        | omega
        | (simp only [List.length_append, u32le_length, List.length_cons,
            List.length_nil, hroot, hIL, hHL] <;> omega))
  have h6 : writeAt (p.root_hash ++ (u32le p.total_leaves_count ++ (u32le (p.leaf_indices.length * 4) ++ (u32le (p.leaf_hashes.length * 32) ++ (u32le (p.proof.length) ++ (List.replicate (p.leaf_indices.length * 4 + p.leaf_hashes.length * 32 + p.proof.length) 0)))))) (48) ((p.leaf_indices.map u32le).flatten)
      = p.root_hash ++ (u32le p.total_leaves_count ++ (u32le (p.leaf_indices.length * 4) ++ (u32le (p.leaf_hashes.length * 32) ++ (u32le (p.proof.length) ++ ((p.leaf_indices.map u32le).flatten ++ (List.replicate (p.leaf_hashes.length * 32 + p.proof.length) 0)))))) := by
    simpa only [List.append_assoc, List.nil_append, List.append_nil] using
      writeAt_block (m := p.leaf_indices.length * 4 + p.leaf_hashes.length * 32 + p.proof.length) (r := p.leaf_hashes.length * 32 + p.proof.length) (p.root_hash ++ u32le p.total_leaves_count ++ u32le (p.leaf_indices.length * 4) ++ u32le (p.leaf_hashes.length * 32) ++ u32le (p.proof.length))
      ((p.leaf_indices.map u32le).flatten) rfl
      (show (p.root_hash ++ u32le p.total_leaves_count ++ u32le (p.leaf_indices.length * 4) ++ u32le (p.leaf_hashes.length * 32) ++ u32le (p.proof.length)).length = 48 by
      first
        | omega
        | (simp only [List.length_append, u32le_length, List.length_cons,
            List.length_nil, hroot, hIL, hHL] <;> omega))
      (by
      first
        | omega
        | (simp only [List.length_append, u32le_length, List.length_cons,
            List.length_nil, hroot, hIL, hHL] <;> omega))
  have h7 : writeAt (p.root_hash ++ (u32le p.total_leaves_count ++ (u32le (p.leaf_indices.length * 4) ++ (u32le (p.leaf_hashes.length * 32) ++ (u32le (p.proof.length) ++ ((p.leaf_indices.map u32le).flatten ++ (List.replicate (p.leaf_hashes.length * 32 + p.proof.length) 0))))))) (48 + p.leaf_indices.length * 4) (p.leaf_hashes.flatten)
      = p.root_hash ++ (u32le p.total_leaves_count ++ (u32le (p.leaf_indices.length * 4) ++ (u32le (p.leaf_hashes.length * 32) ++ (u32le (p.proof.length) ++ ((p.leaf_indices.map u32le).flatten ++ (p.leaf_hashes.flatten ++ (List.replicate (p.proof.length) 0))))))) := by
    simpa only [List.append_assoc, List.nil_append, List.append_nil] using
      writeAt_block (m := p.leaf_hashes.length * 32 + p.proof.length) (r := p.proof.length) (p.root_hash ++ u32le p.total_leaves_count ++ u32le (p.leaf_indices.length * 4) ++ u32le (p.leaf_hashes.length * 32) ++ u32le (p.proof.length) ++ (p.leaf_indices.map u32le).flatten)
      (p.leaf_hashes.flatten) rfl
      (show (p.root_hash ++ u32le p.total_leaves_count ++ u32le (p.leaf_indices.length * 4) ++ u32le (p.leaf_hashes.length * 32) ++ u32le (p.proof.length) ++ (p.leaf_indices.map u32le).flatten).length = 48 + p.leaf_indices.length * 4 by
      first
        | omega
        | (simp only [List.length_append, u32le_length, List.length_cons,
            List.length_nil, hroot, hIL, hHL] <;> omega))
      (by
      first
        | omega
        | (simp only [List.length_append, u32le_length, List.length_cons,
            List.length_nil, hroot, hIL, hHL] <;> omega))
  have h8 : writeAt (p.root_hash ++ (u32le p.total_leaves_count ++ (u32le (p.leaf_indices.length * 4) ++ (u32le (p.leaf_hashes.length * 32) ++ (u32le (p.proof.length) ++ ((p.leaf_indices.map u32le).flatten ++ (p.leaf_hashes.flatten ++ (List.replicate (p.proof.length) 0)))))))) (48 + p.leaf_indices.length * 4 + p.leaf_hashes.length * 32) (p.proof)
      = p.root_hash ++ (u32le p.total_leaves_count ++ (u32le (p.leaf_indices.length * 4) ++ (u32le (p.leaf_hashes.length * 32) ++ (u32le (p.proof.length) ++ ((p.leaf_indices.map u32le).flatten ++ (p.leaf_hashes.flatten ++ (p.proof ++ (List.replicate (0) 0)))))))) := by
    simpa only [List.append_assoc, List.nil_append, List.append_nil] using
      writeAt_block (m := p.proof.length) (r := 0) (p.root_hash ++ u32le p.total_leaves_count ++ u32le (p.leaf_indices.length * 4) ++ u32le (p.leaf_hashes.length * 32) ++ u32le (p.proof.length) ++ (p.leaf_indices.map u32le).flatten ++ p.leaf_hashes.flatten)
      (p.proof) rfl
      (show (p.root_hash ++ u32le p.total_leaves_count ++ u32le (p.leaf_indices.length * 4) ++ u32le (p.leaf_hashes.length * 32) ++ u32le (p.proof.length) ++ (p.leaf_indices.map u32le).flatten ++ p.leaf_hashes.flatten).length = 48 + p.leaf_indices.length * 4 + p.leaf_hashes.length * 32 by
      first
        | omega
        | (simp only [List.length_append, u32le_length, List.length_cons,
            List.length_nil, hroot, hIL, hHL] <;> omega))
      (by
      first
        | omega
        | (simp only [List.length_append, u32le_length, List.length_cons,
            List.length_nil, hroot, hIL, hHL] <;> omega))
  simp only [MerkleProof.serialize, fmt_merkleproof.ROOTHASH,
    fmt_merkleproof.TOTALLEAVES, fmt_merkleproof.LEAFINDSIZE,
    fmt_merkleproof.LEAFHASHSIZE, fmt_merkleproof.PROOFSIZE,
    fmt_merkleproof.BASESIZE]
  rw [h1, h2, h3, h4, h5, h6, h7, h8]
  simp

/-- Decoding a serialized Merkle proof yields the proof with
`total_leaves_count` and each leaf index reduced modulo `2 ^ 32` (the
`as u32` casts of `MerkleProof::serialize` truncate; nothing rejects
larger values). -/
theorem merkleproof_decode_serialize (p : MerkleProof)
    (h : wfMerkleProofSizes p) :
    MerkleProof.deserialize (MerkleProof.serialize p)
      = .ok { root_hash := p.root_hash,
              total_leaves_count := p.total_leaves_count % 2 ^ 32,
              leaf_indices := p.leaf_indices.map (· % 2 ^ 32),
              leaf_hashes := p.leaf_hashes,
              proof := p.proof } := by
  obtain ⟨hroot, hhs, hlis, hlhs, hpr⟩ := h
  have hIL : ((p.leaf_indices.map u32le).flatten).length
      = p.leaf_indices.length * 4 := indices_flatten_length _
  have hHL : p.leaf_hashes.flatten.length = p.leaf_hashes.length * 32 :=
    hashes_flatten_length _ hhs
  rw [merkleproof_serialize_concat p hroot hhs]
  have r0 : readBytes (p.root_hash ++ (u32le p.total_leaves_count
      ++ (u32le (p.leaf_indices.length * 4)
      ++ (u32le (p.leaf_hashes.length * 32)
      ++ (u32le p.proof.length
      ++ ((p.leaf_indices.map u32le).flatten
      ++ (p.leaf_hashes.flatten ++ p.proof))))))) 0 32 = p.root_hash :=
    readBytes_take _ _ _ hroot
  have r1 : readBytes (p.root_hash ++ (u32le p.total_leaves_count
      ++ (u32le (p.leaf_indices.length * 4)
      ++ (u32le (p.leaf_hashes.length * 32)
      ++ (u32le p.proof.length
      ++ ((p.leaf_indices.map u32le).flatten
      ++ (p.leaf_hashes.flatten ++ p.proof))))))) 32 4
      = u32le p.total_leaves_count :=
    readBytes_seg _ _ _ _ _ hroot (by simp)
  have r2 : readBytes (p.root_hash ++ (u32le p.total_leaves_count
      ++ (u32le (p.leaf_indices.length * 4)
      ++ (u32le (p.leaf_hashes.length * 32)
      ++ (u32le p.proof.length
      ++ ((p.leaf_indices.map u32le).flatten
      ++ (p.leaf_hashes.flatten ++ p.proof))))))) 36 4
      = u32le (p.leaf_indices.length * 4) := by
    rw [show p.root_hash ++ (u32le p.total_leaves_count
        ++ (u32le (p.leaf_indices.length * 4)
        ++ (u32le (p.leaf_hashes.length * 32)
        ++ (u32le p.proof.length
        ++ ((p.leaf_indices.map u32le).flatten
        ++ (p.leaf_hashes.flatten ++ p.proof))))))
      = (p.root_hash ++ u32le p.total_leaves_count)
        ++ (u32le (p.leaf_indices.length * 4)
        ++ (u32le (p.leaf_hashes.length * 32)
        ++ (u32le p.proof.length
        ++ ((p.leaf_indices.map u32le).flatten
        ++ (p.leaf_hashes.flatten ++ p.proof))))) by simp]
    exact readBytes_seg _ _ _ _ _ (by simp [hroot]) (by simp)
  have r3 : readBytes (p.root_hash ++ (u32le p.total_leaves_count
      ++ (u32le (p.leaf_indices.length * 4)
      ++ (u32le (p.leaf_hashes.length * 32)
      ++ (u32le p.proof.length
      ++ ((p.leaf_indices.map u32le).flatten
      ++ (p.leaf_hashes.flatten ++ p.proof))))))) 40 4
      = u32le (p.leaf_hashes.length * 32) := by
    rw [show p.root_hash ++ (u32le p.total_leaves_count
        ++ (u32le (p.leaf_indices.length * 4)
        ++ (u32le (p.leaf_hashes.length * 32)
        ++ (u32le p.proof.length
        ++ ((p.leaf_indices.map u32le).flatten
        ++ (p.leaf_hashes.flatten ++ p.proof))))))
      = (p.root_hash ++ u32le p.total_leaves_count
        ++ u32le (p.leaf_indices.length * 4))
        ++ (u32le (p.leaf_hashes.length * 32)
        ++ (u32le p.proof.length
        ++ ((p.leaf_indices.map u32le).flatten
        ++ (p.leaf_hashes.flatten ++ p.proof)))) by simp]
    exact readBytes_seg _ _ _ _ _ (by simp [hroot]) (by simp)
  have r4 : readBytes (p.root_hash ++ (u32le p.total_leaves_count
      ++ (u32le (p.leaf_indices.length * 4)
      ++ (u32le (p.leaf_hashes.length * 32)
      ++ (u32le p.proof.length
      ++ ((p.leaf_indices.map u32le).flatten
      ++ (p.leaf_hashes.flatten ++ p.proof))))))) 44 4
      = u32le p.proof.length := by
    rw [show p.root_hash ++ (u32le p.total_leaves_count
        ++ (u32le (p.leaf_indices.length * 4)
        ++ (u32le (p.leaf_hashes.length * 32)
        ++ (u32le p.proof.length
        ++ ((p.leaf_indices.map u32le).flatten
        ++ (p.leaf_hashes.flatten ++ p.proof))))))
      = (p.root_hash ++ u32le p.total_leaves_count
        ++ u32le (p.leaf_indices.length * 4)
        ++ u32le (p.leaf_hashes.length * 32))
        ++ (u32le p.proof.length
        ++ ((p.leaf_indices.map u32le).flatten
        ++ (p.leaf_hashes.flatten ++ p.proof))) by simp]
    exact readBytes_seg _ _ _ _ _ (by simp [hroot]) (by simp)
  have hdrop48 : (p.root_hash ++ (u32le p.total_leaves_count
      ++ (u32le (p.leaf_indices.length * 4)
      ++ (u32le (p.leaf_hashes.length * 32)
      ++ (u32le p.proof.length
      ++ ((p.leaf_indices.map u32le).flatten
      ++ (p.leaf_hashes.flatten ++ p.proof))))))).drop 48
      = (p.leaf_indices.map u32le).flatten
        ++ (p.leaf_hashes.flatten ++ p.proof) := by
    rw [show p.root_hash ++ (u32le p.total_leaves_count
        ++ (u32le (p.leaf_indices.length * 4)
        ++ (u32le (p.leaf_hashes.length * 32)
        ++ (u32le p.proof.length
        ++ ((p.leaf_indices.map u32le).flatten
        ++ (p.leaf_hashes.flatten ++ p.proof))))))
      = (p.root_hash ++ u32le p.total_leaves_count
        ++ u32le (p.leaf_indices.length * 4)
        ++ u32le (p.leaf_hashes.length * 32) ++ u32le p.proof.length)
        ++ ((p.leaf_indices.map u32le).flatten
        ++ (p.leaf_hashes.flatten ++ p.proof)) by simp]
    exact List.drop_left' (by simp [hroot])
  have hlen : (p.root_hash ++ (u32le p.total_leaves_count
      ++ (u32le (p.leaf_indices.length * 4)
      ++ (u32le (p.leaf_hashes.length * 32)
      ++ (u32le p.proof.length
      ++ ((p.leaf_indices.map u32le).flatten
      ++ (p.leaf_hashes.flatten ++ p.proof))))))).length
      = 48 + p.leaf_indices.length * 4 + p.leaf_hashes.length * 32
        + p.proof.length := by
    simp only [List.length_append, u32le_length, hroot, hIL, hHL] <;> omega
  simp only [MerkleProof.deserialize, fmt_merkleproof.ROOTHASH,
    fmt_merkleproof.TOTALLEAVES, fmt_merkleproof.LEAFINDSIZE,
    fmt_merkleproof.LEAFHASHSIZE, fmt_merkleproof.PROOFSIZE,
    fmt_merkleproof.BASESIZE, readU32]
  rw [hlen, r0, r1, r2, r3, r4, hdrop48]
  rw [leToNat_u32le, leToNat_u32le, leToNat_u32le, leToNat_u32le,
    Nat.mod_eq_of_lt hlis, Nat.mod_eq_of_lt hlhs, Nat.mod_eq_of_lt hpr]
  rw [if_neg (by omega), if_neg (by omega)]
  rw [List.take_left' hIL, List.drop_left' hIL, List.take_left' hHL,
    List.drop_left' hHL]
  rw [readLeafIndices_flatten, readLeafHashes_flatten _ hhs]

/-- Decoding a serialized Merkle proof whose counts and indices all fit
in 32 bits recovers the proof exactly. -/
theorem merkleproof_roundtrip (p : MerkleProof) (h : wfMerkleProof p) :
    MerkleProof.deserialize (MerkleProof.serialize p) = .ok p := by
  obtain ⟨hsz, htot, hidx⟩ := h
  rw [merkleproof_decode_serialize p hsz]
  have hmap : p.leaf_indices.map (· % 2 ^ 32) = p.leaf_indices := by
    have hcg : ∀ i ∈ p.leaf_indices, i % 2 ^ 32 = i :=
      fun i hi => Nat.mod_eq_of_lt (hidx i hi)
    calc p.leaf_indices.map (· % 2 ^ 32)
        = p.leaf_indices.map id := List.map_congr_left hcg
      _ = p.leaf_indices := List.map_id _
  rw [Nat.mod_eq_of_lt htot, hmap]

/-- The `Option` codec round-trips (given the payload codec does). -/
theorem option_roundtrip {α : Type} (ser : α → List Nat)
    (deser : List Nat → DResult α) (v : Option α)
    (h : ∀ x, v = some x → deser (ser x) = .ok x) :
    optionDeserialize deser (optionSerialize ser v) = .ok v := by
  cases v with
  | none => rfl
  | some x => simp [optionSerialize, optionDeserialize, h x rfl]

theorem pairSerialize_length {α β : Type} (s1 : α → List Nat)
    (s2 : β → List Nat) (v : α × β) :
    (pairSerialize s1 s2 v).length = 8 + (s1 v.1).length + (s2 v.2).length := by
  simp [pairSerialize]
  omega

/-- The 2-tuple codec round-trips (given both element codecs do and the
element encodings fit the 32-bit length prefixes). -/
theorem pair_roundtrip {α β : Type} (s1 : α → List Nat)
    (d1 : List Nat → DResult α) (s2 : β → List Nat)
    (d2 : List Nat → DResult β) (a : α) (b : β)
    (h1 : d1 (s1 a) = .ok a) (h2 : d2 (s2 b) = .ok b)
    (hl1 : (s1 a).length < 2 ^ 32) (hl2 : (s2 b).length < 2 ^ 32) :
    pairDeserialize d1 d2 (pairSerialize s1 s2 (a, b)) = .ok (a, b) := by
  simp only [pairSerialize, pairDeserialize, readU32, List.append_assoc]
  rw [if_neg (by simp only [List.length_append, u32le_length] <;> omega)]
  rw [readBytes_take _ _ _ (by simp), leToNat_u32le, Nat.mod_eq_of_lt hl1]
  rw [List.drop_left' (show (u32le (s1 a).length).length = 4 by simp)]
  rw [readBytes_take _ _ _ (by simp), leToNat_u32le, Nat.mod_eq_of_lt hl2]
  rw [List.drop_left' (show (u32le (s2 b).length).length = 4 by simp)]
  rw [if_neg (by simp only [ne_eq, List.length_append, not_not] <;> omega)]
  rw [List.take_left, List.drop_left]
  rw [h1]
  dsimp only
  rw [h2]

theorem u32_entries_flatten_length {α : Type} (f : α → Nat) (xs : List α) :
    ((xs.map (fun x => u32le (f x))).flatten).length = xs.length * 4 := by
  induction xs with
  | nil => simp
  | cons x xs ih =>
    simp only [List.map_cons, List.flatten_cons, List.length_append,
      u32le_length, List.length_cons, ih]
    omega

/-- The element loop of the `Vec` codec round-trips over the size table
and data region produced by `Vec::serialize` (ignoring whatever follows
the size table). -/
theorem vecGo_flatten {α : Type} (deser : List Nat → DResult α)
    (enc : α → List Nat) (P : α → Prop)
    (hdes : ∀ x, P x → deser (enc x) = .ok x)
    (hsz : ∀ x, P x → (enc x).length < 2 ^ 32) :
    ∀ (xs : List α) (extra : List Nat), (∀ x ∈ xs, P x) →
      vecDeserializeGo deser xs.length
        ((xs.map (fun x => u32le (enc x).length)).flatten ++ extra)
        ((xs.map enc).flatten)
      = .ok xs := by
  intro xs
  induction xs with
  | nil => intro extra _; simp [vecDeserializeGo]
  | cons x xs ih =>
    intro extra hP
    have hx := hP x (by simp)
    simp only [List.map_cons, List.flatten_cons, List.length_cons,
      List.append_assoc]
    simp only [vecDeserializeGo]
    rw [if_neg (by simp only [List.length_append, u32le_length] <;> omega)]
    rw [List.take_left' (show (u32le ((enc x).length)).length = 4 by simp),
      leToNat_u32le, Nat.mod_eq_of_lt (hsz x hx)]
    rw [if_neg (by simp only [List.length_append, not_lt] <;> omega)]
    rw [List.take_left, hdes x hx]
    dsimp only
    rw [List.drop_left' (show (u32le ((enc x).length)).length = 4 by simp),
      List.drop_left]
    rw [ih extra (fun y hy => hP y (by simp [hy]))]

/-- The `Vec<T>` codec round-trips (given the element codec does, the
element encodings fit 32 bits, and the count fits 32 bits). -/
theorem vec_roundtrip {α : Type} (ser : α → List Nat)
    (deser : List Nat → DResult α) (P : α → Prop)
    (hdes : ∀ x, P x → deser (ser x) = .ok x)
    (hsz : ∀ x, P x → (ser x).length < 2 ^ 32)
    (xs : List α) (hP : ∀ x ∈ xs, P x) (hcount : xs.length < 2 ^ 32) :
    vecDeserialize deser (vecSerialize ser xs) = .ok xs := by
  have hslen : ((xs.map (fun x => u32le (ser x).length)).flatten).length
      = xs.length * 4 := u32_entries_flatten_length _ _
  simp only [vecSerialize, vecDeserialize, readU32, List.append_assoc]
  rw [if_neg (by simp only [List.length_append, u32le_length] <;> omega)]
  rw [readBytes_take _ _ _ (by simp), leToNat_u32le,
    Nat.mod_eq_of_lt hcount]
  rw [List.drop_left' (show (u32le xs.length).length = 4 by simp)]
  rw [if_neg (by simp only [List.length_append, hslen, not_lt] <;> omega)]
  rw [show ((xs.map (fun x => u32le (ser x).length)).flatten
      ++ (xs.map ser).flatten).drop (xs.length * 4)
    = (xs.map ser).flatten from List.drop_left' hslen]
  exact vecGo_flatten deser ser P hdes hsz xs _ hP

/-- The state-proof-item (pair of bytes and optional bytes) codec
round-trips when the item's encoding fits 32 bits. -/
theorem stateproofitem_roundtrip (it : StateProofItem)
    (h : (StateProofItem.serialize it).length < 2 ^ 32) :
    pairDeserialize bytesDeserialize (optionDeserialize bytesDeserialize)
      (StateProofItem.serialize it) = .ok it := by
  obtain ⟨k, ov⟩ := it
  have hlen := pairSerialize_length bytesSerialize
    (optionSerialize bytesSerialize) (k, ov)
  unfold StateProofItem.serialize at h ⊢
  refine pair_roundtrip _ _ _ _ k ov rfl
    (option_roundtrip _ _ ov (fun x _ => rfl)) ?_ ?_
  · rw [hlen] at h
    simp only [bytesSerialize] at h ⊢
    omega
  · rw [hlen] at h
    simp only [bytesSerialize] at h ⊢
    omega

/-- Decoding serialized state proofs recovers them. -/
theorem stateproofs_roundtrip (s : StateProofs) (h : wfStateProofs s) :
    StateProofs.deserialize (StateProofs.serialize s) = .ok s := by
  obtain ⟨hroot, hcount, hitem, hitems, hpcount, hblob, hproof⟩ := h
  have hvi : vecDeserialize
      (pairDeserialize bytesDeserialize (optionDeserialize bytesDeserialize))
      (vecSerialize StateProofItem.serialize s.items) = .ok s.items :=
    vec_roundtrip StateProofItem.serialize _
      (fun it => (StateProofItem.serialize it).length < 2 ^ 32)
      (fun it hb => stateproofitem_roundtrip it hb)
      (fun it hb => hb) s.items hitem hcount
  have hvp : vecDeserialize bytesDeserialize
      (vecSerialize bytesSerialize s.proof) = .ok s.proof :=
    vec_roundtrip bytesSerialize bytesDeserialize
      (fun b => b.length < 2 ^ 32)
      (fun b _ => rfl) (fun b hb => hb) s.proof hblob hpcount
  simp only [StateProofs.serialize, StateProofs.deserialize, readU32,
    List.append_assoc]
  rw [if_neg (by simp only [List.length_append, u32le_length, hroot]
    <;> omega)]
  rw [readBytes_take _ _ _ hroot]
  rw [List.drop_left' hroot]
  rw [readBytes_take _ _ _ (by simp), leToNat_u32le, Nat.mod_eq_of_lt hitems]
  rw [List.drop_left'
    (show (u32le (vecSerialize StateProofItem.serialize s.items).length).length
      = 4 by simp)]
  rw [readBytes_take _ _ _ (by simp), leToNat_u32le, Nat.mod_eq_of_lt hproof]
  rw [List.drop_left'
    (show (u32le (vecSerialize bytesSerialize s.proof).length).length
      = 4 by simp)]
  rw [if_neg (by simp only [List.length_append, not_lt] <;> omega)]
  rw [List.take_left, List.drop_left]
  rw [hvi]
  dsimp only
  rw [hvp]

/-- `CallData::serialize` is the plain concatenation of its four
spans. -/
theorem calldata_serialize_concat (msg : CallData) :
    CallData.serialize msg =
      u32le msg.method_name.length ++ (u32le msg.arguments.length
        ++ (msg.method_name ++ msg.arguments)) := by
  have h1 : writeAt (List.replicate (8 + msg.method_name.length + msg.arguments.length) 0) (0) (u32le (msg.method_name.length))
      = u32le (msg.method_name.length) ++ (List.replicate (4 + msg.method_name.length + msg.arguments.length) 0) := by
    simpa only [List.append_assoc, List.nil_append, List.append_nil] using
      writeAt_block (m := 8 + msg.method_name.length + msg.arguments.length) (r := 4 + msg.method_name.length + msg.arguments.length) ([])
      (u32le (msg.method_name.length)) rfl
      rfl
      (by
      first
        | omega
        | (simp only [List.length_append, u32le_length, u64le_length,
            List.length_cons, List.length_nil] <;> omega))
  have h2 : writeAt (u32le (msg.method_name.length) ++ (List.replicate (4 + msg.method_name.length + msg.arguments.length) 0)) (4) (u32le (msg.arguments.length))
      = u32le (msg.method_name.length) ++ (u32le (msg.arguments.length) ++ (List.replicate (msg.method_name.length + msg.arguments.length) 0)) := by
    simpa only [List.append_assoc, List.nil_append, List.append_nil] using
      writeAt_block (m := 4 + msg.method_name.length + msg.arguments.length) (r := msg.method_name.length + msg.arguments.length) (u32le (msg.method_name.length))
      (u32le (msg.arguments.length)) rfl
      (show (u32le (msg.method_name.length)).length = 4 by
      first
        | omega
        | (simp only [List.length_append, u32le_length, u64le_length,
            List.length_cons, List.length_nil] <;> omega))
      (by
      first
        | omega
        | (simp only [List.length_append, u32le_length, u64le_length,
            List.length_cons, List.length_nil] <;> omega))
  have h3 : writeAt (u32le (msg.method_name.length) ++ (u32le (msg.arguments.length) ++ (List.replicate (msg.method_name.length + msg.arguments.length) 0))) (8) (msg.method_name)
      = u32le (msg.method_name.length) ++ (u32le (msg.arguments.length) ++ (msg.method_name ++ (List.replicate (msg.arguments.length) 0))) := by
    simpa only [List.append_assoc, List.nil_append, List.append_nil] using
      writeAt_block (m := msg.method_name.length + msg.arguments.length) (r := msg.arguments.length) (u32le (msg.method_name.length) ++ u32le (msg.arguments.length))
      (msg.method_name) rfl
      (show (u32le (msg.method_name.length) ++ u32le (msg.arguments.length)).length = 8 by
      first
        | omega
        | (simp only [List.length_append, u32le_length, u64le_length,
            List.length_cons, List.length_nil] <;> omega))
      (by
      first
        | omega
        | (simp only [List.length_append, u32le_length, u64le_length,
            List.length_cons, List.length_nil] <;> omega))
  have h4 : writeAt (u32le (msg.method_name.length) ++ (u32le (msg.arguments.length) ++ (msg.method_name ++ (List.replicate (msg.arguments.length) 0)))) (8 + msg.method_name.length) (msg.arguments)
      = u32le (msg.method_name.length) ++ (u32le (msg.arguments.length) ++ (msg.method_name ++ (msg.arguments ++ (List.replicate (0) 0)))) := by
    simpa only [List.append_assoc, List.nil_append, List.append_nil] using
      writeAt_block (m := msg.arguments.length) (r := 0) (u32le (msg.method_name.length) ++ u32le (msg.arguments.length) ++ msg.method_name)
      (msg.arguments) rfl
      (show (u32le (msg.method_name.length) ++ u32le (msg.arguments.length) ++ msg.method_name).length = 8 + msg.method_name.length by
      first
        | omega
        | (simp only [List.length_append, u32le_length, u64le_length,
            List.length_cons, List.length_nil] <;> omega))
      (by
      first
        | omega
        | (simp only [List.length_append, u32le_length, u64le_length,
            List.length_cons, List.length_nil] <;> omega))
  simp only [CallData.serialize, fmt_calldata.METHOD_SIZE,
    fmt_calldata.ARGS_SIZE, fmt_calldata.BASESIZE]
  rw [h1, h2, h3, h4]
  simp

/-- `ParamsFromTransaction::serialize` is the plain concatenation of its
six spans. -/
theorem pft_serialize_concat (msg : ParamsFromTransaction)
    (hfa : msg.from_address.length = 32) (hta : msg.to_address.length = 32)
    (hh : msg.transaction_hash.length = 32) :
    ParamsFromTransaction.serialize msg =
      msg.from_address ++ (msg.to_address ++ (u64le msg.value
        ++ (msg.transaction_hash
        ++ (u32le msg.data.length ++ msg.data)))) := by
  have h1 : writeAt (List.replicate (108 + msg.data.length) 0) (0) (msg.from_address)
      = msg.from_address ++ (List.replicate (76 + msg.data.length) 0) := by
    simpa only [List.append_assoc, List.nil_append, List.append_nil] using
      writeAt_block (m := 108 + msg.data.length) (r := 76 + msg.data.length) ([])
      (msg.from_address) rfl
      rfl
      (by
      first
        | omega
        | (simp only [List.length_append, u32le_length, u64le_length,
            List.length_cons, List.length_nil, hfa, hta, hh] <;> omega))
  have h2 : writeAt (msg.from_address ++ (List.replicate (76 + msg.data.length) 0)) (32) (msg.to_address)
      = msg.from_address ++ (msg.to_address ++ (List.replicate (44 + msg.data.length) 0)) := by
    simpa only [List.append_assoc, List.nil_append, List.append_nil] using
      writeAt_block (m := 76 + msg.data.length) (r := 44 + msg.data.length) (msg.from_address)
      (msg.to_address) rfl
      (show (msg.from_address).length = 32 by
      first
        | omega
        | (simp only [List.length_append, u32le_length, u64le_length,
            List.length_cons, List.length_nil, hfa, hta, hh] <;> omega))
      (by
      first
        | omega
        | (simp only [List.length_append, u32le_length, u64le_length,
            List.length_cons, List.length_nil, hfa, hta, hh] <;> omega))
  have h3 : writeAt (msg.from_address ++ (msg.to_address ++ (List.replicate (44 + msg.data.length) 0))) (64) (u64le msg.value)
      = msg.from_address ++ (msg.to_address ++ (u64le msg.value ++ (List.replicate (36 + msg.data.length) 0))) := by
    simpa only [List.append_assoc, List.nil_append, List.append_nil] using
      writeAt_block (m := 44 + msg.data.length) (r := 36 + msg.data.length) (msg.from_address ++ msg.to_address)
      (u64le msg.value) rfl
      (show (msg.from_address ++ msg.to_address).length = 64 by
      first
        | omega
        | (simp only [List.length_append, u32le_length, u64le_length,
            List.length_cons, List.length_nil, hfa, hta, hh] <;> omega))
      (by
      first
        | omega
        | (simp only [List.length_append, u32le_length, u64le_length,
            List.length_cons, List.length_nil, hfa, hta, hh] <;> omega))
  have h4 : writeAt (msg.from_address ++ (msg.to_address ++ (u64le msg.value ++ (List.replicate (36 + msg.data.length) 0)))) (72) (msg.transaction_hash)
      = msg.from_address ++ (msg.to_address ++ (u64le msg.value ++ (msg.transaction_hash ++ (List.replicate (4 + msg.data.length) 0)))) := by
    simpa only [List.append_assoc, List.nil_append, List.append_nil] using
      writeAt_block (m := 36 + msg.data.length) (r := 4 + msg.data.length) (msg.from_address ++ msg.to_address ++ u64le msg.value)
      (msg.transaction_hash) rfl
      (show (msg.from_address ++ msg.to_address ++ u64le msg.value).length = 72 by
      first
        | omega
        | (simp only [List.length_append, u32le_length, u64le_length,
            List.length_cons, List.length_nil, hfa, hta, hh] <;> omega))
      (by
      first
        | omega
        | (simp only [List.length_append, u32le_length, u64le_length,
            List.length_cons, List.length_nil, hfa, hta, hh] <;> omega))
  have h5 : writeAt (msg.from_address ++ (msg.to_address ++ (u64le msg.value ++ (msg.transaction_hash ++ (List.replicate (4 + msg.data.length) 0))))) (104) (u32le (msg.data.length))
      = msg.from_address ++ (msg.to_address ++ (u64le msg.value ++ (msg.transaction_hash ++ (u32le (msg.data.length) ++ (List.replicate (msg.data.length) 0))))) := by
    simpa only [List.append_assoc, List.nil_append, List.append_nil] using
      writeAt_block (m := 4 + msg.data.length) (r := msg.data.length) (msg.from_address ++ msg.to_address ++ u64le msg.value ++ msg.transaction_hash)
      (u32le (msg.data.length)) rfl
      (show (msg.from_address ++ msg.to_address ++ u64le msg.value ++ msg.transaction_hash).length = 104 by
      first
        | omega
        | (simp only [List.length_append, u32le_length, u64le_length,
            List.length_cons, List.length_nil, hfa, hta, hh] <;> omega))
      (by
      first
        | omega
        | (simp only [List.length_append, u32le_length, u64le_length,
            List.length_cons, List.length_nil, hfa, hta, hh] <;> omega))
  have h6 : writeAt (msg.from_address ++ (msg.to_address ++ (u64le msg.value ++ (msg.transaction_hash ++ (u32le (msg.data.length) ++ (List.replicate (msg.data.length) 0)))))) (108) (msg.data)
      = msg.from_address ++ (msg.to_address ++ (u64le msg.value ++ (msg.transaction_hash ++ (u32le (msg.data.length) ++ (msg.data ++ (List.replicate (0) 0)))))) := by
    simpa only [List.append_assoc, List.nil_append, List.append_nil] using
      writeAt_block (m := msg.data.length) (r := 0) (msg.from_address ++ msg.to_address ++ u64le msg.value ++ msg.transaction_hash ++ u32le (msg.data.length))
      (msg.data) rfl
      (show (msg.from_address ++ msg.to_address ++ u64le msg.value ++ msg.transaction_hash ++ u32le (msg.data.length)).length = 108 by
      first
        | omega
        | (simp only [List.length_append, u32le_length, u64le_length,
            List.length_cons, List.length_nil, hfa, hta, hh] <;> omega))
      (by
      first
        | omega
        | (simp only [List.length_append, u32le_length, u64le_length,
            List.length_cons, List.length_nil, hfa, hta, hh] <;> omega))
  simp only [ParamsFromTransaction.serialize,
    fmt_paramsfromtransaction.FROMADDRESS,
    fmt_paramsfromtransaction.TOADDRESS, fmt_paramsfromtransaction.VALUE,
    fmt_paramsfromtransaction.HASH, fmt_paramsfromtransaction.DATASIZE,
    fmt_paramsfromtransaction.BASESIZE]
  rw [h1, h2, h3, h4, h5, h6]
  simp

/-- `ParamsFromBlockchain::serialize` is the plain concatenation of its
four spans. -/
theorem pfb_serialize_concat (msg : ParamsFromBlockchain)
    (hprev : msg.prev_block_hash.length = 32)
    (hrand : msg.random_bytes.length = 32) :
    ParamsFromBlockchain.serialize msg =
      u64le msg.this_block_number ++ (msg.prev_block_hash
        ++ (u32le msg.timestamp ++ msg.random_bytes)) := by
  have h1 : writeAt (List.replicate (76) 0) (0) (u64le msg.this_block_number)
      = u64le msg.this_block_number ++ (List.replicate (68) 0) := by
    simpa only [List.append_assoc, List.nil_append, List.append_nil] using
      writeAt_block (m := 76) (r := 68) ([])
      (u64le msg.this_block_number) rfl
      rfl
      (by
      first
        | omega
        | (simp only [List.length_append, u32le_length, u64le_length,
            List.length_cons, List.length_nil, hprev, hrand] <;> omega))
  have h2 : writeAt (u64le msg.this_block_number ++ (List.replicate (68) 0)) (8) (msg.prev_block_hash)
      = u64le msg.this_block_number ++ (msg.prev_block_hash ++ (List.replicate (36) 0)) := by
    simpa only [List.append_assoc, List.nil_append, List.append_nil] using
      writeAt_block (m := 68) (r := 36) (u64le msg.this_block_number)
      (msg.prev_block_hash) rfl
      (show (u64le msg.this_block_number).length = 8 by
      first
        | omega
        | (simp only [List.length_append, u32le_length, u64le_length,
            List.length_cons, List.length_nil, hprev, hrand] <;> omega))
      (by
      first
        | omega
        | (simp only [List.length_append, u32le_length, u64le_length,
            List.length_cons, List.length_nil, hprev, hrand] <;> omega))
  have h3 : writeAt (u64le msg.this_block_number ++ (msg.prev_block_hash ++ (List.replicate (36) 0))) (40) (u32le msg.timestamp)
      = u64le msg.this_block_number ++ (msg.prev_block_hash ++ (u32le msg.timestamp ++ (List.replicate (32) 0))) := by
    simpa only [List.append_assoc, List.nil_append, List.append_nil] using
      writeAt_block (m := 36) (r := 32) (u64le msg.this_block_number ++ msg.prev_block_hash)
      (u32le msg.timestamp) rfl
      (show (u64le msg.this_block_number ++ msg.prev_block_hash).length = 40 by
      first
        | omega
        | (simp only [List.length_append, u32le_length, u64le_length,
            List.length_cons, List.length_nil, hprev, hrand] <;> omega))
      (by
      first
        | omega
        | (simp only [List.length_append, u32le_length, u64le_length,
            List.length_cons, List.length_nil, hprev, hrand] <;> omega))
  have h4 : writeAt (u64le msg.this_block_number ++ (msg.prev_block_hash ++ (u32le msg.timestamp ++ (List.replicate (32) 0)))) (44) (msg.random_bytes)
      = u64le msg.this_block_number ++ (msg.prev_block_hash ++ (u32le msg.timestamp ++ (msg.random_bytes ++ (List.replicate (0) 0)))) := by
    simpa only [List.append_assoc, List.nil_append, List.append_nil] using
      writeAt_block (m := 32) (r := 0) (u64le msg.this_block_number ++ msg.prev_block_hash ++ u32le msg.timestamp)
      (msg.random_bytes) rfl
      (show (u64le msg.this_block_number ++ msg.prev_block_hash ++ u32le msg.timestamp).length = 44 by
      first
        | omega
        | (simp only [List.length_append, u32le_length, u64le_length,
            List.length_cons, List.length_nil, hprev, hrand] <;> omega))
      (by
      first
        | omega
        | (simp only [List.length_append, u32le_length, u64le_length,
            List.length_cons, List.length_nil, hprev, hrand] <;> omega))
  simp only [ParamsFromBlockchain.serialize,
    fmt_paramsfromblockchain.BLOCKNUM, fmt_paramsfromblockchain.PREVHASH,
    fmt_paramsfromblockchain.TIMESTAMP, fmt_paramsfromblockchain.RANDOMBYTES,
    fmt_paramsfromblockchain.BASESIZE]
  rw [h1, h2, h3, h4]
  simp

/-- Decoding serialized call data recovers it. -/
theorem calldata_roundtrip (msg : CallData) (h : wfCallData msg) :
    CallData.deserialize (CallData.serialize msg) = .ok msg := by
  obtain ⟨hvalid, hm, ha⟩ := h
  rw [calldata_serialize_concat msg]
  have r0 : readBytes (u32le msg.method_name.length
      ++ (u32le msg.arguments.length
      ++ (msg.method_name ++ msg.arguments))) 0 4
      = u32le msg.method_name.length := readBytes_take _ _ _ (by simp)
  have r4 : readBytes (u32le msg.method_name.length
      ++ (u32le msg.arguments.length
      ++ (msg.method_name ++ msg.arguments))) 4 4
      = u32le msg.arguments.length :=
    readBytes_seg _ _ _ _ _ (by simp) (by simp)
  have hdrop8 : (u32le msg.method_name.length
      ++ (u32le msg.arguments.length
      ++ (msg.method_name ++ msg.arguments))).drop 8
      = msg.method_name ++ msg.arguments := by
    rw [show u32le msg.method_name.length ++ (u32le msg.arguments.length
        ++ (msg.method_name ++ msg.arguments))
      = (u32le msg.method_name.length ++ u32le msg.arguments.length)
        ++ (msg.method_name ++ msg.arguments) by simp]
    exact List.drop_left' (by simp)
  simp only [CallData.deserialize, fmt_calldata.METHOD_SIZE,
    fmt_calldata.ARGS_SIZE, fmt_calldata.BASESIZE, readU32]
  rw [r0, r4, leToNat_u32le, leToNat_u32le, Nat.mod_eq_of_lt hm,
    Nat.mod_eq_of_lt ha, hdrop8]
  rw [if_neg (by simp only [List.length_append, u32le_length] <;> omega)]
  rw [if_neg (by simp only [List.length_append, not_lt] <;> omega)]
  rw [List.take_left, List.drop_left, hvalid]
  rfl

/-- Decoding serialized transaction-context parameters recovers them. -/
theorem pft_roundtrip (msg : ParamsFromTransaction)
    (h : wfParamsFromTransaction msg) :
    ParamsFromTransaction.deserialize (ParamsFromTransaction.serialize msg)
      = .ok msg := by
  obtain ⟨hfa, hta, hh, hv, hd⟩ := h
  rw [pft_serialize_concat msg hfa hta hh]
  have hlen : (msg.from_address ++ (msg.to_address ++ (u64le msg.value
      ++ (msg.transaction_hash
      ++ (u32le msg.data.length ++ msg.data))))).length
      = 108 + msg.data.length := by
    simp only [List.length_append, u32le_length, u64le_length, hfa, hta, hh]
      <;> omega
  have r104 : readBytes (msg.from_address ++ (msg.to_address
      ++ (u64le msg.value ++ (msg.transaction_hash
      ++ (u32le msg.data.length ++ msg.data))))) 104 4
      = u32le msg.data.length := by
    rw [show msg.from_address ++ (msg.to_address ++ (u64le msg.value
        ++ (msg.transaction_hash ++ (u32le msg.data.length ++ msg.data))))
      = (msg.from_address ++ msg.to_address ++ u64le msg.value
        ++ msg.transaction_hash)
        ++ (u32le msg.data.length ++ msg.data) by simp]
    exact readBytes_seg _ _ _ _ _ (by simp [hfa, hta, hh]) (by simp)
  simp only [ParamsFromTransaction.deserialize,
    fmt_paramsfromtransaction.FROMADDRESS,
    fmt_paramsfromtransaction.TOADDRESS, fmt_paramsfromtransaction.VALUE,
    fmt_paramsfromtransaction.HASH, fmt_paramsfromtransaction.DATASIZE,
    fmt_paramsfromtransaction.BASESIZE, readU32, readU64]
  rw [hlen, r104, leToNat_u32le, Nat.mod_eq_of_lt hd]
  rw [if_neg (by omega), if_neg (by omega), if_neg (by omega)]
  have rfa : readBytes (msg.from_address ++ (msg.to_address
      ++ (u64le msg.value ++ (msg.transaction_hash
      ++ (u32le msg.data.length ++ msg.data))))) 0 32
      = msg.from_address := readBytes_take _ _ _ hfa
  have rta : readBytes (msg.from_address ++ (msg.to_address
      ++ (u64le msg.value ++ (msg.transaction_hash
      ++ (u32le msg.data.length ++ msg.data))))) 32 32
      = msg.to_address := readBytes_seg _ _ _ _ _ hfa hta
  have rv : readBytes (msg.from_address ++ (msg.to_address
      ++ (u64le msg.value ++ (msg.transaction_hash
      ++ (u32le msg.data.length ++ msg.data))))) 64 8
      = u64le msg.value := by
    rw [show msg.from_address ++ (msg.to_address ++ (u64le msg.value
        ++ (msg.transaction_hash ++ (u32le msg.data.length ++ msg.data))))
      = (msg.from_address ++ msg.to_address)
        ++ (u64le msg.value ++ (msg.transaction_hash
        ++ (u32le msg.data.length ++ msg.data))) by simp]
    exact readBytes_seg _ _ _ _ _ (by simp [hfa, hta]) (by simp)
  have rh : readBytes (msg.from_address ++ (msg.to_address
      ++ (u64le msg.value ++ (msg.transaction_hash
      ++ (u32le msg.data.length ++ msg.data))))) 72 32
      = msg.transaction_hash := by
    rw [show msg.from_address ++ (msg.to_address ++ (u64le msg.value
        ++ (msg.transaction_hash ++ (u32le msg.data.length ++ msg.data))))
      = (msg.from_address ++ msg.to_address ++ u64le msg.value)
        ++ (msg.transaction_hash
        ++ (u32le msg.data.length ++ msg.data)) by simp]
    exact readBytes_seg _ _ _ _ _ (by simp [hfa, hta]) hh
  have rd : readBytes (msg.from_address ++ (msg.to_address
      ++ (u64le msg.value ++ (msg.transaction_hash
      ++ (u32le msg.data.length ++ msg.data))))) 108 msg.data.length
      = msg.data := by
    rw [show msg.from_address ++ (msg.to_address ++ (u64le msg.value
        ++ (msg.transaction_hash ++ (u32le msg.data.length ++ msg.data))))
      = (msg.from_address ++ msg.to_address ++ u64le msg.value
        ++ msg.transaction_hash ++ u32le msg.data.length)
        ++ msg.data by simp]
    exact readBytes_seg_end _ _ _ _ (by simp [hfa, hta, hh]) rfl
  rw [rfa, rta, rv, rh, rd, leToNat_u64le, Nat.mod_eq_of_lt hv]

/-- Decoding serialized blockchain-context parameters recovers them. -/
theorem pfb_roundtrip (msg : ParamsFromBlockchain)
    (h : wfParamsFromBlockchain msg) :
    ParamsFromBlockchain.deserialize (ParamsFromBlockchain.serialize msg)
      = .ok msg := by
  obtain ⟨hn, hprev, hts, hrand⟩ := h
  rw [pfb_serialize_concat msg hprev hrand]
  have r0 : readBytes (u64le msg.this_block_number ++ (msg.prev_block_hash
      ++ (u32le msg.timestamp ++ msg.random_bytes))) 0 8
      = u64le msg.this_block_number := readBytes_take _ _ _ (by simp)
  have r8 : readBytes (u64le msg.this_block_number ++ (msg.prev_block_hash
      ++ (u32le msg.timestamp ++ msg.random_bytes))) 8 32
      = msg.prev_block_hash := readBytes_seg _ _ _ _ _ (by simp) hprev
  have r40 : readBytes (u64le msg.this_block_number ++ (msg.prev_block_hash
      ++ (u32le msg.timestamp ++ msg.random_bytes))) 40 4
      = u32le msg.timestamp := by
    rw [show u64le msg.this_block_number ++ (msg.prev_block_hash
        ++ (u32le msg.timestamp ++ msg.random_bytes))
      = (u64le msg.this_block_number ++ msg.prev_block_hash)
        ++ (u32le msg.timestamp ++ msg.random_bytes) by simp]
    exact readBytes_seg _ _ _ _ _ (by simp [hprev]) (by simp)
  have r44 : readBytes (u64le msg.this_block_number ++ (msg.prev_block_hash
      ++ (u32le msg.timestamp ++ msg.random_bytes))) 44 32
      = msg.random_bytes := by
    rw [show u64le msg.this_block_number ++ (msg.prev_block_hash
        ++ (u32le msg.timestamp ++ msg.random_bytes))
      = (u64le msg.this_block_number ++ msg.prev_block_hash
        ++ u32le msg.timestamp) ++ msg.random_bytes by simp]
    exact readBytes_seg_end _ _ _ _ (by simp [hprev]) hrand
  simp only [ParamsFromBlockchain.deserialize,
    fmt_paramsfromblockchain.BLOCKNUM, fmt_paramsfromblockchain.PREVHASH,
    fmt_paramsfromblockchain.TIMESTAMP,
    fmt_paramsfromblockchain.RANDOMBYTES,
    fmt_paramsfromblockchain.BASESIZE, readU32, readU64]
  rw [r0, r8, r40, r44, leToNat_u64le, leToNat_u32le,
    Nat.mod_eq_of_lt hn, Nat.mod_eq_of_lt hts]
  rw [if_neg (by simp only [List.length_append, u32le_length, u64le_length,
    hprev, hrand] <;> omega)]

theorem readBytes_drop (buf : List Nat) (k off n : Nat) :
    readBytes (buf.drop k) off n = readBytes buf (k + off) n := by
  unfold readBytes
  rw [List.drop_drop]

theorem readBytes_of_take (buf : List Nat) (m off n : Nat) (h : off + n ≤ m) :
    readBytes (buf.take m) off n = readBytes buf off n := by
  unfold readBytes
  rw [List.drop_take, List.take_take]
  congr 1
  omega

theorem map_self_mem {α : Type} (f : α → α) (l : List α) (h : l.map f = l) :
    ∀ x ∈ l, f x = x := by
  induction l with
  | nil => simp
  | cons a l ih =>
    simp only [List.map_cons, List.cons.injEq] at h
    intro x hx
    rcases List.mem_cons.mp hx with hxa | hxl
    · rw [hxa, h.1]
    · exact ih h.2 x hxl

/-- Removing the final byte of a serialized transaction makes decoding
fail with `IncorrectLength`. -/
theorem transaction_truncated (t : Transaction) (h : wfTransaction t) :
    Transaction.deserialize ((Transaction.serialize t).dropLast)
      = .err .IncorrectLength := by
  obtain ⟨hfa, hta, hh, hs, _, _, _, _, _, hd⟩ := h
  have hlen := transaction_serialize_length t hfa hta hh hs
  rw [List.dropLast_eq_take, hlen]
  have htklen : ((Transaction.serialize t).take (204 + t.data.length - 1)).length
      = 203 + t.data.length := by
    rw [List.length_take, hlen]
    omega
  rcases Nat.eq_zero_or_pos t.data.length with hn | hn
  · simp only [Transaction.deserialize, fmt_transaction.BASESIZE,
      fmt_transaction.DATASIZE, readU32]
    rw [if_pos (by rw [htklen, hn]; omega)]
  ·
    have hread : readBytes ((Transaction.serialize t).take
        (204 + t.data.length - 1)) 200 4
        = readBytes (Transaction.serialize t) 200 4 :=
      readBytes_of_take _ _ _ _ (by omega)
    have hds : readBytes (Transaction.serialize t) 200 4
        = u32le t.data.length := by
      rw [transaction_serialize_concat t hfa hta hh hs]
      rw [show t.from_address ++ (t.to_address ++ (u64le t.value
          ++ (u64le t.tip ++ (u64le t.gas_limit ++ (u64le t.gas_price
          ++ (u64le t.n_txs_on_chain_from_address ++ (t.hash ++ (t.signature
          ++ (u32le t.data.length ++ t.data)))))))))
        = (t.from_address ++ t.to_address ++ u64le t.value ++ u64le t.tip
          ++ u64le t.gas_limit ++ u64le t.gas_price
          ++ u64le t.n_txs_on_chain_from_address ++ t.hash ++ t.signature)
          ++ (u32le t.data.length ++ t.data) by simp]
      exact readBytes_seg _ _ _ _ _ (by simp [hfa, hta, hh, hs]) (by simp)
    simp only [Transaction.deserialize, fmt_transaction.BASESIZE,
      fmt_transaction.DATASIZE, readU32]
    rw [htklen, hread, hds, leToNat_u32le, Nat.mod_eq_of_lt hd]
    rw [if_neg (by omega), if_pos (by omega)]

/-- The ten fixed-field spans of a serialized transaction sit at the
table offsets. -/
theorem transaction_field_spans (t : Transaction)
    (hfa : t.from_address.length = 32) (hta : t.to_address.length = 32)
    (hh : t.hash.length = 32) (hs : t.signature.length = 64) :
    readBytes (Transaction.serialize t) 0 32 = t.from_address
    ∧ readBytes (Transaction.serialize t) 32 32 = t.to_address
    ∧ readBytes (Transaction.serialize t) 64 8 = u64le t.value
    ∧ readBytes (Transaction.serialize t) 72 8 = u64le t.tip
    ∧ readBytes (Transaction.serialize t) 80 8 = u64le t.gas_limit
    ∧ readBytes (Transaction.serialize t) 88 8 = u64le t.gas_price
    ∧ readBytes (Transaction.serialize t) 96 8
        = u64le t.n_txs_on_chain_from_address
    ∧ readBytes (Transaction.serialize t) 104 32 = t.hash
    ∧ readBytes (Transaction.serialize t) 136 64 = t.signature
    ∧ readBytes (Transaction.serialize t) 200 4 = u32le t.data.length := by
  rw [transaction_serialize_concat t hfa hta hh hs]
  refine ⟨readBytes_take _ _ _ hfa, ?_, ?_, ?_, ?_, ?_, ?_, ?_, ?_, ?_⟩
  · exact readBytes_seg _ _ _ _ _ hfa hta
  · rw [show t.from_address ++ (t.to_address ++ (u64le t.value
        ++ (u64le t.tip ++ (u64le t.gas_limit ++ (u64le t.gas_price
        ++ (u64le t.n_txs_on_chain_from_address ++ (t.hash ++ (t.signature
        ++ (u32le t.data.length ++ t.data)))))))))
      = (t.from_address ++ t.to_address)
        ++ (u64le t.value ++ (u64le t.tip ++ (u64le t.gas_limit
        ++ (u64le t.gas_price ++ (u64le t.n_txs_on_chain_from_address
        ++ (t.hash ++ (t.signature
        ++ (u32le t.data.length ++ t.data)))))))) by simp]
    exact readBytes_seg _ _ _ _ _ (by simp [hfa, hta]) (by simp)
  · rw [show t.from_address ++ (t.to_address ++ (u64le t.value
        ++ (u64le t.tip ++ (u64le t.gas_limit ++ (u64le t.gas_price
        ++ (u64le t.n_txs_on_chain_from_address ++ (t.hash ++ (t.signature
        ++ (u32le t.data.length ++ t.data)))))))))
      = (t.from_address ++ t.to_address ++ u64le t.value)
        ++ (u64le t.tip ++ (u64le t.gas_limit
        ++ (u64le t.gas_price ++ (u64le t.n_txs_on_chain_from_address
        ++ (t.hash ++ (t.signature
        ++ (u32le t.data.length ++ t.data))))))) by simp]
    exact readBytes_seg _ _ _ _ _ (by simp [hfa, hta]) (by simp)
  · rw [show t.from_address ++ (t.to_address ++ (u64le t.value
        ++ (u64le t.tip ++ (u64le t.gas_limit ++ (u64le t.gas_price
        ++ (u64le t.n_txs_on_chain_from_address ++ (t.hash ++ (t.signature
        ++ (u32le t.data.length ++ t.data)))))))))
      = (t.from_address ++ t.to_address ++ u64le t.value ++ u64le t.tip)
        ++ (u64le t.gas_limit
        ++ (u64le t.gas_price ++ (u64le t.n_txs_on_chain_from_address
        ++ (t.hash ++ (t.signature
        ++ (u32le t.data.length ++ t.data)))))) by simp]
    exact readBytes_seg _ _ _ _ _ (by simp [hfa, hta]) (by simp)
  · rw [show t.from_address ++ (t.to_address ++ (u64le t.value
        ++ (u64le t.tip ++ (u64le t.gas_limit ++ (u64le t.gas_price
        ++ (u64le t.n_txs_on_chain_from_address ++ (t.hash ++ (t.signature
        ++ (u32le t.data.length ++ t.data)))))))))
      = (t.from_address ++ t.to_address ++ u64le t.value ++ u64le t.tip
        ++ u64le t.gas_limit)
        ++ (u64le t.gas_price ++ (u64le t.n_txs_on_chain_from_address
        ++ (t.hash ++ (t.signature
        ++ (u32le t.data.length ++ t.data))))) by simp]
    exact readBytes_seg _ _ _ _ _ (by simp [hfa, hta]) (by simp)
  · rw [show t.from_address ++ (t.to_address ++ (u64le t.value
        ++ (u64le t.tip ++ (u64le t.gas_limit ++ (u64le t.gas_price
        ++ (u64le t.n_txs_on_chain_from_address ++ (t.hash ++ (t.signature
        ++ (u32le t.data.length ++ t.data)))))))))
      = (t.from_address ++ t.to_address ++ u64le t.value ++ u64le t.tip
        ++ u64le t.gas_limit ++ u64le t.gas_price)
        ++ (u64le t.n_txs_on_chain_from_address
        ++ (t.hash ++ (t.signature
        ++ (u32le t.data.length ++ t.data)))) by simp]
    exact readBytes_seg _ _ _ _ _ (by simp [hfa, hta]) (by simp)
  · rw [show t.from_address ++ (t.to_address ++ (u64le t.value
        ++ (u64le t.tip ++ (u64le t.gas_limit ++ (u64le t.gas_price
        ++ (u64le t.n_txs_on_chain_from_address ++ (t.hash ++ (t.signature
        ++ (u32le t.data.length ++ t.data)))))))))
      = (t.from_address ++ t.to_address ++ u64le t.value ++ u64le t.tip
        ++ u64le t.gas_limit ++ u64le t.gas_price
        ++ u64le t.n_txs_on_chain_from_address)
        ++ (t.hash ++ (t.signature
        ++ (u32le t.data.length ++ t.data))) by simp]
    exact readBytes_seg _ _ _ _ _ (by simp [hfa, hta]) hh
  · rw [show t.from_address ++ (t.to_address ++ (u64le t.value
        ++ (u64le t.tip ++ (u64le t.gas_limit ++ (u64le t.gas_price
        ++ (u64le t.n_txs_on_chain_from_address ++ (t.hash ++ (t.signature
        ++ (u32le t.data.length ++ t.data)))))))))
      = (t.from_address ++ t.to_address ++ u64le t.value ++ u64le t.tip
        ++ u64le t.gas_limit ++ u64le t.gas_price
        ++ u64le t.n_txs_on_chain_from_address ++ t.hash)
        ++ (t.signature ++ (u32le t.data.length ++ t.data)) by simp]
    exact readBytes_seg _ _ _ _ _ (by simp [hfa, hta, hh]) hs
  · rw [show t.from_address ++ (t.to_address ++ (u64le t.value
        ++ (u64le t.tip ++ (u64le t.gas_limit ++ (u64le t.gas_price
        ++ (u64le t.n_txs_on_chain_from_address ++ (t.hash ++ (t.signature
        ++ (u32le t.data.length ++ t.data)))))))))
      = (t.from_address ++ t.to_address ++ u64le t.value ++ u64le t.tip
        ++ u64le t.gas_limit ++ u64le t.gas_price
        ++ u64le t.n_txs_on_chain_from_address ++ t.hash ++ t.signature)
        ++ (u32le t.data.length ++ t.data) by simp]
    exact readBytes_seg _ _ _ _ _ (by simp [hfa, hta, hh, hs]) (by simp)

/-! The claims. -/

set_option maxRecDepth 1000000

set_option maxHeartbeats 4000000

/-- Claim C1 (corrected): decode after encode recovers the value for
every entity type, for values satisfying the Rust type invariants and
the 32-bit size bounds; `MerkleProof` additionally needs its `usize`
leaf count and leaf indices below `2 ^ 32` — without that bound the
round-trip fails (see the counterexample), because `serialize` casts
them to `u32`. -/
theorem claim_C1_roundtrip :
    (∀ t, wfTransaction t →
      Transaction.deserialize (Transaction.serialize t) = .ok t)
    ∧ (∀ e, wfEvent e → Event.deserialize (Event.serialize e) = .ok e)
    ∧ (∀ r, wfReceipt r → Receipt.deserialize (Receipt.serialize r) = .ok r)
    ∧ (∀ h, wfBlockHeader h →
      BlockHeader.deserialize (BlockHeader.serialize h) = .ok h)
    ∧ (∀ b, wfBlock b → Block.deserialize (Block.serialize b) = .ok b)
    ∧ (∀ p, wfMerkleProof p →
      MerkleProof.deserialize (MerkleProof.serialize p) = .ok p)
    ∧ (∀ s, wfStateProofs s →
      StateProofs.deserialize (StateProofs.serialize s) = .ok s)
    ∧ (∀ c, wfCallData c → CallData.deserialize (CallData.serialize c) = .ok c)
    ∧ (∀ p, wfParamsFromTransaction p →
      ParamsFromTransaction.deserialize (ParamsFromTransaction.serialize p)
        = .ok p)
    ∧ (∀ p, wfParamsFromBlockchain p →
      ParamsFromBlockchain.deserialize (ParamsFromBlockchain.serialize p)
        = .ok p) :=
  ⟨transaction_roundtrip, event_roundtrip, receipt_roundtrip,
   blockheader_roundtrip, block_roundtrip, merkleproof_roundtrip,
   stateproofs_roundtrip, calldata_roundtrip, pft_roundtrip, pfb_roundtrip⟩

/-- Claim C1 counterexample: a valid in-memory `MerkleProof` whose
`usize` leaf count is `2 ^ 32` (with all variable fields empty) does not
round-trip — `serialize` truncates the count to 32 bits, so decode
returns the count `0`. -/
theorem claim_C1_counterexample :
    MerkleProof.deserialize (MerkleProof.serialize mpOverflow)
      ≠ .ok mpOverflow := by
  decide

/-- Claim C1 witness: the round-trip at concrete samples of all ten
entity types, including empty variable-length fields (`txSmall` inside
`blkSample` has empty data, `mpSample` has a nonempty proof while
`blkSample`'s receipt holds one event). -/
theorem claim_C1_witness :
    Transaction.deserialize (Transaction.serialize txSample) = .ok txSample
    ∧ Event.deserialize (Event.serialize evSample) = .ok evSample
    ∧ Receipt.deserialize (Receipt.serialize rcSample) = .ok rcSample
    ∧ BlockHeader.deserialize (BlockHeader.serialize bhSample) = .ok bhSample
    ∧ Block.deserialize (Block.serialize blkSample) = .ok blkSample
    ∧ MerkleProof.deserialize (MerkleProof.serialize mpSample) = .ok mpSample
    ∧ StateProofs.deserialize (StateProofs.serialize spSample) = .ok spSample
    ∧ CallData.deserialize (CallData.serialize cdSample) = .ok cdSample
    ∧ ParamsFromTransaction.deserialize
        (ParamsFromTransaction.serialize pftSample) = .ok pftSample
    ∧ ParamsFromBlockchain.deserialize
        (ParamsFromBlockchain.serialize pfbSample) = .ok pfbSample :=
  ⟨claim_C1_roundtrip.1 txSample (by unfold wfTransaction; decide),
   claim_C1_roundtrip.2.1 evSample (by unfold wfEvent; decide),
   claim_C1_roundtrip.2.2.1 rcSample (by unfold wfReceipt wfEvent; decide),
   claim_C1_roundtrip.2.2.2.1 bhSample (by unfold wfBlockHeader; decide),
   claim_C1_roundtrip.2.2.2.2.1 blkSample
     (by unfold wfBlock wfBlockHeader wfTransaction wfReceipt wfEvent; decide),
   claim_C1_roundtrip.2.2.2.2.2.1 mpSample
     (by unfold wfMerkleProof wfMerkleProofSizes; decide),
   claim_C1_roundtrip.2.2.2.2.2.2.1 spSample (by unfold wfStateProofs; decide),
   claim_C1_roundtrip.2.2.2.2.2.2.2.1 cdSample (by unfold wfCallData; decide),
   claim_C1_roundtrip.2.2.2.2.2.2.2.2.1 pftSample
     (by unfold wfParamsFromTransaction; decide),
   claim_C1_roundtrip.2.2.2.2.2.2.2.2.2 pfbSample
     (by unfold wfParamsFromBlockchain; decide)⟩

/-- Claim C2 (code bug): `Transaction::deserialize` is not total — on a
205-byte buffer (a full 204-byte base declaring `data_size = 0`, with
one trailing byte) the `copy_from_slice` of `buf[204..]` into the
`data_size`-byte data vector has mismatched lengths and the code
aborts, modelled here as `crash`. -/
theorem claim_C2_crash :
    Transaction.deserialize c2FailingInput = .crash := by
  decide

/-- Claim C3 (code bug): when a transaction item of the block's
transaction region declares a size exceeding the bytes remaining in the
region (while the 204-byte base still fits, so the size read itself
succeeds), the scan takes the out-of-range slice `raw_buf[..size]` and
the code aborts instead of returning `IncorrectLength`, modelled here as
`crash`. -/
theorem claim_C3_crash :
    Block.deserialize c3FailingInput = .crash := by
  decide

/-- Claim C4: the fork/join `Block::serialize` equals the purely
sequential assembly — header bytes, the 32-bit transaction-region byte
length, the 32-bit receipt-region byte length, then the concatenated
transaction encodings and receipt encodings in list order — so the
output depends only on the header and the two lists, independent of
thread scheduling. The hypothesis is the Rust type invariant that each
transaction's fixed byte arrays have their declared lengths. -/
theorem claim_C4_deterministic (b : Block)
    (h : ∀ t ∈ b.transactions, wfTransactionArrays t) :
    Block.serialize b = Block.serializeSequential b :=
  block_serialize_sequential b h

/-- Claim C4 witness: the fork/join serializer agrees with the
sequential assembly at the sample block. -/
theorem claim_C4_witness :
    Block.serialize blkSample = Block.serializeSequential blkSample :=
  claim_C4_deterministic blkSample (by unfold wfTransactionArrays; decide)

/-- Claim C5: a serialized transaction is exactly `204 + n` bytes for an
`n`-byte data field, the ten fixed fields sit at the offsets
from_address(32,0), to_address(32,32), value(8,64), tip(8,72),
gas_limit(8,80), gas_price(8,88), n_txs_on_chain_from_address(8,96),
hash(32,104), signature(64,136), data_size(4,200), and decoding the
encoding with its final byte removed fails with `IncorrectLength`. -/
theorem claim_C5_layout (t : Transaction) (h : wfTransaction t) :
    (Transaction.serialize t).length = 204 + t.data.length
    ∧ (readBytes (Transaction.serialize t) 0 32 = t.from_address
       ∧ readBytes (Transaction.serialize t) 32 32 = t.to_address
       ∧ readBytes (Transaction.serialize t) 64 8 = u64le t.value
       ∧ readBytes (Transaction.serialize t) 72 8 = u64le t.tip
       ∧ readBytes (Transaction.serialize t) 80 8 = u64le t.gas_limit
       ∧ readBytes (Transaction.serialize t) 88 8 = u64le t.gas_price
       ∧ readBytes (Transaction.serialize t) 96 8
           = u64le t.n_txs_on_chain_from_address
       ∧ readBytes (Transaction.serialize t) 104 32 = t.hash
       ∧ readBytes (Transaction.serialize t) 136 64 = t.signature
       ∧ readBytes (Transaction.serialize t) 200 4 = u32le t.data.length)
    ∧ Transaction.deserialize ((Transaction.serialize t).dropLast)
        = .err .IncorrectLength := by
  refine ⟨?_, ?_, transaction_truncated t h⟩
  · exact transaction_serialize_length t h.1 h.2.1 h.2.2.1 h.2.2.2.1
  · exact transaction_field_spans t h.1 h.2.1 h.2.2.1 h.2.2.2.1

/-- Claim C5 witness: the sample transaction with 100-byte data encodes
to exactly 304 bytes, and its 303-byte truncation fails to decode with
`IncorrectLength`. -/
theorem claim_C5_witness :
    (Transaction.serialize txSample).length = 304
    ∧ Transaction.deserialize ((Transaction.serialize txSample).dropLast)
        = .err .IncorrectLength := by
  obtain ⟨h1, -, h3⟩ := claim_C5_layout txSample (by unfold wfTransaction; decide)
  exact ⟨h1.trans (by decide), h3⟩

/-- Claim C6: every `ReceiptStatusCode` variant round-trips through its
single reserved byte value, and every byte value outside the fifteen
reserved ones (byte 255 included) decodes to the
`ReceiptStatusCodeOutOfRange` error, never a default variant. -/
theorem claim_C6_status_codes :
    (∀ c : ReceiptStatusCode, ReceiptStatusCode.tryFrom c.intoU8 = .ok c)
    ∧ ∀ b : Nat, b < 256 →
        b ∉ [0, 10, 11, 12, 13, 20, 21, 22, 23, 30, 31, 40, 41, 42, 50] →
        ReceiptStatusCode.tryFrom b = .err .ReceiptStatusCodeOutOfRange :=
  ⟨tryFrom_intoU8, by decide⟩

/-- Claim C6 witness: the round-trip at `Success` and the out-of-range
decode at byte 255. -/
theorem claim_C6_witness :
    ReceiptStatusCode.tryFrom (ReceiptStatusCode.intoU8 .Success)
      = .ok .Success
    ∧ ReceiptStatusCode.tryFrom 255 = .err .ReceiptStatusCodeOutOfRange :=
  ⟨claim_C6_status_codes.1 .Success,
   claim_C6_status_codes.2 255 (by decide) (by decide)⟩

/-- Claim C7: the 2-tuple codec's decoder requires at least 8 bytes for
the two 32-bit length prefixes (else `IncorrectLength`), rejects with
`IncorrectLength` any buffer whose remainder differs from the declared
sum (strictly shorter or strictly longer — no trailing bytes
tolerated), and succeeds only on buffers of exactly
`8 + size_1 + size_2` bytes. -/
theorem claim_C7_pair_strict {α β : Type}
    (d1 : List Nat → DResult α) (d2 : List Nat → DResult β)
    (buf : List Nat) :
    (buf.length < 8 → pairDeserialize d1 d2 buf = .err .IncorrectLength)
    ∧ (8 ≤ buf.length → buf.length - 8 ≠ readU32 buf 0 + readU32 buf 4 →
        pairDeserialize d1 d2 buf = .err .IncorrectLength)
    ∧ ∀ v, pairDeserialize d1 d2 buf = .ok v →
        buf.length = 8 + (readU32 buf 0 + readU32 buf 4) := by
  have hsz2 : readU32 (buf.drop 4) 0 = readU32 buf 4 := by
    simp only [readU32, readBytes_drop]
  have hlen2 : ((buf.drop 4).drop 4).length = buf.length - 8 := by
    simp only [List.length_drop]
    omega
  refine ⟨fun h8 => ?_, fun h8 hne => ?_, fun v hv => ?_⟩
  · simp only [pairDeserialize, if_pos h8]
  · simp only [pairDeserialize]
    rw [if_neg (by omega), if_pos (by rw [hlen2, hsz2]; exact hne)]
  · by_cases h8 : buf.length < 8
    · simp only [pairDeserialize] at hv
      rw [if_pos h8] at hv
      simp at hv
    · by_cases hne : ((buf.drop 4).drop 4).length
          ≠ readU32 buf 0 + readU32 (buf.drop 4) 0
      · simp only [pairDeserialize] at hv
        rw [if_neg h8, if_pos hne] at hv
        simp at hv
      · have heq := not_ne_iff.mp hne
        rw [hlen2, hsz2] at heq
        omega

/-- Claim C7 witness: the three cases at concrete buffers — a 1-byte
buffer, an 8-byte length prefix with one trailing byte, and an exact
8-byte buffer that decodes to the pair of empty byte vectors. -/
theorem claim_C7_witness :
    pairDeserialize bytesDeserialize bytesDeserialize [0]
      = .err .IncorrectLength
    ∧ pairDeserialize bytesDeserialize bytesDeserialize
        [0, 0, 0, 0, 0, 0, 0, 0, 5] = .err .IncorrectLength
    ∧ ([0, 0, 0, 0, 0, 0, 0, 0] : List Nat).length
        = 8 + (readU32 [0, 0, 0, 0, 0, 0, 0, 0] 0
          + readU32 [0, 0, 0, 0, 0, 0, 0, 0] 4) :=
  ⟨(claim_C7_pair_strict bytesDeserialize bytesDeserialize [0]).1 (by decide),
   (claim_C7_pair_strict bytesDeserialize bytesDeserialize
     [0, 0, 0, 0, 0, 0, 0, 0, 5]).2.1 (by decide) (by decide),
   (claim_C7_pair_strict bytesDeserialize bytesDeserialize
     [0, 0, 0, 0, 0, 0, 0, 0]).2.2 ([], []) (by decide)⟩

/-- Claim C8: the Option codec's decoder errors with `IncorrectLength`
on the empty buffer, returns `none` on tag byte 0 requiring no further
bytes, and on tag byte 1 delegates the entire remainder to the payload
decoder, propagating its outcome. -/
theorem claim_C8_option {α : Type} (d : List Nat → DResult α) :
    optionDeserialize d [] = .err .IncorrectLength
    ∧ (∀ rest, optionDeserialize d (0 :: rest) = .ok none)
    ∧ ∀ rest, optionDeserialize d (1 :: rest)
        = match d rest with
          | .ok v => .ok (some v)
          | .err e => .err e
          | .crash => .crash := by
  refine ⟨rfl, fun rest => ?_, fun rest => ?_⟩
  · simp [optionDeserialize]
  · simp [optionDeserialize]

/-- Claim C8 witness: the three behaviours at concrete buffers with the
byte-vector payload codec. -/
theorem claim_C8_witness :
    optionDeserialize bytesDeserialize [] = .err .IncorrectLength
    ∧ optionDeserialize bytesDeserialize [0] = .ok none
    ∧ optionDeserialize bytesDeserialize [1, 9] = .ok (some [9]) :=
  ⟨(claim_C8_option bytesDeserialize).1,
   (claim_C8_option bytesDeserialize).2.1 [],
   (claim_C8_option bytesDeserialize).2.2 [9]⟩

/-- Claim C9 (implicit): the Option codec's decoder classifies the tag
byte as zero versus nonzero — every nonzero tag byte (not just 1) is
treated as a present value whose remainder is delegated to the payload
decoder; no tag byte is ever rejected as invalid. -/
theorem claim_C9_nonzero_tag {α : Type} (d : List Nat → DResult α)
    (b : Nat) (rest : List Nat) (hb : b ≠ 0) :
    optionDeserialize d (b :: rest)
      = match d rest with
        | .ok v => .ok (some v)
        | .err e => .err e
        | .crash => .crash := by
  simp only [optionDeserialize, if_neg hb]

/-- Claim C9 witness: tag byte 2 decodes as a present byte vector. -/
theorem claim_C9_witness :
    optionDeserialize bytesDeserialize [2, 7] = .ok (some [7]) :=
  claim_C9_nonzero_tag bytesDeserialize 2 [7] (by decide)

/-- Claim C10 (implicit): `MerkleProof::serialize` casts the `usize`
`total_leaves_count` and each leaf index to `u32`, so decode of encode
returns those values reduced modulo `2 ^ 32`; consequently the
round-trip holds exactly when the count and every index are below
`2 ^ 32`, and larger values are silently truncated on encode rather
than rejected. -/
theorem claim_C10_truncation (p : MerkleProof) (h : wfMerkleProofSizes p) :
    MerkleProof.deserialize (MerkleProof.serialize p)
      = .ok { root_hash := p.root_hash,
              total_leaves_count := p.total_leaves_count % 2 ^ 32,
              leaf_indices := p.leaf_indices.map (· % 2 ^ 32),
              leaf_hashes := p.leaf_hashes,
              proof := p.proof }
    ∧ (MerkleProof.deserialize (MerkleProof.serialize p) = .ok p
        ↔ p.total_leaves_count < 2 ^ 32
          ∧ ∀ i ∈ p.leaf_indices, i < 2 ^ 32) := by
  refine ⟨merkleproof_decode_serialize p h, ?_, ?_⟩
  · intro hok
    rw [merkleproof_decode_serialize p h] at hok
    injection hok with heq
    have htot : p.total_leaves_count % 2 ^ 32 = p.total_leaves_count :=
      congrArg MerkleProof.total_leaves_count heq
    have hidx : p.leaf_indices.map (· % 2 ^ 32) = p.leaf_indices :=
      congrArg MerkleProof.leaf_indices heq
    refine ⟨?_, ?_⟩
    · calc p.total_leaves_count = p.total_leaves_count % 2 ^ 32 := htot.symm
        _ < 2 ^ 32 := Nat.mod_lt _ (by norm_num)
    · intro i hi
      have hmi := map_self_mem _ _ hidx i hi
      calc i = i % 2 ^ 32 := hmi.symm
        _ < 2 ^ 32 := Nat.mod_lt _ (by norm_num)
  · rintro ⟨htot, hidx⟩
    have hmap : p.leaf_indices.map (· % 2 ^ 32) = p.leaf_indices := by
      have hcg : ∀ i ∈ p.leaf_indices, i % 2 ^ 32 = i :=
        fun i hi => Nat.mod_eq_of_lt (hidx i hi)
      calc p.leaf_indices.map (· % 2 ^ 32)
          = p.leaf_indices.map id := List.map_congr_left hcg
        _ = p.leaf_indices := List.map_id _
    rw [merkleproof_decode_serialize p h, Nat.mod_eq_of_lt htot, hmap]

/-- Claim C10 witness: the sample whose count is `2 ^ 32 + 5` and whose
single leaf index is `2 ^ 32 + 7` decodes to those values reduced
modulo `2 ^ 32`, and its round-trip accordingly fails. -/
theorem claim_C10_witness :
    MerkleProof.deserialize (MerkleProof.serialize mpTruncSample)
      = .ok { root_hash := mpTruncSample.root_hash,
              total_leaves_count :=
                mpTruncSample.total_leaves_count % 2 ^ 32,
              leaf_indices := mpTruncSample.leaf_indices.map (· % 2 ^ 32),
              leaf_hashes := mpTruncSample.leaf_hashes,
              proof := mpTruncSample.proof }
    ∧ ¬ (MerkleProof.deserialize (MerkleProof.serialize mpTruncSample)
        = .ok mpTruncSample) := by
  have h := claim_C10_truncation mpTruncSample
    (by unfold wfMerkleProofSizes; decide)
  refine ⟨h.1, fun hok => ?_⟩
  exact absurd (h.2.mp hok).1 (by decide)
